import Mathlib

/-!
# The audio engine of Traverso (`src/engine/AudioDevice.cpp`)

A shallow embedding of the `AudioDevice` coordinator: the cycle entry points
(`run_cycle`, `run_one_cycle`), the client list, driver provisioning
(`set_parameters`, `create_driver`, `shutdown`), the automatic fallbacks
(`switch_to_null_driver`, `audiothread_finished`), the buses
(`set_bus_config`, the default buses), xrun and CPU-time accounting (`xrun`,
`get_cpu_time`) and the transport broadcast (`transport_control`); and of the
two transfer functions of the PortAudio driver (`src/engine/PADriver.cpp`),
`_read` and `_write`.

Conventions of the embedding.

* The device is a record of its members (`AudioDevice`); every member function
  is a function on that record. Functions that return a value return it next
  to the updated record.
* What the hardware, the backends and the client callbacks answer is not
  decided by the device: it is read from an environment record (`Env`).
* Calls the device makes outwards (driver read/write, client callbacks, Qt
  signals) are appended, in program order, to the member `log`, and so are
  the entries of `run_one_cycle` and `set_parameters`. The log is the only
  addition to the members of the C++ class, together with the two counters
  that index the answers of the environment.
* Loops and recursion that the C++ code does not bound are given `fuel`; a
  result `none` stands for a computation that did not finish within it.
* `printf`, `qDebug`, `qCritical`, `message(...)` and the time stamps taken
  with `get_microseconds()` are diagnostics and are left out.
-/

namespace SoundOcean

/-- The transport states that the device hands to its clients
(`TransportStopped`, `TransportRolling`, `TransportStarting`). -/
inductive transport_t where
  | TransportStopped
  | TransportRolling
  | TransportStarting
  deriving DecidableEq, Repr

/-- The record `transport_state_t` as `transport_start`, `transport_stop` and
`transport_seek_to` fill it: the transport state, the slave and realtime
flags and the location (a `TimeRef`, kept as a number). -/
structure transport_state_t where
  transport : transport_t
  isSlave : Bool
  realtime : Bool
  location : Int
  deriving DecidableEq, Repr

/-- Qt signals of `AudioDevice` that the modelled functions emit. -/
inductive Signal where
  | stopped
  | started
  | driverParamsChanged
  | busConfigChanged
  | bufferUnderRun
  | xrunStormDetected
  | clientRemoved (client : Nat)
  deriving DecidableEq, Repr

/-- Outward calls of the device, as recorded in `AudioDevice.log`. -/
inductive Event where
  /-- Entry of `run_one_cycle(nframes, _)`. -/
  | run_one_cycle (nframes : Nat)
  /-- The call `m_driver->read(nframes)`. -/
  | driverRead (nframes : Nat)
  /-- The call `client->process(nframes)`. -/
  | clientProcess (client : Nat) (nframes : Nat)
  /-- The call `client->transport_control(state)`. -/
  | clientTransport (client : Nat) (state : transport_state_t)
  /-- The call `m_driver->write(nframes)`. -/
  | driverWrite (nframes : Nat)
  /-- The call `post_process()`. -/
  | post_process
  /-- The call `m_driver->attach()`. -/
  | driverAttach
  /-- The call `m_driver->start()` made by `set_parameters`. -/
  | driverStart
  /-- The call `m_driver->stop()`. -/
  | driverStop
  /-- The call `m_audioThread->start()`. -/
  | threadStart
  /-- The call `m_audioThread->wait(1000)`. -/
  | threadWait
  /-- Entry of `set_parameters` with the given driver type. -/
  | set_parameters (driverType : String)
  /-- A signal emitted with `emit` or raised with `RT_THREAD_EMIT`. -/
  | emit (s : Signal)
  deriving DecidableEq, Repr

/-- The backends `create_driver` can instantiate. `null` is the plain
`Driver` base class, which the code calls the "Null Driver". -/
inductive DriverKind where
  | null
  | jack
  | alsa
  | portaudio
  | pulseaudio
  | coreaudio
  deriving DecidableEq, Repr

/-- The preprocessor switches of `AudioDevice.cpp` and the run-time flag
`libjack_is_present`. -/
structure Build where
  JACK_SUPPORT : Bool
  ALSA_SUPPORT : Bool
  PORTAUDIO_SUPPORT : Bool
  PULSEAUDIO_SUPPORT : Bool
  COREAUDIO_SUPPORT : Bool
  libjack_is_present : Bool
  deriving DecidableEq, Repr

/-- A driver object: the constructor arguments and the channels it owns,
named as `get_capture_channels()` / `get_playback_channels()` list them. -/
structure Driver where
  kind : DriverKind
  frame_rate : Nat
  frames_per_cycle : Nat
  captureChannels : List String
  playbackChannels : List String
  deriving DecidableEq, Repr

/-- The record `bus_config`: a bus name and its ordered channel names. -/
structure bus_config where
  name : String
  channels : List String
  deriving DecidableEq, Repr

/-- An `AudioBus`: its name and the channels added with `add_channel`. -/
structure AudioBus where
  name : String
  channels : List String
  deriving DecidableEq, Repr

/-- A call queued with `THREAD_SAVE_INVOKE` / `THREAD_SAVE_INVOKE_AND_EMIT_SIGNAL`. -/
inductive Deferred where
  | private_add_client (client : Nat)
  | private_remove_client (client : Nat)
  deriving DecidableEq, Repr

/-- Everything the device does not decide itself.

* `read i` / `write i`: what the `i`-th call of the driver's `read` /
  `write` delegate returns (calls are numbered from 0 over the life of the
  device).
* `process c i nframes`: what the process callback of client `c` returns in
  the cycle of the `i`-th driver read.
* `setupJack`, `setupAlsa`, `setupPA`, `setupPulse`, `setupCore`: what the
  backend's `setup(...)` returns for the arguments `create_driver` passes.
* `attach`, `start`: what `attach()` and `start()` of a driver of the given
  kind return.
* `captureChannels`, `playbackChannels`: the channels a driver of the given
  kind owns once it has been set up and attached.
* `isRunning t`, `wait t`: what `m_audioThread->isRunning()` and
  `m_audioThread->wait(1000)` answer when asked after `t` logged events.
* `is_slave`: what `JackDriver::is_slave()` answers.
* `transport c state`: what `transport_control(state)` of client `c` returns.
* `cpu_load kind`: what `get_cpu_load()` of a Jack or PortAudio driver
  returns.
* `defCapture`, `defPlayback`, `defCardDevice`, `defDitherShape`: the default
  arguments of `set_parameters`, declared in `AudioDevice.h`, which is not
  among the sources. -/
structure Env where
  build : Build
  read : Nat → Int
  write : Nat → Int
  process : Nat → Nat → Nat → Int
  setupJack : Bool → Bool → Int
  setupAlsa : Bool → Bool → String → String → Int
  setupPA : Bool → Bool → String → Int
  setupPulse : Bool → Bool → String → Int
  setupCore : Bool → Bool → String → Int
  attach : DriverKind → Int
  start : DriverKind → Int
  captureChannels : DriverKind → List String
  playbackChannels : DriverKind → List String
  isRunning : Nat → Bool
  wait : Nat → Bool
  is_slave : Bool
  transport : Nat → transport_state_t → Int
  cpu_load : DriverKind → ℚ
  defCapture : Bool
  defPlayback : Bool
  defCardDevice : String
  defDitherShape : String

/-- The members of `AudioDevice` that the modelled functions use.

`m_clients` is an `APILinkedList`, read head first by `apill_foreach`;
`m_captureBuses` / `m_playbackBuses` are `QHash<QByteArray, AudioBus*>`,
kept here as association lists (Qt leaves the iteration order of a `QHash`
unspecified; the lists keep the order of first insertion). Clients are
identified by their address, a number. `m_audioThread` tells whether the
thread object exists, `finishedConnected` whether its `finished()` signal is
connected to `audiothread_finished()`, `jackShutDownChecker` whether that
timer runs. `tsarQueue` is the queue of the
`Tsar` singleton as far as this device feeds it. `nReads` / `nWrites` count
the driver calls so far and index the answers of the environment.
`m_cpuTime` is the content of the ring buffer of cycle times, oldest sample
first, and `m_lastCpuReadTime` the time of the previous `get_cpu_time()`;
times and samples are floating-point numbers in the code and exact rationals
here (rounding is not modelled). -/
structure AudioDevice where
  m_runAudioThread : Bool
  m_driver : Option Driver
  m_audioThread : Bool
  finishedConnected : Bool
  jackShutDownChecker : Bool
  m_bufferSize : Nat
  m_rate : Nat
  m_xrunCount : Nat
  m_driverType : String
  m_ditherShape : String
  m_clients : List Nat
  m_captureBusConfig : List bus_config
  m_playbackBusConfig : List bus_config
  m_captureBuses : List (String × AudioBus)
  m_playbackBuses : List (String × AudioBus)
  tsarQueue : List Deferred
  nReads : Nat
  nWrites : Nat
  m_cpuTime : List ℚ
  m_lastCpuReadTime : ℚ
  log : List Event
  deriving DecidableEq, Repr

namespace AudioDevice

/-- The constructor `AudioDevice::AudioDevice()`. Members it leaves unset
(`m_rate`, `m_ditherShape`, `m_lastCpuReadTime`) are given 0 and the empty
string. -/
def new : AudioDevice where
  m_runAudioThread := false
  m_driver := none
  m_audioThread := false
  finishedConnected := false
  jackShutDownChecker := false
  m_bufferSize := 1024
  m_rate := 0
  m_xrunCount := 0
  m_driverType := "No Driver Loaded"
  m_ditherShape := ""
  m_clients := []
  m_captureBusConfig := []
  m_playbackBusConfig := []
  m_captureBuses := []
  m_playbackBuses := []
  tsarQueue := []
  nReads := 0
  nWrites := 0
  m_cpuTime := []
  m_lastCpuReadTime := 0
  log := []

/-- Appends one outward call to the log. -/
def record (d : AudioDevice) (e : Event) : AudioDevice :=
  { d with log := d.log ++ [e] }

/-- Modelled from the spec: `APILinkedList::prepend` of the intrusive list
in `src/common/APILinkedList.h`, which is missing. The list is the "ordered
Client list" whose "insertion-order list position ... determines cycle
processing order"; `prepend` links the node in at the head, where
`apill_foreach` starts. -/
def apill_prepend (l : List Nat) (node : Nat) : List Nat :=
  node :: l

/-- Modelled from the spec: `APILinkedList::remove` of the missing
`src/common/APILinkedList.h`: the node is unlinked, the others keep their
order; the value tells whether the node was in the list. -/
def apill_remove (l : List Nat) (node : Nat) : Bool × List Nat :=
  (decide (node ∈ l), l.erase node)

/-- `AudioDevice::private_add_client`: `m_clients.prepend(client)`. -/
def private_add_client (d : AudioDevice) (client : Nat) : AudioDevice :=
  { d with m_clients := apill_prepend d.m_clients client }

/-- `AudioDevice::private_remove_client`: `m_clients.remove(client)`; when the
client is not in the list only a diagnostic is printed. -/
def private_remove_client (d : AudioDevice) (client : Nat) : AudioDevice :=
  { d with m_clients := (apill_remove d.m_clients client).2 }

/-- `AudioDevice::add_client`: queues `private_add_client(client)`. -/
def add_client (d : AudioDevice) (client : Nat) : AudioDevice :=
  { d with tsarQueue := d.tsarQueue ++ [Deferred.private_add_client client] }

/-- `AudioDevice::remove_client`: queues `private_remove_client(client)`, to be
followed by the signal `clientRemoved(client)`. -/
def remove_client (d : AudioDevice) (client : Nat) : AudioDevice :=
  { d with tsarQueue := d.tsarQueue ++ [Deferred.private_remove_client client] }

/-- Runs one queued call on the device. -/
def runDeferred (d : AudioDevice) : Deferred → AudioDevice
  | Deferred.private_add_client c => d.private_add_client c
  | Deferred.private_remove_client c =>
      (d.private_remove_client c).record (Event.emit (Signal.clientRemoved c))

/-- Modelled from the spec: `Tsar::process_events()`, whose source
(`src/common/Tsar.cpp`) is missing. "Drains the deferred cross-thread event
queue so configuration changes requested during this cycle are applied now";
"the deferred-call queue preserves FIFO order of control-thread requests". -/
def process_events (d : AudioDevice) : AudioDevice :=
  d.tsarQueue.foldl runDeferred { d with tsarQueue := [] }

/-- `AudioDevice::post_process`: `tsar().process_events()`. -/
def post_process (d : AudioDevice) : AudioDevice :=
  process_events (d.record Event.post_process)

/-- The loop `apill_foreach(Client* client, Client, m_clients)
{ client->process(nframes); }` of `run_one_cycle`: every callback is called,
head of the list first, and its return value is dropped. `cyc` is the number
of the cycle, which selects the callbacks' answers in the environment. -/
def process_clients (env : Env) (cyc nframes : Nat) :
    List Nat → AudioDevice → AudioDevice
  | [], d => d
  | c :: cs, d =>
      let _r := env.process c cyc nframes
      process_clients env cyc nframes cs (d.record (Event.clientProcess c nframes))

/-- `AudioDevice::run_one_cycle(nframes, _)`. The function is entered from
the cycle callback of the driver `m_driver` points to, or from the audio
thread that driver paces; what the driver's `read` and `write` delegates
return is taken from the environment. -/
def run_one_cycle (env : Env) (d : AudioDevice) (nframes : Nat) : Int × AudioDevice :=
  let d0 := d.record (Event.run_one_cycle nframes)
  let cyc := d0.nReads
  let d1 := { d0.record (Event.driverRead nframes) with nReads := d0.nReads + 1 }
  if env.read cyc < 0 then
    (-1, d1)
  else
    let d2 := process_clients env cyc nframes d1.m_clients d1
    let w := d2.nWrites
    let d3 := { d2.record (Event.driverWrite nframes) with nWrites := d2.nWrites + 1 }
    if env.write w < 0 then
      (-1, d3)
    else
      (0, d3)

/-- The `for` loop of `run_cycle`:
`for (left = nframes; left >= m_bufferSize; left -= m_bufferSize)` with the
body `if (run_one_cycle (m_bufferSize, delayed_usecs) < 0) return -1;`.
The result is `some (true, _)` when the body returned, `some (false, _)` when
the loop ran to its end, and `none` when `fuel` iterations did not finish it. -/
def run_cycle_loop (env : Env) : Nat → AudioDevice → Nat → Option (Bool × AudioDevice)
  | 0, _, _ => none
  | fuel + 1, d, left =>
      if left ≥ d.m_bufferSize then
        let r := run_one_cycle env d d.m_bufferSize
        if r.1 < 0 then
          some (true, r.2)
        else
          run_cycle_loop env fuel r.2 (left - r.2.m_bufferSize)
      else
        some (false, d)

/-- `AudioDevice::run_cycle(nframes, delayed_usecs)`; `none` when the loop
does not finish within `fuel` iterations. -/
def run_cycle (env : Env) (fuel : Nat) (d : AudioDevice) (nframes : Nat) :
    Option (Int × AudioDevice) :=
  match run_cycle_loop env fuel d nframes with
  | none => none
  | some (true, d1) => some (-1, d1)
  | some (false, d1) => some (1, d1.post_process)

/-- `AudioDevice::xrun()`. `RT_THREAD_EMIT` hands a signal over for delivery
outside the audio thread; the log records it as raised. `m_xrunCount` is
declared in `AudioDevice.h`, which is missing; the counter is read as a
32-bit integer and `m_xrunCount++` wraps at 2^32, as the increment of an
`unsigned int` does. For an `int` counter the increment is defined, and is
the one modelled here, as long as the counter is below 2^31 - 1. -/
def xrun (d : AudioDevice) : AudioDevice :=
  let d1 := d.record (Event.emit Signal.bufferUnderRun)
  let d2 := { d1 with m_xrunCount := (d1.m_xrunCount + 1) % 4294967296 }
  if d2.m_xrunCount > 30 then
    d2.record (Event.emit Signal.xrunStormDetected)
  else
    d2

/-- `QHash::insert`: replaces the value of a key already present, adds the
pair otherwise. -/
def hashInsert (h : List (String × AudioBus)) (key : String) (bus : AudioBus) :
    List (String × AudioBus) :=
  if h.any (fun p => p.1 == key) then
    h.map (fun p => if p.1 == key then (key, bus) else p)
  else
    h ++ [(key, bus)]

/-- Modelled from the spec: `get_capture_channel_by_name` of the driver
base class, whose source is missing: "channel enumeration and by-name
lookup"; the channel of that name, or null when the driver has none. -/
def get_capture_channel_by_name (drv : Driver) (name : String) : Option String :=
  if name ∈ drv.captureChannels then some name else none

/-- Modelled from the spec: `get_playback_channel_by_name` of the driver
base class, whose source is missing: "channel enumeration and by-name
lookup"; the channel of that name, or null when the driver has none. -/
def get_playback_channel_by_name (drv : Driver) (name : String) : Option String :=
  if name ∈ drv.playbackChannels then some name else none

/-- The statement `if (channel) { bus->add_channel(channel); }`, with
`AudioBus::add_channel` (source missing) appending to the bus's "ordered list
of Channel references". -/
def add_channel_if (bus : AudioBus) : Option String → AudioBus
  | some ch => { bus with channels := bus.channels ++ [ch] }
  | none => bus

/-- `AudioDevice::free_memory`: deletes and clears both bus collections. -/
def free_memory (d : AudioDevice) : AudioDevice :=
  { d with m_captureBuses := [], m_playbackBuses := [] }

/-- The loop of `setup_default_capture_buses`, entered with loop variable `i`
and bus number `number`. Each iteration advances `i` by two, so the loop has
ended after as many iterations as there are channels; `fuel` bounds them. -/
def default_capture_loop (drv : Driver) :
    Nat → Nat → Nat → List (String × AudioBus) → List (String × AudioBus)
  | 0, _, _, buses => buses
  | fuel + 1, i, number, buses =>
      if i ≤ drv.captureChannels.length then
        let name := "Capture " ++ toString number
        let bus : AudioBus := { name := name, channels := [] }
        let bus := add_channel_if bus
          (get_capture_channel_by_name drv ("capture_" ++ toString i))
        let bus := add_channel_if bus
          (get_capture_channel_by_name drv ("capture_" ++ toString (i + 1)))
        default_capture_loop drv fuel (i + 2) (number + 1) (hashInsert buses name bus)
      else
        buses

/-- The loop of `setup_default_playback_buses`; see `default_capture_loop`. -/
def default_playback_loop (drv : Driver) :
    Nat → Nat → Nat → List (String × AudioBus) → List (String × AudioBus)
  | 0, _, _, buses => buses
  | fuel + 1, i, number, buses =>
      if i ≤ drv.playbackChannels.length then
        let name := "Playback " ++ toString number
        let bus : AudioBus := { name := name, channels := [] }
        let bus := add_channel_if bus
          (get_playback_channel_by_name drv ("playback_" ++ toString i))
        let bus := add_channel_if bus
          (get_playback_channel_by_name drv ("playback_" ++ toString (i + 1)))
        default_playback_loop drv fuel (i + 2) (number + 1) (hashInsert buses name bus)
      else
        buses

/-- `AudioDevice::setup_default_capture_buses`, with `drv` the driver
`m_driver` points to. -/
def setup_default_capture_buses (d : AudioDevice) (drv : Driver) : AudioDevice :=
  let buses := default_capture_loop drv drv.captureChannels.length 1 1 d.m_captureBuses
  { d with m_captureBuses := buses }

/-- `AudioDevice::setup_default_playback_buses`, with `drv` the driver
`m_driver` points to. -/
def setup_default_playback_buses (d : AudioDevice) (drv : Driver) : AudioDevice :=
  let buses := default_playback_loop drv drv.playbackChannels.length 1 1 d.m_playbackBuses
  { d with m_playbackBuses := buses }

/-- The body of the outer loop of `setup_capture_buses` for one `bus_config`. -/
def capture_bus_of (drv : Driver) (conf : bus_config) : AudioBus :=
  conf.channels.foldl
    (fun bus ch => add_channel_if bus (get_capture_channel_by_name drv ch))
    { name := conf.name, channels := [] }

/-- The body of the outer loop of `setup_playback_buses` for one `bus_config`. -/
def playback_bus_of (drv : Driver) (conf : bus_config) : AudioBus :=
  conf.channels.foldl
    (fun bus ch => add_channel_if bus (get_playback_channel_by_name drv ch))
    { name := conf.name, channels := [] }

/-- `AudioDevice::setup_capture_buses`, with `drv` the driver `m_driver`
points to. -/
def setup_capture_buses (d : AudioDevice) (drv : Driver) : AudioDevice :=
  let buses := d.m_captureBusConfig.foldl
    (fun buses conf => hashInsert buses conf.name (capture_bus_of drv conf)) d.m_captureBuses
  { d with m_captureBuses := buses }

/-- `AudioDevice::setup_playback_buses`, with `drv` the driver `m_driver`
points to. -/
def setup_playback_buses (d : AudioDevice) (drv : Driver) : AudioDevice :=
  let buses := d.m_playbackBusConfig.foldl
    (fun buses conf => hashInsert buses conf.name (playback_bus_of drv conf)) d.m_playbackBuses
  { d with m_playbackBuses := buses }

/-- `AudioDevice::shutdown()`; the value is `r`, the result of the wait
(1 when no wait was needed). -/
def shutdown (env : Env) (d : AudioDevice) : Int × AudioDevice :=
  let d1 := d.record (Event.emit Signal.stopped)
  let d2 := { d1 with m_runAudioThread := false }
  let rd : Int × AudioDevice :=
    if d2.m_audioThread then
      let d3 := { d2 with finishedConnected := false }
      if env.isRunning d3.log.length then
        ((if env.wait d3.log.length then 1 else 0), d3.record Event.threadWait)
      else
        (1, d3)
    else
      (1, d2)
  let d4 := rd.2
  let d5 :=
    match d4.m_driver with
    | some _ => { d4.record Event.driverStop with m_driver := none }
    | none => d4
  (rd.1, free_memory d5)

/-- The object a `new XDriver(this, m_rate, m_bufferSize)` expression yields. -/
def newDriver (d : AudioDevice) (kind : DriverKind) : Driver :=
  { kind := kind, frame_rate := d.m_rate, frames_per_cycle := d.m_bufferSize,
    captureChannels := [], playbackChannels := [] }

/-- `AudioDevice::create_driver`. A branch under `#if defined (X_SUPPORT)`
is taken only when the build defines `X_SUPPORT`. The PortAudio, PulseAudio
and CoreAudio branches name the driver member `driver`; it is read here as
the member `m_driver` that the rest of the file uses. -/
def create_driver (env : Env) (d : AudioDevice) (driverType : String)
    (capture playback : Bool) (cardDevice : String) : Int × AudioDevice :=
  if env.build.JACK_SUPPORT && env.build.libjack_is_present && driverType == "Jack" then
    if env.setupJack capture playback < 0 then
      (-1, { d with m_driver := none })
    else
      (1, { d with m_driver := some (newDriver d DriverKind.jack), m_driverType := driverType })
  else if env.build.ALSA_SUPPORT && driverType == "ALSA" then
    if env.setupAlsa capture playback cardDevice d.m_ditherShape < 0 then
      (-1, { d with m_driver := none })
    else
      (1, { d with m_driver := some (newDriver d DriverKind.alsa), m_driverType := driverType })
  else if env.build.PORTAUDIO_SUPPORT && driverType == "PortAudio" then
    if env.setupPA capture playback cardDevice < 0 then
      (-1, { d with m_driver := none })
    else
      (1, { d with m_driver := some (newDriver d DriverKind.portaudio),
                    m_driverType := driverType })
  else if env.build.PULSEAUDIO_SUPPORT && driverType == "PulseAudio" then
    if env.setupPulse capture playback cardDevice < 0 then
      (-1, { d with m_driver := none })
    else
      (1, { d with m_driver := some (newDriver d DriverKind.pulseaudio),
                    m_driverType := driverType })
  else if env.build.COREAUDIO_SUPPORT && driverType == "CoreAudio" then
    if env.setupCore capture playback cardDevice < 0 then
      (-1, { d with m_driver := none })
    else
      (1, { d with m_driver := some (newDriver d DriverKind.coreaudio),
                    m_driverType := driverType })
  else if driverType == "Null Driver" then
    (1, { d with m_driver := some (newDriver d DriverKind.null), m_driverType := driverType })
  else
    (-1, d)

/-- The statement `m_driver->attach();` of `set_parameters`, on the driver
`drv` that `m_driver` points to: the call is logged, its return value
`env.attach drv.kind` is not used, and from here on the driver owns the
channels the environment gives its kind. -/
def attach_driver (env : Env) (d : AudioDevice) (drv : Driver) : Driver × AudioDevice :=
  let _r := env.attach drv.kind
  let drv1 := { drv with captureChannels := env.captureChannels drv.kind,
                         playbackChannels := env.playbackChannels drv.kind }
  (drv1, { d.record Event.driverAttach with m_driver := some drv1 })

/-- The part of `set_parameters` between `m_driver->attach()` and the calls
of `m_driver->start()`: the buses are built, `driverParamsChanged()` is
emitted, `m_runAudioThread` is set, and for "ALSA" and "Null Driver" the
audio thread is created if need be, connected and started. -/
def provision (d : AudioDevice) (drv : Driver) (driverType : String) : AudioDevice :=
  let d1 := if d.m_captureBusConfig.length == 0 then d.setup_default_capture_buses drv
            else d.setup_capture_buses drv
  let d2 := if d1.m_playbackBusConfig.length == 0 then d1.setup_default_playback_buses drv
            else d1.setup_playback_buses drv
  let d3 := d2.record (Event.emit Signal.driverParamsChanged)
  let d4 := { d3 with m_runAudioThread := true }
  if driverType == "ALSA" || driverType == "Null Driver" then
    { d4.record Event.threadStart with m_audioThread := true, finishedConnected := true }
  else
    d4

/-- The head of `set_parameters`: the assignments to `m_rate`,
`m_bufferSize`, `m_xrunCount` and `m_ditherShape`, then `shutdown()`. The
entry of the function is logged first. -/
def prepare (env : Env) (d : AudioDevice) (rate : Int) (bufferSize : Nat)
    (driverType ditherShape : String) : AudioDevice :=
  let d0 := d.record (Event.set_parameters driverType)
  let d1 := { d0 with m_rate := (rate % 4294967296).toNat, m_bufferSize := bufferSize,
                      m_xrunCount := 0, m_ditherShape := ditherShape }
  (shutdown env d1).2

/-- The two blocks of `set_parameters` that call `m_driver->start()`: the
one for "Jack" (under `JACK_SUPPORT` and `libjack_is_present`) and the one
for "PortAudio", "PulseAudio" and "CoreAudio". `drv` is the driver `m_driver`
points to. The first component is `true` when a block ends in
`set_parameters(rate, bufferSize, "Null Driver"); return;`. -/
def start_driver (env : Env) (d : AudioDevice) (drv : Driver) (driverType : String) :
    Bool × AudioDevice :=
  let jk : Bool × AudioDevice :=
    if env.build.JACK_SUPPORT && env.build.libjack_is_present && driverType == "Jack" then
      let d1 := d.record Event.driverStart
      if env.start drv.kind = -1 then
        (true, d1)
      else
        (false, { d1 with jackShutDownChecker := true })
    else
      (false, d)
  if jk.1 then
    jk
  else if driverType == "PortAudio" || driverType == "PulseAudio"
      || driverType == "CoreAudio" then
    let d2 := jk.2.record Event.driverStart
    if env.start drv.kind = -1 then
      (true, d2)
    else
      (false, d2)
  else
    jk

/-- `AudioDevice::set_parameters(rate, bufferSize, driverType, capture,
playback, cardDevice, ditherShape)`. The function calls itself; `fuel`
bounds the depth of the calls. The result is `none` when the fuel runs out
or when a null `m_driver` would be dereferenced. The recursive calls
`set_parameters(rate, bufferSize, "Null Driver")` take the remaining
arguments from the defaults in the environment. -/
def set_parameters (env : Env) : Nat → AudioDevice → Int → Nat → String → Bool → Bool →
    String → String → Option AudioDevice
  | 0, _, _, _, _, _, _, _, _ => none
  | fuel + 1, d, rate, bufferSize, driverType, capture, playback, cardDevice, ditherShape =>
      let d2 := prepare env d rate bufferSize driverType ditherShape
      let cr := create_driver env d2 driverType capture playback cardDevice
      if cr.1 < 0 then
        set_parameters env fuel cr.2 rate bufferSize "Null Driver"
          env.defCapture env.defPlayback env.defCardDevice env.defDitherShape
      else
        match cr.2.m_driver with
        | none => none
        | some drv0 =>
          let ad := attach_driver env cr.2 drv0
          let d3 := provision ad.2 ad.1 driverType
          let sr := start_driver env d3 ad.1 driverType
          if sr.1 then
            set_parameters env fuel sr.2 rate bufferSize "Null Driver"
              env.defCapture env.defPlayback env.defCardDevice env.defDitherShape
          else
            some (sr.2.record (Event.emit Signal.started))

/-- `AudioDevice::get_driver_type()`. -/
def get_driver_type (d : AudioDevice) : String :=
  d.m_driverType

/-- `AudioDevice::get_sample_rate()`. -/
def get_sample_rate (d : AudioDevice) : Nat :=
  d.m_rate

/-- `AudioDevice::switch_to_null_driver()`, the slot connected to
`xrunStormDetected()`: `set_parameters(44100, m_bufferSize, "Null Driver")`. -/
def switch_to_null_driver (env : Env) (fuel : Nat) (d : AudioDevice) : Option AudioDevice :=
  set_parameters env fuel d 44100 d.m_bufferSize "Null Driver"
    env.defCapture env.defPlayback env.defCardDevice env.defDitherShape

/-- `AudioDevice::audiothread_finished()`, the slot connected to the
`finished()` signal of the audio thread. -/
def audiothread_finished (env : Env) (fuel : Nat) (d : AudioDevice) : Option AudioDevice :=
  if d.m_runAudioThread then
    set_parameters env fuel d 44100 d.m_bufferSize "Null Driver"
      env.defCapture env.defPlayback env.defCardDevice env.defDitherShape
  else
    some d

/-- `AudioDevice::get_capture_buses_names()`. -/
def get_capture_buses_names (d : AudioDevice) : List String :=
  d.m_captureBuses.map (fun p => p.2.name)

/-- `AudioDevice::get_playback_buses_names()`. -/
def get_playback_buses_names (d : AudioDevice) : List String :=
  d.m_playbackBuses.map (fun p => p.2.name)

/-- `AudioDevice::get_capture_bus_configuration()`: the stored configuration
is cleared, rebuilt from the buses in the order in which the `QHash` yields
them, and returned. -/
def get_capture_bus_configuration (d : AudioDevice) : List bus_config × AudioDevice :=
  let conf : List bus_config :=
    d.m_captureBuses.map (fun p => { name := p.2.name, channels := p.2.channels })
  (conf, { d with m_captureBusConfig := conf })

/-- `AudioDevice::get_playback_bus_configuration()`; see
`get_capture_bus_configuration`. -/
def get_playback_bus_configuration (d : AudioDevice) : List bus_config × AudioDevice :=
  let conf : List bus_config :=
    d.m_playbackBuses.map (fun p => { name := p.2.name, channels := p.2.channels })
  (conf, { d with m_playbackBusConfig := conf })

/-- `AudioDevice::set_bus_config(c_capture, c_playback)`. `m_driver` is
dereferenced by `setup_capture_buses` / `setup_playback_buses` once for each
channel name of a configuration; the result is `none` when that happens with
a null `m_driver`. -/
def set_bus_config (d : AudioDevice) (c_capture c_playback : List bus_config) :
    Option AudioDevice :=
  let d1 := { d with m_captureBusConfig := c_capture, m_playbackBusConfig := c_playback }
  let d2 := d1.free_memory
  match d2.m_driver with
  | some drv =>
      let d3 := (d2.setup_capture_buses drv).setup_playback_buses drv
      some ((d3.record (Event.emit Signal.driverParamsChanged)).record
        (Event.emit Signal.busConfigChanged))
  | none =>
      if (c_capture ++ c_playback).all (fun conf => conf.channels.isEmpty) then
        let drv : Driver := { kind := DriverKind.null, frame_rate := 0, frames_per_cycle := 0,
                              captureChannels := [], playbackChannels := [] }
        let d3 := (d2.setup_capture_buses drv).setup_playback_buses drv
        some ((d3.record (Event.emit Signal.driverParamsChanged)).record
          (Event.emit Signal.busConfigChanged))
      else
        none

/-- Modelled from the spec: `RingBufferNPT::read_space()` of the missing
`src/common/RingBufferNPT.h`: the number of samples "currently available"
in the "fixed-capacity ring buffer". -/
def rb_read_space (rb : List ℚ) : Nat :=
  rb.length

/-- Modelled from the spec: `RingBufferNPT::read(&value, 1)` of the missing
`src/common/RingBufferNPT.h`: the oldest available sample is taken out of
the buffer and stored in `value`, and the number of samples read is returned;
with no sample available nothing is stored and 0 is returned. The result is
the returned count, the content of `value` and the buffer afterwards. -/
def rb_read_one (rb : List ℚ) (value : ℚ) : Nat × ℚ × List ℚ :=
  match rb with
  | [] => (0, value, [])
  | x :: xs => (1, x, xs)

/-- The loop `while (read != 0) { read = m_cpuTime->read(&value, 1);
totaltime += value; }` of `get_cpu_time`, entered with the given `read`,
`value`, `totaltime` and buffer; the result is `totaltime` and the buffer
after the loop, `none` when `fuel` iterations did not finish it. -/
def cpu_time_loop : Nat → Nat → ℚ → ℚ → List ℚ → Option (ℚ × List ℚ)
  | 0, _, _, _, _ => none
  | fuel + 1, read, value, totaltime, rb =>
      if read ≠ 0 then
        let r := rb_read_one rb value
        cpu_time_loop fuel r.1 r.2.1 (totaltime + r.2.1) r.2.2
      else
        some (totaltime, rb)

/-- `AudioDevice::get_cpu_time()`, called at time `currentTime` (the value
of `get_microseconds()`). The result is the returned value, the `totaltime`
the generic path has accumulated (0 on the Jack and PortAudio paths) and the
device afterwards. -/
def get_cpu_time (env : Env) (fuel : Nat) (d : AudioDevice) (currentTime : ℚ) :
    Option (ℚ × ℚ × AudioDevice) :=
  if env.build.JACK_SUPPORT && env.build.libjack_is_present && d.m_driver.isSome
      && d.m_driverType == "Jack" then
    some (env.cpu_load DriverKind.jack, 0, d)
  else if env.build.PORTAUDIO_SUPPORT && d.m_driver.isSome
      && d.m_driverType == "PortAudio" then
    some (env.cpu_load DriverKind.portaudio, 0, d)
  else
    match cpu_time_loop fuel (rb_read_space d.m_cpuTime) 0 0 d.m_cpuTime with
    | none => none
    | some (totaltime, rb) =>
        let result := (totaltime / (currentTime - d.m_lastCpuReadTime)) * 100
        some (result, totaltime, { d with m_cpuTime := rb, m_lastCpuReadTime := currentTime })

/-- `AudioDevice::slaved_jack_driver()` (compiled under `JACK_SUPPORT`): the
driver when `libjack_is_present`, `m_driver` is a `JackDriver` and it is a
slave, null otherwise. -/
def slaved_jack_driver (env : Env) (d : AudioDevice) : Option Driver :=
  if env.build.libjack_is_present then
    match d.m_driver with
    | some drv => if drv.kind = DriverKind.jack ∧ env.is_slave = true then some drv else none
    | none => none
  else
    none

/-- The loop `apill_foreach(Client* client, Client, m_clients)
{ result = client->transport_control(state); }` of `transport_control`,
entered with the given `result`. -/
def transport_clients (env : Env) (state : transport_state_t) :
    List Nat → Int → AudioDevice → Int × AudioDevice
  | [], result, d => (result, d)
  | c :: cs, _, d =>
      transport_clients env state cs (env.transport c state)
        (d.record (Event.clientTransport c state))

/-- `AudioDevice::transport_control(state)`. Under `JACK_SUPPORT` the
function starts with `if (!slaved_jack_driver()) { return true; }`. -/
def transport_control (env : Env) (d : AudioDevice) (state : transport_state_t) :
    Int × AudioDevice :=
  if env.build.JACK_SUPPORT && (slaved_jack_driver env d).isNone then
    (1, d)
  else
    transport_clients env state d.m_clients 0 d

/-- The clients whose process callback a log shows called, in calling order. -/
def processed (l : List Event) : List Nat :=
  l.filterMap (fun e => match e with
    | Event.clientProcess c _ => some c
    | _ => none)

/-- The frame counts handed to `run_one_cycle`, in calling order: the
arguments of the `run_one_cycle` entries of a log. -/
def cycles (l : List Event) : List Nat :=
  l.filterMap (fun e => match e with
    | Event.run_one_cycle n => some n
    | _ => none)

/-- The driver types of the `set_parameters` entries of a log: one entry per
call of `set_parameters`, the recursive ones included. -/
def provisionings (l : List Event) : List String :=
  l.filterMap (fun e => match e with
    | Event.set_parameters t => some t
    | _ => none)

/-- The scenario "`k` successive calls `run_cycle(nframes, _)`": the values
the calls return, first call first, and the device after the last call. -/
def run_cycles (env : Env) (fuel nframes : Nat) : Nat → AudioDevice →
    Option (List Int × AudioDevice)
  | 0, d => some ([], d)
  | k + 1, d =>
      match run_cycle env fuel d nframes with
      | none => none
      | some (r, d1) =>
          match run_cycles env fuel nframes k d1 with
          | none => none
          | some (rs, d2) => some (r :: rs, d2)

/-- The driver types whose driver is started by `set_parameters` itself
(the backends clocked by a callback). -/
def callback_driven (driverType : String) : Prop :=
  driverType = "Jack" ∨ driverType = "PortAudio" ∨ driverType = "PulseAudio"
    ∨ driverType = "CoreAudio"

/-- `serves env driverType kind`: in the build of `env`, `create_driver`
answers the driver type with a driver of the given kind. -/
def serves (env : Env) (driverType : String) (kind : DriverKind) : Prop :=
  (driverType = "Jack" ∧ kind = DriverKind.jack ∧ env.build.JACK_SUPPORT = true
      ∧ env.build.libjack_is_present = true) ∨
  (driverType = "ALSA" ∧ kind = DriverKind.alsa) ∨
  (driverType = "PortAudio" ∧ kind = DriverKind.portaudio) ∨
  (driverType = "PulseAudio" ∧ kind = DriverKind.pulseaudio) ∨
  (driverType = "CoreAudio" ∧ kind = DriverKind.coreaudio) ∨
  (driverType = "Null Driver" ∧ kind = DriverKind.null)

/-- The two failures after which `set_parameters` calls itself for the
"Null Driver": `create_driver`, called as `set_parameters` calls it, returns
a negative value; or the driver type is callback-driven and `start()` of the
driver that `create_driver` made returns -1. -/
def falls_back (env : Env) (d : AudioDevice) (rate : Int) (bufferSize : Nat)
    (driverType : String) (capture playback : Bool) (cardDevice ditherShape : String) : Prop :=
  (create_driver env (prepare env d rate bufferSize driverType ditherShape)
      driverType capture playback cardDevice).1 < 0 ∨
  (callback_driven driverType ∧
    ∃ drv : Driver,
      (create_driver env (prepare env d rate bufferSize driverType ditherShape)
        driverType capture playback cardDevice).2.m_driver = some drv ∧
      env.start drv.kind = -1)

/-- From `d` to `d'` the sample rate, buffer size, xrun counter and dither
shape are untouched, and the log has grown by entries that are neither
`started()` signals nor `set_parameters` entries. -/
def Quiet (d d' : AudioDevice) : Prop :=
  d'.m_rate = d.m_rate ∧ d'.m_bufferSize = d.m_bufferSize ∧
  d'.m_xrunCount = d.m_xrunCount ∧ d'.m_ditherShape = d.m_ditherShape ∧
  ∃ evs : List Event, d'.log = d.log ++ evs ∧
    evs.count (Event.emit Signal.started) = 0 ∧ provisionings evs = []

/-- An environment in which nothing fails: a build with Jack and ALSA, a
driver whose reads and writes return 0, backends whose `setup`, `attach` and
`start` return 1, drivers without channels, an audio thread that is found
stopped, and clients whose callbacks return -1. -/
def quietEnv : Env where
  build := { JACK_SUPPORT := true, ALSA_SUPPORT := true, PORTAUDIO_SUPPORT := false,
             PULSEAUDIO_SUPPORT := false, COREAUDIO_SUPPORT := false,
             libjack_is_present := true }
  read := fun _ => 0
  write := fun _ => 0
  process := fun _ _ _ => -1
  setupJack := fun _ _ => 1
  setupAlsa := fun _ _ _ _ => 1
  setupPA := fun _ _ _ => 1
  setupPulse := fun _ _ _ => 1
  setupCore := fun _ _ _ => 1
  attach := fun _ => 1
  start := fun _ => 1
  captureChannels := fun _ => []
  playbackChannels := fun _ => []
  isRunning := fun _ => false
  wait := fun _ => true
  is_slave := false
  transport := fun _ _ => 0
  cpu_load := fun _ => 0
  defCapture := true
  defPlayback := true
  defCardDevice := ""
  defDitherShape := ""

/-- A device running the Null Driver at 48000 Hz and 256 frames, with one
registered client (number 7). -/
def dev256 : AudioDevice :=
  { AudioDevice.new with
      m_rate := 48000, m_bufferSize := 256, m_driverType := "Null Driver",
      m_driver := some { kind := DriverKind.null, frame_rate := 48000, frames_per_cycle := 256,
                         captureChannels := [], playbackChannels := [] },
      m_runAudioThread := true, m_audioThread := true, finishedConnected := true,
      m_clients := [7] }

/-- The device `dev256` before any client has been registered. -/
def devNoClients : AudioDevice :=
  { dev256 with m_clients := [] }

/-- An environment like `quietEnv` whose driver fails its third read (the
read numbered 2). -/
def thirdReadFails : Env :=
  { quietEnv with read := fun i => if i = 2 then -1 else 0 }

/-- An environment like `quietEnv` in which `start()` of every driver
returns -1. -/
def startFails : Env :=
  { quietEnv with start := fun _ => -1 }

/-- An environment like `quietEnv` in which `attach()` of every driver
returns -1. -/
def attachFails : Env :=
  { quietEnv with attach := fun _ => -1 }

/-- The channel names `pre1 .. preN` that a driver gives its channels
(`snprintf (buf, ..., "capture_%d", chn+1)` in `PADriver::setup`). -/
def numbered (pre : String) (N : Nat) : List String :=
  (List.range N).map (fun j => pre ++ toString (j + 1))

/-- The stereo-paired default buses over `N` channels, as the spec words
them: bus `k` (counted from 1) is named `busPre k` and holds the channels
`chanPre (2k-1)` and `chanPre (2k)`, the last bus only `chanPre N` when `N`
is odd. The list holds the first `m` of them (`k = j + 1`). -/
def stereo_pairs (busPre chanPre : String) (N m : Nat) : List (String × AudioBus) :=
  (List.range m).map (fun j =>
    (busPre ++ toString (j + 1),
      { name := busPre ++ toString (j + 1),
        channels := if 2 * j + 2 ≤ N
          then [chanPre ++ toString (2 * j + 1), chanPre ++ toString (2 * j + 2)]
          else [chanPre ++ toString (2 * j + 1)] }))

/-- The value of a string of decimal digits. -/
def decimal_value (l : List Char) : Nat :=
  l.foldl (fun a c => a * 10 + (c.toNat - 48)) 0

/-- A driver of the Null kind that owns the given channels. -/
def driverWith (capture playback : List String) : Driver :=
  { kind := DriverKind.null, frame_rate := 48000, frames_per_cycle := 256,
    captureChannels := capture, playbackChannels := playback }

/-- The device `dev256` with a driver that owns the capture channels
`capture_1`, `capture_2`, `capture_3` and the playback channels `playback_1`,
`playback_2`, and no bus yet. -/
def devChannels : AudioDevice :=
  { dev256 with m_driver := some (driverWith (numbered "capture_" 3) (numbered "playback_" 2)) }

/-- An environment like `quietEnv` in which the audio thread is found running
and does not exit within the wait. -/
def threadHangs : Env :=
  { quietEnv with isRunning := fun _ => true, wait := fun _ => false }

/-- The device `devChannels` with a capture bus and a playback bus left over
from an earlier configuration. -/
def devOldBus : AudioDevice :=
  { devChannels with
      m_captureBuses := [("Old", { name := "Old", channels := ["capture_1"] })],
      m_playbackBuses := [("Old Out", { name := "Old Out", channels := ["playback_1"] })] }

/-- A capture configuration over the channels of `devChannels`. -/
def cfgIn : List bus_config :=
  [{ name := "In", channels := ["capture_1", "capture_2"] },
   { name := "Aux", channels := ["capture_3"] }]

/-- A playback configuration over the channels of `devChannels`. -/
def cfgOut : List bus_config :=
  [{ name := "Out", channels := ["playback_1", "playback_2"] }]

/-- A capture configuration that names a channel (`ghost`) which the driver
of `devChannels` does not own. -/
def cfgGhost : List bus_config :=
  [{ name := "In", channels := ["capture_1", "ghost"] }]

/-- The device `dev256` with the two cycle times 1 and 2 (microseconds) in
its ring buffer and the previous `get_cpu_time()` at time 0. -/
def devTwoSamples : AudioDevice :=
  { dev256 with m_cpuTime := [1, 2], m_lastCpuReadTime := 0 }

/-- A transport state: rolling, not slaved, at location 5. -/
def rollingState : transport_state_t :=
  { transport := transport_t.TransportRolling, isSlave := false, realtime := false,
    location := 5 }

/-- An environment like `quietEnv` for a build without `JACK_SUPPORT`. -/
def noJackEnv : Env :=
  { quietEnv with build := { quietEnv.build with JACK_SUPPORT := false } }

/-- The driver reads and writes of a log, in calling order. -/
def driver_calls (l : List Event) : List Event :=
  l.filter (fun e => match e with
    | Event.driverRead _ => true
    | Event.driverWrite _ => true
    | _ => false)

/-- An environment like `quietEnv` whose driver fails every read. -/
def readFails : Env :=
  { quietEnv with read := fun _ => -1 }

/-- An environment like `quietEnv` whose driver fails every write. -/
def writeFails : Env :=
  { quietEnv with write := fun _ => -3 }

/-- The device `dev256` after `remove_client` for its client and
`add_client` for a client 8: both calls are queued. -/
def devQueued : AudioDevice :=
  (dev256.remove_client 7).add_client 8

/-- An environment like `quietEnv` whose drivers own, once attached, the
capture channels `capture_1`, `capture_2`, `capture_3` and the playback
channels `playback_1`, `playback_2`. -/
def chanEnv : Env :=
  { quietEnv with captureChannels := fun _ => numbered "capture_" 3,
                  playbackChannels := fun _ => numbered "playback_" 2 }

/-- The device `devOldBus` with the stored capture configuration `cfgGhost`
and no stored playback configuration. -/
def devStored : AudioDevice :=
  { devOldBus with m_captureBusConfig := cfgGhost, m_playbackBusConfig := [] }

end AudioDevice

/-! ## The PortAudio driver (`src/engine/PADriver.cpp`) -/

/-- Modelled from the spec: `AudioChannel`, whose source is missing: "a
single mono audio stream buffer" with a "sample buffer (fixed capacity =
current cycle buffer size ...)". `buf` is that sample buffer, one entry for
each sample it has room for; samples are exact rationals. -/
structure AudioChannel where
  buf : List ℚ

namespace AudioChannel

/-- `AudioChannel::get_buffer(nframes)` (source missing): the sample buffer
of the channel. -/
def get_buffer (ch : AudioChannel) (_nframes : Nat) : List ℚ :=
  ch.buf

/-- `AudioChannel::silence_buffer(nframes)` (source missing), read by its
name and its use in `PADriver::_write`: the first `nframes` samples of the
buffer are set to 0. The result is `none` when the buffer has room for fewer
samples. -/
def silence_buffer (ch : AudioChannel) (nframes : Nat) : Option AudioChannel :=
  if nframes ≤ ch.buf.length then
    some { ch with buf := List.replicate nframes 0 ++ ch.buf.drop nframes }
  else
    none

end AudioChannel

/-- The members of `PADriver` that `_read` and `_write` use: the capture and
playback channels, and the interleaved buffers `m_paInputBuffer` and
`m_paOutputBuffer` that `_process_callback` receives from PortAudio, each
with one entry for every sample it has room for. -/
structure PADriver where
  m_captureChannels : List AudioChannel
  m_playbackChannels : List AudioChannel
  m_paInputBuffer : List ℚ
  m_paOutputBuffer : List ℚ

namespace PADriver

/-- The largest value of an `int`, the type of `index` in `_read` and
`_write`. -/
def INT_MAX : Nat := 2147483647

/-- The body of the inner loop of `_read`, for frame `i` and channel number
`chan`, on the pair of `index` and the capture channels:
`buf[i] = in[index++]` with `buf` the buffer of channel `chan`. The result is
`none` when `in` or `buf` is accessed out of bounds or the increment
overflows `int`. -/
def read_sample (inp : List ℚ) (nframes i : Nat) (st : Nat × List AudioChannel)
    (chan : Nat) : Option (Nat × List AudioChannel) :=
  match st.2[chan]? with
  | none => none
  | some channel =>
    let buf := channel.get_buffer nframes
    match inp[st.1]? with
    | none => none
    | some v =>
      if i < buf.length ∧ st.1 + 1 ≤ INT_MAX then
        some (st.1 + 1, st.2.set chan { channel with buf := buf.set i v })
      else
        none

/-- `PADriver::_read(nframes)`: the value returned and the driver
afterwards. -/
def _read (drv : PADriver) (nframes : Nat) : Option (Int × PADriver) :=
  if drv.m_captureChannels.length = 0 then
    some (0, drv)
  else
    match (List.range nframes).foldlM
        (fun st i => (List.range drv.m_captureChannels.length).foldlM
          (read_sample drv.m_paInputBuffer nframes i) st)
        (0, drv.m_captureChannels) with
    | none => none
    | some st => some (1, { drv with m_captureChannels := st.2 })

/-- The body of the inner loop of `_write`, for frame `i` and channel number
`chan`, on the pair of `index` and the output buffer:
`out[index++] = m_playbackChannels.at(chan)->get_buffer(nframes)[i]`. The
result is `none` when `out` or the channel buffer is accessed out of bounds
or the increment overflows `int`. -/
def write_sample (chans : List AudioChannel) (nframes i : Nat) (st : Nat × List ℚ)
    (chan : Nat) : Option (Nat × List ℚ) :=
  match chans[chan]? with
  | none => none
  | some channel =>
    match (channel.get_buffer nframes)[i]? with
    | none => none
    | some v =>
      if st.1 < st.2.length ∧ st.1 + 1 ≤ INT_MAX then
        some (st.1 + 1, st.2.set st.1 v)
      else
        none

/-- The body of the last loop of `_write`:
`m_playbackChannels.at(chan)->silence_buffer(nframes)`. -/
def silence_channel (nframes : Nat) (chans : List AudioChannel) (chan : Nat) :
    Option (List AudioChannel) :=
  match chans[chan]? with
  | none => none
  | some channel => (channel.silence_buffer nframes).map (fun ch => chans.set chan ch)

/-- `PADriver::_write(nframes)`: the value returned and the driver
afterwards. -/
def _write (drv : PADriver) (nframes : Nat) : Option (Int × PADriver) :=
  if drv.m_playbackChannels.length = 0 then
    some (0, drv)
  else
    match (List.range nframes).foldlM
        (fun st i => (List.range drv.m_playbackChannels.length).foldlM
          (write_sample drv.m_playbackChannels nframes i) st)
        (0, drv.m_paOutputBuffer) with
    | none => none
    | some st =>
      match (List.range drv.m_playbackChannels.length).foldlM (silence_channel nframes)
          drv.m_playbackChannels with
      | none => none
      | some chans => some (1, { drv with m_paOutputBuffer := st.2, m_playbackChannels := chans })

/-- A driver with two capture channels and two playback channels of three
samples each, an input buffer of two frames, and an output buffer with room
for two frames. -/
def drvStereo : PADriver :=
  { m_captureChannels := [{ buf := [0, 0, 0] }, { buf := [0, 0, 0] }],
    m_playbackChannels := [{ buf := [5, 6, 7] }, { buf := [8, 9, 10] }],
    m_paInputBuffer := [1, 2, 3, 4],
    m_paOutputBuffer := [0, 0, 0, 0] }

/-- The driver `drvStereo` after `_read(2)`. -/
def drvRead : PADriver :=
  { drvStereo with m_captureChannels := [{ buf := [1, 3, 0] }, { buf := [2, 4, 0] }] }

/-- The driver `drvRead` after the first two samples of each capture buffer
have been copied to the playback buffer of the same index. -/
def drvCopied : PADriver :=
  { drvRead with m_playbackChannels := [{ buf := [1, 3, 7] }, { buf := [2, 4, 10] }] }

end PADriver

namespace AudioDevice

/-! ## Theorems -/

/-- The log after `record`. -/
@[simp] theorem record_log (d : AudioDevice) (e : Event) : (d.record e).log = d.log ++ [e] := rfl

/-- The client loop of `run_one_cycle` logs one call per client, head of the
list first, and changes nothing else. -/
theorem process_clients_eq (env : Env) (cyc n : Nat) (cs : List Nat) (d : AudioDevice) :
    process_clients env cyc n cs d
      = { d with log := d.log ++ cs.map (fun c => Event.clientProcess c n) } := by
  induction cs generalizing d with
  | nil => simp [process_clients]
  | cons c cs ih => simp [process_clients, ih, record]

/-- `run_one_cycle` in closed form. -/
theorem run_one_cycle_eq (env : Env) (d : AudioDevice) (n : Nat) :
    run_one_cycle env d n =
      if env.read d.nReads < 0 then
        (-1, { d with log := d.log ++ [Event.run_one_cycle n, Event.driverRead n],
                      nReads := d.nReads + 1 })
      else
        ((if env.write d.nWrites < 0 then -1 else 0),
          { d with log := d.log ++ [Event.run_one_cycle n, Event.driverRead n]
                        ++ d.m_clients.map (fun c => Event.clientProcess c n)
                        ++ [Event.driverWrite n],
                   nReads := d.nReads + 1, nWrites := d.nWrites + 1 }) := by
  unfold run_one_cycle
  simp only [process_clients_eq, record]
  split_ifs <;> simp

/-- `cycles` of a concatenation. -/
@[simp] theorem cycles_append (l1 l2 : List Event) : cycles (l1 ++ l2) = cycles l1 ++ cycles l2 := by
  simp [cycles]

/-- `processed` of a concatenation. -/
@[simp] theorem processed_append (l1 l2 : List Event) :
    processed (l1 ++ l2) = processed l1 ++ processed l2 := by
  simp [processed]

/-- Client calls are no `run_one_cycle` entries. -/
@[simp] theorem cycles_map_clientProcess (cs : List Nat) (n : Nat) :
    cycles (cs.map (fun c => Event.clientProcess c n)) = [] := by
  induction cs with
  | nil => rfl
  | cons c cs ih => simp [cycles]

/-- The clients of a run of client calls. -/
@[simp] theorem processed_map_clientProcess (cs : List Nat) (n : Nat) :
    processed (cs.map (fun c => Event.clientProcess c n)) = cs := by
  induction cs with
  | nil => rfl
  | cons c cs ih => simpa [processed] using ih

/-- One sub-cycle whose read and write succeed: the value is 0 and the device
changes in its log and call counters only. -/
theorem run_one_cycle_ok (env : Env) (d : AudioDevice) (n : Nat)
    (hr : 0 ≤ env.read d.nReads) (hw : 0 ≤ env.write d.nWrites) :
    run_one_cycle env d n =
      (0, { d with log := d.log ++ [Event.run_one_cycle n, Event.driverRead n]
                        ++ d.m_clients.map (fun c => Event.clientProcess c n)
                        ++ [Event.driverWrite n],
                   nReads := d.nReads + 1, nWrites := d.nWrites + 1 }) := by
  rw [run_one_cycle_eq, if_neg (not_lt.mpr hr), if_neg (not_lt.mpr hw)]

/-- The loop of `run_cycle` runs through `k` successful sub-cycles. -/
theorem run_cycle_loop_advance (env : Env) :
    ∀ (k fuel : Nat) (d : AudioDevice) (left : Nat), 0 < d.m_bufferSize →
      (∀ i, i < k → 0 ≤ env.read (d.nReads + i) ∧ 0 ≤ env.write (d.nWrites + i)) →
      k * d.m_bufferSize ≤ left →
      ∃ dk : AudioDevice,
        run_cycle_loop env (fuel + k) d left
            = run_cycle_loop env fuel dk (left - k * d.m_bufferSize) ∧
        dk = { d with log := dk.log, nReads := d.nReads + k, nWrites := d.nWrites + k } ∧
        cycles dk.log = cycles d.log ++ List.replicate k d.m_bufferSize := by
  intro k
  induction k with
  | zero =>
      intro fuel d left _ _ _
      exact ⟨d, by simp, by simp, by simp⟩
  | succ k ih =>
      intro fuel d left hb hok hle
      have h0 := hok 0 (Nat.succ_pos k)
      simp only [Nat.add_zero] at h0
      have hstep := run_one_cycle_ok env d d.m_bufferSize h0.1 h0.2
      have hmul : (k + 1) * d.m_bufferSize = k * d.m_bufferSize + d.m_bufferSize :=
        Nat.succ_mul _ _
      have hge : left ≥ d.m_bufferSize := by omega
      generalize hd1 : ({ d with
          log := d.log ++ [Event.run_one_cycle d.m_bufferSize, Event.driverRead d.m_bufferSize]
                  ++ d.m_clients.map (fun c => Event.clientProcess c d.m_bufferSize)
                  ++ [Event.driverWrite d.m_bufferSize],
          nReads := d.nReads + 1, nWrites := d.nWrites + 1 } : AudioDevice) = d1 at hstep
      have hb1 : d1.m_bufferSize = d.m_bufferSize := by rw [← hd1]
      have hr1 : d1.nReads = d.nReads + 1 := by rw [← hd1]
      have hw1 : d1.nWrites = d.nWrites + 1 := by rw [← hd1]
      obtain ⟨dk, h1, h2, h3⟩ := ih fuel d1 (left - d.m_bufferSize) (by rw [hb1]; exact hb)
        (by
          intro i hi
          have := hok (i + 1) (by omega)
          rw [hr1, hw1]
          simpa [Nat.add_assoc, Nat.add_comm 1 i] using this)
        (by rw [hb1]; omega)
      refine ⟨dk, ?_, ?_, ?_⟩
      · have hf : fuel + (k + 1) = (fuel + k) + 1 := rfl
        rw [hf, run_cycle_loop]
        simp only [hge, if_true, hstep]
        rw [if_neg (by simp), hb1, h1, hb1]
        congr 1
        omega
      · rw [h2, ← hd1]
        simp [Nat.add_assoc, Nat.add_comm 1 k]
      · rw [h3, ← hd1]
        simp [cycles, List.replicate_succ]

/-- Running queued calls changes the client list and the log only, and adds
no `run_one_cycle` entry to the log. -/
theorem foldl_runDeferred_frame (q : List Deferred) :
    ∀ d : AudioDevice,
      q.foldl runDeferred d
          = { d with m_clients := (q.foldl runDeferred d).m_clients,
                     log := (q.foldl runDeferred d).log } ∧
        cycles (q.foldl runDeferred d).log = cycles d.log := by
  induction q with
  | nil => intro d; simp
  | cons e q ih =>
      intro d
      obtain ⟨h1, h2⟩ := ih (runDeferred d e)
      rw [List.foldl_cons]
      constructor
      · rw [h1]
        cases e <;> simp [runDeferred, private_add_client, private_remove_client, record]
      · rw [h2]
        cases e <;> simp [runDeferred, private_add_client, private_remove_client, record, cycles]

/-- `post_process` changes the client list, the queue and the log only, and
adds no `run_one_cycle` entry to the log. -/
theorem post_process_frame (d : AudioDevice) :
    d.post_process = { d with m_clients := d.post_process.m_clients,
                              log := d.post_process.log, tsarQueue := [] } ∧
      cycles d.post_process.log = cycles d.log := by
  unfold post_process process_events
  obtain ⟨h1, h2⟩ := foldl_runDeferred_frame (d.record Event.post_process).tsarQueue
    ({ d.record Event.post_process with tsarQueue := [] })
  constructor
  · rw [h1]
    simp [record]
  · rw [h2]
    simp [record, cycles]

/-- With a positive buffer size and a driver that never fails the loop of
`run_cycle` ends after `left / m_bufferSize` sub-cycles of `m_bufferSize`
frames each. -/
theorem run_cycle_loop_ok (env : Env) (d : AudioDevice) (left fuel : Nat)
    (hb : 0 < d.m_bufferSize) (hok : ∀ i, 0 ≤ env.read i ∧ 0 ≤ env.write i)
    (hfuel : left / d.m_bufferSize < fuel) :
    ∃ dk : AudioDevice,
      run_cycle_loop env fuel d left = some (false, dk) ∧
      dk = { d with log := dk.log, nReads := d.nReads + left / d.m_bufferSize,
                    nWrites := d.nWrites + left / d.m_bufferSize } ∧
      cycles dk.log = cycles d.log ++ List.replicate (left / d.m_bufferSize) d.m_bufferSize := by
  obtain ⟨dk, h1, h2, h3⟩ := run_cycle_loop_advance env (left / d.m_bufferSize)
    (fuel - left / d.m_bufferSize) d left hb (fun i _ => ⟨(hok _).1, (hok _).2⟩)
    (Nat.div_mul_le_self left d.m_bufferSize)
  refine ⟨dk, ?_, h2, h3⟩
  have hf : fuel - left / d.m_bufferSize + left / d.m_bufferSize = fuel := by omega
  rw [hf] at h1
  rw [h1]
  obtain ⟨f, hf2⟩ : ∃ f, fuel - left / d.m_bufferSize = f + 1 := ⟨fuel - left / d.m_bufferSize - 1, by omega⟩
  rw [hf2, run_cycle_loop]
  have hbk : dk.m_bufferSize = d.m_bufferSize := by rw [h2]
  have hlt : left - left / d.m_bufferSize * d.m_bufferSize < d.m_bufferSize := by
    have h := Nat.mod_lt left hb
    have h' := Nat.div_add_mod left d.m_bufferSize
    rw [Nat.mul_comm] at h'
    omega
  rw [if_neg (by rw [hbk]; omega)]

/-- With a positive buffer size and a driver that never fails `run_cycle`
returns 1 after `nframes / m_bufferSize` sub-cycles of `m_bufferSize` frames
each; the buffer size and the xrun counter are as before. -/
theorem run_cycle_ok (env : Env) (d : AudioDevice) (n fuel : Nat)
    (hb : 0 < d.m_bufferSize) (hok : ∀ i, 0 ≤ env.read i ∧ 0 ≤ env.write i)
    (hfuel : n / d.m_bufferSize < fuel) :
    ∃ d' : AudioDevice,
      run_cycle env fuel d n = some (1, d') ∧
      cycles d'.log = cycles d.log ++ List.replicate (n / d.m_bufferSize) d.m_bufferSize ∧
      d'.m_xrunCount = d.m_xrunCount ∧ d'.m_bufferSize = d.m_bufferSize := by
  obtain ⟨dk, h1, h2, h3⟩ := run_cycle_loop_ok env d n fuel hb hok hfuel
  obtain ⟨p1, p2⟩ := post_process_frame dk
  refine ⟨dk.post_process, ?_, ?_, ?_, ?_⟩
  · simp [run_cycle, h1]
  · rw [p2, h3]
  · rw [p1, h2]
  · rw [p1, h2]

/-- `k` calls `run_cycle(m_bufferSize, _)` in a row, with a driver that never
fails: every call returns 1 and runs one sub-cycle. -/
theorem run_cycles_ok (env : Env) (hok : ∀ i, 0 ≤ env.read i ∧ 0 ≤ env.write i)
    (fuel : Nat) (hfuel : 1 < fuel) :
    ∀ (k : Nat) (d : AudioDevice), 0 < d.m_bufferSize →
      ∃ d' : AudioDevice,
        run_cycles env fuel d.m_bufferSize k d = some (List.replicate k 1, d') ∧
        cycles d'.log = cycles d.log ++ List.replicate k d.m_bufferSize ∧
        d'.m_xrunCount = d.m_xrunCount ∧ d'.m_bufferSize = d.m_bufferSize := by
  intro k
  induction k with
  | zero => intro d _; exact ⟨d, by simp [run_cycles], by simp, rfl, rfl⟩
  | succ k ih =>
      intro d hb
      obtain ⟨d1, h1, h2, h3, h4⟩ := run_cycle_ok env d d.m_bufferSize fuel hb hok
        (by rw [Nat.div_self hb]; exact hfuel)
      obtain ⟨d2, g1, g2, g3, g4⟩ := ih d1 (by rw [h4]; exact hb)
      rw [h4] at g1 g2
      refine ⟨d2, ?_, ?_, ?_, ?_⟩
      · simp [run_cycles, h1, g1, List.replicate_succ]
      · rw [g2, h2, Nat.div_self hb]
        simp [List.replicate_succ]
      · rw [g3, h3]
      · rw [g4, h4]

/-- C1. For a buffer size `b > 0`, a frame count `n` that is a multiple of
`b` and a driver whose reads and writes all succeed, `run_cycle(n, _)`
returns 1 after exactly `n / b` calls of `run_one_cycle`, each with `b`
frames; and `k` successive calls `run_cycle(b, _)` all return 1, make exactly
`k` calls of `run_one_cycle` and leave the xrun counter as it was. -/
theorem C1_run_cycle_multiple (env : Env) (d : AudioDevice) (n fuel : Nat)
    (hb : 0 < d.m_bufferSize) (hn : d.m_bufferSize ∣ n)
    (hok : ∀ i, 0 ≤ env.read i ∧ 0 ≤ env.write i)
    (hfuel : n / d.m_bufferSize < fuel) :
    (∃ d' : AudioDevice,
      run_cycle env fuel d n = some (1, d') ∧
      cycles d'.log = cycles d.log ++ List.replicate (n / d.m_bufferSize) d.m_bufferSize ∧
      (n / d.m_bufferSize) * d.m_bufferSize = n ∧
      d'.m_xrunCount = d.m_xrunCount) ∧
    (∀ k : Nat, ∃ d' : AudioDevice,
      run_cycles env 2 d.m_bufferSize k d = some (List.replicate k 1, d') ∧
      cycles d'.log = cycles d.log ++ List.replicate k d.m_bufferSize ∧
      d'.m_xrunCount = d.m_xrunCount) := by
  constructor
  · obtain ⟨d', h1, h2, h3, _⟩ := run_cycle_ok env d n fuel hb hok hfuel
    exact ⟨d', h1, h2, Nat.div_mul_cancel hn, h3⟩
  · intro k
    obtain ⟨d', h1, h2, h3, _⟩ := run_cycles_ok env hok 2 (by decide) k d hb
    exact ⟨d', h1, h2, h3⟩

/-- C1, at ten cycles of 256 frames. -/
theorem C1_run_cycle_multiple_witness :
    (∃ d' : AudioDevice,
      run_cycle quietEnv 11 dev256 2560 = some (1, d') ∧
      cycles d'.log = cycles dev256.log
        ++ List.replicate (2560 / dev256.m_bufferSize) dev256.m_bufferSize ∧
      (2560 / dev256.m_bufferSize) * dev256.m_bufferSize = 2560 ∧
      d'.m_xrunCount = dev256.m_xrunCount) ∧
    (∀ k : Nat, ∃ d' : AudioDevice,
      run_cycles quietEnv 2 dev256.m_bufferSize k dev256 = some (List.replicate k 1, d') ∧
      cycles d'.log = cycles dev256.log ++ List.replicate k dev256.m_bufferSize ∧
      d'.m_xrunCount = dev256.m_xrunCount) :=
  C1_run_cycle_multiple quietEnv dev256 2560 11 (by decide) (by decide)
    (fun _ => ⟨le_refl _, le_refl _⟩) (by decide)

/-- C2 (as stated, refuted). With 256-frame buffers and a driver that never
fails, `run_cycle(300, _)` returns 1 after a single sub-cycle of 256 frames:
the frame counts handed to `run_one_cycle` sum to 256, not to 300. -/
theorem C2_counterexample :
    (run_cycle quietEnv 2 dev256 300).map (fun r => (r.1, cycles r.2.log)) = some (1, [256]) ∧
      ¬ (dev256.m_bufferSize ∣ 300) ∧ ([256] : List Nat).sum ≠ 300 := by
  refine ⟨by rfl, by decide, by decide⟩

/-- C2 (amended). For a buffer size `b > 0`, a frame count `n` that is not a
multiple of `b` and a driver whose reads and writes all succeed,
`run_cycle(n, _)` returns 1 after `n / b` (rounded down) sub-cycles of `b`
frames each: the frame counts handed to `run_one_cycle` sum to `n - n % b`,
which is less than `n`; the last `n % b` frames are handed to no sub-cycle. -/
theorem C2_run_cycle_remainder (env : Env) (d : AudioDevice) (n fuel : Nat)
    (hb : 0 < d.m_bufferSize) (hn : ¬ d.m_bufferSize ∣ n)
    (hok : ∀ i, 0 ≤ env.read i ∧ 0 ≤ env.write i)
    (hfuel : n / d.m_bufferSize < fuel) :
    ∃ (d' : AudioDevice) (counts : List Nat),
      run_cycle env fuel d n = some (1, d') ∧
      cycles d'.log = cycles d.log ++ counts ∧
      counts = List.replicate (n / d.m_bufferSize) d.m_bufferSize ∧
      counts.sum = n - n % d.m_bufferSize ∧
      counts.sum < n := by
  obtain ⟨d', h1, h2, _, _⟩ := run_cycle_ok env d n fuel hb hok hfuel
  have hsum : (List.replicate (n / d.m_bufferSize) d.m_bufferSize).sum
      = n - n % d.m_bufferSize := by
    rw [List.sum_replicate, smul_eq_mul]
    have h' := Nat.div_add_mod n d.m_bufferSize
    rw [Nat.mul_comm] at h'
    omega
  have hmod : 0 < n % d.m_bufferSize := by
    rcases Nat.eq_zero_or_pos (n % d.m_bufferSize) with h | h
    · exact absurd (Nat.dvd_of_mod_eq_zero h) hn
    · exact h
  have hle : n % d.m_bufferSize ≤ n := Nat.mod_le _ _
  refine ⟨d', _, h1, h2, rfl, hsum, ?_⟩
  rw [hsum]
  omega

/-- C2 (amended), at 256-frame buffers and 300 frames. -/
theorem C2_run_cycle_remainder_witness :
    ∃ (d' : AudioDevice) (counts : List Nat),
      run_cycle quietEnv 2 dev256 300 = some (1, d') ∧
      cycles d'.log = cycles dev256.log ++ counts ∧
      counts = List.replicate (300 / dev256.m_bufferSize) dev256.m_bufferSize ∧
      counts.sum = 300 - 300 % dev256.m_bufferSize ∧
      counts.sum < 300 :=
  C2_run_cycle_remainder quietEnv dev256 300 2 (by decide) (by decide)
    (fun _ => ⟨le_refl _, le_refl _⟩) (by decide)

/-- Every call of `run_one_cycle` adds exactly one `run_one_cycle` entry to
the log and leaves the buffer size alone. -/
theorem run_one_cycle_cycles (env : Env) (d : AudioDevice) (n : Nat) :
    cycles (run_one_cycle env d n).2.log = cycles d.log ++ [n] ∧
      (run_one_cycle env d n).2.m_bufferSize = d.m_bufferSize := by
  rw [run_one_cycle_eq]
  split_ifs <;> simp [cycles]

/-- The value of `run_one_cycle` is -1 when the read or the write fails. -/
theorem run_one_cycle_fail (env : Env) (d : AudioDevice) (n : Nat)
    (h : env.read d.nReads < 0 ∨ env.write d.nWrites < 0) :
    (run_one_cycle env d n).1 = -1 := by
  rw [run_one_cycle_eq]
  split_ifs <;> simp_all

/-- A call of `run_one_cycle` whose value is not negative had a successful
read and a successful write. -/
theorem run_one_cycle_nonneg (env : Env) (d : AudioDevice) (n : Nat)
    (h : ¬ (run_one_cycle env d n).1 < 0) :
    0 ≤ env.read d.nReads ∧ 0 ≤ env.write d.nWrites := by
  rw [run_one_cycle_eq] at h
  split_ifs at h with h1 h2
  · simp at h
  · simp at h
  · exact ⟨not_lt.mp h1, not_lt.mp h2⟩

/-- When the loop of `run_cycle` runs to its end, every sub-cycle it ran
succeeded. -/
theorem run_cycle_loop_false (env : Env) :
    ∀ (fuel : Nat) (d : AudioDevice) (left : Nat) (d' : AudioDevice),
      run_cycle_loop env fuel d left = some (false, d') →
      ∃ k : Nat, cycles d'.log = cycles d.log ++ List.replicate k d.m_bufferSize ∧
        ∀ i, i < k → 0 ≤ env.read (d.nReads + i) ∧ 0 ≤ env.write (d.nWrites + i) := by
  intro fuel
  induction fuel with
  | zero => intro d left d' h; simp [run_cycle_loop] at h
  | succ fuel ih =>
      intro d left d' h
      rw [run_cycle_loop] at h
      by_cases hge : left ≥ d.m_bufferSize
      · rw [if_pos hge] at h
        by_cases hneg : (run_one_cycle env d d.m_bufferSize).1 < 0
        · rw [if_pos hneg] at h
          simp at h
        rw [if_neg hneg] at h
        have hok := run_one_cycle_nonneg env d d.m_bufferSize hneg
        have hstep := run_one_cycle_ok env d d.m_bufferSize hok.1 hok.2
        obtain ⟨k, hk1, hk2⟩ := ih _ _ _ h
        obtain ⟨c1, c2⟩ := run_one_cycle_cycles env d d.m_bufferSize
        refine ⟨k + 1, ?_, ?_⟩
        · rw [hk1, c1, c2]
          simp [List.replicate_succ]
        · intro i hi
          cases i with
          | zero => simpa using hok
          | succ i =>
              have := hk2 i (by omega)
              rw [hstep] at this
              simpa [Nat.add_assoc, Nat.add_comm 1 i] using this
      · rw [if_neg hge] at h
        simp only [Option.some.injEq, Prod.mk.injEq, true_and] at h
        subst h
        exact ⟨0, by simp, by intro i hi; omega⟩

/-- C3. When the sub-cycles before the `j`-th succeed and the driver read or
write of the `j`-th sub-cycle fails, `run_cycle` returns -1 and exactly `j`
sub-cycles have been started (the failing one is the last); and whenever
`run_cycle` returns 1, every sub-cycle it ran had a successful read and a
successful write. -/
theorem C3_run_cycle_abort (env : Env) (d : AudioDevice) (n fuel j : Nat)
    (hb : 0 < d.m_bufferSize) (hj : 1 ≤ j) (hjn : j * d.m_bufferSize ≤ n) (hfuel : j ≤ fuel)
    (hbefore : ∀ i, i < j - 1 → 0 ≤ env.read (d.nReads + i) ∧ 0 ≤ env.write (d.nWrites + i))
    (hfail : env.read (d.nReads + (j - 1)) < 0 ∨ env.write (d.nWrites + (j - 1)) < 0) :
    (∃ d' : AudioDevice,
      run_cycle env fuel d n = some (-1, d') ∧
      cycles d'.log = cycles d.log ++ List.replicate j d.m_bufferSize) ∧
    (∀ (fuel' : Nat) (d0 : AudioDevice) (n' : Nat),
      (run_cycle env fuel' d0 n').map Prod.fst = some 1 →
      ∃ (k : Nat) (d' : AudioDevice), run_cycle env fuel' d0 n' = some (1, d') ∧
        cycles d'.log = cycles d0.log ++ List.replicate k d0.m_bufferSize ∧
        ∀ i, i < k → 0 ≤ env.read (d0.nReads + i) ∧ 0 ≤ env.write (d0.nWrites + i)) := by
  constructor
  · have hmul : j * d.m_bufferSize = (j - 1) * d.m_bufferSize + d.m_bufferSize := by
      have : j = (j - 1) + 1 := by omega
      conv_lhs => rw [this, Nat.succ_mul]
    obtain ⟨dk, h1, h2, h3⟩ := run_cycle_loop_advance env (j - 1) (fuel - (j - 1)) d n hb
      hbefore (by omega)
    have hf : fuel - (j - 1) + (j - 1) = fuel := by omega
    rw [hf] at h1
    obtain ⟨f, hf2⟩ : ∃ f, fuel - (j - 1) = f + 1 := ⟨fuel - (j - 1) - 1, by omega⟩
    rw [hf2, run_cycle_loop] at h1
    have hbk : dk.m_bufferSize = d.m_bufferSize := by rw [h2]
    have hrk : dk.nReads = d.nReads + (j - 1) := by rw [h2]
    have hwk : dk.nWrites = d.nWrites + (j - 1) := by rw [h2]
    have hfailk := run_one_cycle_fail env dk dk.m_bufferSize (by rw [hrk, hwk]; exact hfail)
    rw [if_pos (by rw [hbk]; omega), if_pos (by rw [hfailk]; decide)] at h1
    refine ⟨(run_one_cycle env dk dk.m_bufferSize).2, ?_, ?_⟩
    · simp [run_cycle, h1]
    · rw [(run_one_cycle_cycles env dk dk.m_bufferSize).1, h3, hbk]
      have : j = (j - 1) + 1 := by omega
      conv_rhs => rw [this, List.replicate_succ']
      simp
  · intro fuel' d0 n' h
    unfold run_cycle at h ⊢
    split at h
    · simp at h
    · simp at h
    · rename_i d1 hloop
      obtain ⟨k, hk1, hk2⟩ := run_cycle_loop_false env _ _ _ _ hloop
      refine ⟨k, d1.post_process, ?_, ?_, hk2⟩
      · rfl
      · rw [(post_process_frame d1).2, hk1]

/-- C3, at 256-frame buffers, 1024 frames and a failure of the third read. -/
theorem C3_run_cycle_abort_witness :
    (∃ d' : AudioDevice,
      run_cycle thirdReadFails 5 dev256 1024 = some (-1, d') ∧
      cycles d'.log = cycles dev256.log ++ List.replicate 3 dev256.m_bufferSize) ∧
    (∃ (k : Nat) (d' : AudioDevice), run_cycle thirdReadFails 3 dev256 512 = some (1, d') ∧
        cycles d'.log = cycles dev256.log ++ List.replicate k dev256.m_bufferSize ∧
        ∀ i, i < k → 0 ≤ thirdReadFails.read (dev256.nReads + i)
          ∧ 0 ≤ thirdReadFails.write (dev256.nWrites + i)) :=
  ⟨(C3_run_cycle_abort thirdReadFails dev256 1024 5 3 (by decide) (by decide) (by decide)
      (by decide) (by intro i hi; interval_cases i <;> decide) (Or.inl (by decide))).1,
   (C3_run_cycle_abort thirdReadFails dev256 1024 5 3 (by decide) (by decide) (by decide)
      (by decide) (by intro i hi; interval_cases i <;> decide) (Or.inl (by decide))).2
      3 dev256 512 (by rfl)⟩

/-- C4. A successful `run_one_cycle(nframes, _)` makes, in this order,
exactly one driver read, one call of the process callback of every client of
the list, head of the list first, and exactly one driver write. -/
theorem C4_run_one_cycle_order (env : Env) (d : AudioDevice) (n : Nat)
    (h : (run_one_cycle env d n).1 = 0) :
    (run_one_cycle env d n).2.log
      = d.log ++ [Event.run_one_cycle n, Event.driverRead n]
          ++ d.m_clients.map (fun c => Event.clientProcess c n)
          ++ [Event.driverWrite n] := by
  rw [run_one_cycle_eq] at h ⊢
  by_cases h1 : env.read d.nReads < 0
  · rw [if_pos h1] at h
    simp at h
  · rw [if_neg h1]

/-- C4, at a 256-frame cycle of a device with one client. -/
theorem C4_run_one_cycle_order_witness :
    (run_one_cycle quietEnv dev256 256).1 = 0 ∧
    (run_one_cycle quietEnv dev256 256).2.log
      = dev256.log ++ [Event.run_one_cycle 256, Event.driverRead 256]
          ++ dev256.m_clients.map (fun c => Event.clientProcess c 256)
          ++ [Event.driverWrite 256] :=
  ⟨by rfl, C4_run_one_cycle_order quietEnv dev256 256 (by rfl)⟩

/-- C5. Whatever the clients' process callbacks return, `run_one_cycle` does
the same and returns the same: its result does not depend on the callbacks'
return values, its value is decided by the driver read and write alone, and
once the read has succeeded every client is called and the write is made. -/
theorem C5_client_failures_isolated (env : Env) (d : AudioDevice) (n : Nat)
    (results : Nat → Nat → Nat → Int) :
    run_one_cycle { env with process := results } d n = run_one_cycle env d n ∧
    (run_one_cycle env d n).1
      = (if env.read d.nReads < 0 ∨ env.write d.nWrites < 0 then -1 else 0) ∧
    (0 ≤ env.read d.nReads →
      (run_one_cycle { env with process := results } d n).2.log
        = d.log ++ [Event.run_one_cycle n, Event.driverRead n]
            ++ d.m_clients.map (fun c => Event.clientProcess c n)
            ++ [Event.driverWrite n]) := by
  refine ⟨?_, ?_, ?_⟩
  · rw [run_one_cycle_eq, run_one_cycle_eq]
  · rw [run_one_cycle_eq]
    by_cases h1 : env.read d.nReads < 0
    · simp [h1]
    · by_cases h2 : env.write d.nWrites < 0
      · simp [h1, h2]
      · simp [h1, h2]
  · intro hr
    rw [run_one_cycle_eq, if_neg (not_lt.mpr hr)]

/-- C5, at a 256-frame cycle in which every client callback returns -5. -/
theorem C5_client_failures_isolated_witness :
    run_one_cycle { quietEnv with process := fun _ _ _ => -5 } dev256 256
        = run_one_cycle quietEnv dev256 256 ∧
    (run_one_cycle quietEnv dev256 256).1
      = (if quietEnv.read dev256.nReads < 0 ∨ quietEnv.write dev256.nWrites < 0 then -1 else 0) ∧
    (run_one_cycle { quietEnv with process := fun _ _ _ => -5 } dev256 256).2.log
        = dev256.log ++ [Event.run_one_cycle 256, Event.driverRead 256]
            ++ dev256.m_clients.map (fun c => Event.clientProcess c 256)
            ++ [Event.driverWrite 256] :=
  ⟨(C5_client_failures_isolated quietEnv dev256 256 (fun _ _ _ => -5)).1,
   (C5_client_failures_isolated quietEnv dev256 256 (fun _ _ _ => -5)).2.1,
   (C5_client_failures_isolated quietEnv dev256 256 (fun _ _ _ => -5)).2.2 (by decide)⟩

/-- C6 (as stated, refuted). Clients 1, 2, 3 are added in this order to an
empty list and client 2 is removed: the next cycle calls client 3 and then
client 1, not client 1 and then client 3. -/
theorem C6_counterexample :
    processed (run_one_cycle quietEnv
      ((((devNoClients.private_add_client 1).private_add_client 2).private_add_client 3
        ).private_remove_client 2) 256).2.log = [3, 1] ∧
    processed (run_one_cycle quietEnv
      ((((devNoClients.private_add_client 1).private_add_client 2).private_add_client 3
        ).private_remove_client 2) 256).2.log ≠ [1, 3] := by
  refine ⟨by rfl, by decide⟩

/-- C6 (amended). `private_add_client` puts a client at the head of the list,
so starting from an empty list, after `private_add_client` for the clients
`A`, `B`, `C` in this order (`B` other than `C`) and `private_remove_client`
for `B`, the list is `[C, A]` and a cycle whose read succeeds calls `C` and
then `A`: the remaining clients keep their relative order, newest first. -/
theorem C6_registration_order (env : Env) (d : AudioDevice) (A B C n : Nat)
    (hempty : d.m_clients = []) (hBC : B ≠ C)
    (hr : 0 ≤ env.read d.nReads) :
    ((((d.private_add_client A).private_add_client B).private_add_client C
        ).private_remove_client B).m_clients = [C, A] ∧
    processed (run_one_cycle env
      ((((d.private_add_client A).private_add_client B).private_add_client C
        ).private_remove_client B) n).2.log = processed d.log ++ [C, A] := by
  have hl : ((((d.private_add_client A).private_add_client B).private_add_client C
        ).private_remove_client B).m_clients = [C, A] := by
    simp [private_add_client, private_remove_client, apill_prepend, apill_remove, hempty,
      List.erase_cons, hBC.symm]
  refine ⟨hl, ?_⟩
  rw [run_one_cycle_eq, if_neg (by simpa [private_add_client, private_remove_client] using hr)]
  simp only [hl]
  simp [private_add_client, private_remove_client, processed]

/-- C6 (amended), at the clients 1, 2, 3 of the counterexample. -/
theorem C6_registration_order_witness :
    ((((devNoClients.private_add_client 1).private_add_client 2).private_add_client 3
        ).private_remove_client 2).m_clients = [3, 1] ∧
    processed (run_one_cycle quietEnv
      ((((devNoClients.private_add_client 1).private_add_client 2).private_add_client 3
        ).private_remove_client 2) 256).2.log = processed devNoClients.log ++ [3, 1] :=
  C6_registration_order quietEnv devNoClients 1 2 3 256 rfl (by decide) (by decide)

/-- `provisionings` of a concatenation. -/
@[simp] theorem provisionings_append (l1 l2 : List Event) :
    provisionings (l1 ++ l2) = provisionings l1 ++ provisionings l2 := by
  simp [provisionings]

/-- `Quiet` is reflexive. -/
theorem Quiet.refl (d : AudioDevice) : Quiet d d :=
  ⟨rfl, rfl, rfl, rfl, [], by simp, by simp, by rfl⟩

/-- `Quiet` is transitive. -/
theorem Quiet.trans {a b c : AudioDevice} (h1 : Quiet a b) (h2 : Quiet b c) : Quiet a c := by
  obtain ⟨r1, b1, x1, s1, e1, l1, c1, p1⟩ := h1
  obtain ⟨r2, b2, x2, s2, e2, l2, c2, p2⟩ := h2
  refine ⟨r2.trans r1, b2.trans b1, x2.trans x1, s2.trans s1, e1 ++ e2, ?_, ?_, ?_⟩
  · rw [l2, l1, List.append_assoc]
  · rw [List.count_append, c1, c2]
  · rw [provisionings_append, p1, p2]; rfl

/-- `shutdown` deletes the driver and is quiet. -/
theorem shutdown_spec (env : Env) (d : AudioDevice) :
    (shutdown env d).2.m_driver = none ∧ Quiet d (shutdown env d).2 := by
  cases hth : d.m_audioThread <;> cases hdr : d.m_driver <;>
    cases hrun : env.isRunning (d.log.length + 1)
  all_goals
    simp [shutdown, record, free_memory, hth, hdr, hrun, Quiet, List.count_cons, provisionings]

/-- The head of `set_parameters` stores rate, buffer size and dither shape,
clears the xrun counter, deletes the driver and logs the entry of the
function followed by entries that are neither `started()` signals nor
`set_parameters` entries. -/
theorem prepare_spec (env : Env) (d : AudioDevice) (rate : Int) (bs : Nat) (t ds : String) :
    (prepare env d rate bs t ds).m_driver = none ∧
    (prepare env d rate bs t ds).m_rate = (rate % 4294967296).toNat ∧
    (prepare env d rate bs t ds).m_bufferSize = bs ∧
    (prepare env d rate bs t ds).m_xrunCount = 0 ∧
    (prepare env d rate bs t ds).m_ditherShape = ds ∧
    ∃ evs : List Event,
      (prepare env d rate bs t ds).log = d.log ++ Event.set_parameters t :: evs ∧
      evs.count (Event.emit Signal.started) = 0 ∧ provisionings evs = [] := by
  unfold prepare
  simp only []
  generalize hd1 : ({ d.record (Event.set_parameters t) with
      m_rate := (rate % 4294967296).toNat, m_bufferSize := bs, m_xrunCount := 0,
      m_ditherShape := ds } : AudioDevice) = d1
  obtain ⟨h1, r, b, x, s, evs, l, c, p⟩ := shutdown_spec env d1
  refine ⟨h1, ?_, ?_, ?_, ?_, evs, ?_, c, p⟩
  · rw [r, ← hd1]
  · rw [b, ← hd1]
  · rw [x, ← hd1]
  · rw [s, ← hd1]
  · rw [l, ← hd1]; simp [record]

/-- `create_driver("Null Driver", ...)` cannot fail. -/
theorem create_driver_null (env : Env) (d : AudioDevice) (c p : Bool) (cd : String) :
    create_driver env d "Null Driver" c p cd
      = (1, { d with m_driver := some (newDriver d DriverKind.null),
                     m_driverType := "Null Driver" }) := by
  simp [create_driver]

/-- Building the buses and starting the thread leaves driver and driver type
alone and is quiet. -/
theorem provision_spec (d : AudioDevice) (drv : Driver) (t : String) :
    (provision d drv t).m_driver = d.m_driver ∧
    (provision d drv t).m_driverType = d.m_driverType ∧
    Quiet d (provision d drv t) := by
  refine ⟨?_, ?_, ?_, ?_, ?_, ?_, ?_⟩
  rotate_right
  · unfold provision
    cases ht : (t == "ALSA" || t == "Null Driver")
    · refine ⟨[Event.emit Signal.driverParamsChanged], ?_, by decide, by rfl⟩
      simp only [Bool.false_eq_true, if_false]
      split_ifs <;> rfl
    · refine ⟨[Event.emit Signal.driverParamsChanged, Event.threadStart], ?_, by decide, by rfl⟩
      simp only [if_true]
      split_ifs <;> simp [record, setup_default_capture_buses, setup_capture_buses,
        setup_default_playback_buses, setup_playback_buses]
  all_goals
    simp only [provision]
    split_ifs <;> rfl

/-- The statement `m_driver->attach();` keeps the kind of the driver and the
driver type and is quiet. -/
theorem attach_driver_spec (env : Env) (d : AudioDevice) (drv : Driver) :
    (attach_driver env d drv).2.m_driver = some (attach_driver env d drv).1 ∧
    (attach_driver env d drv).1.kind = drv.kind ∧
    (attach_driver env d drv).2.m_driverType = d.m_driverType ∧
    Quiet d (attach_driver env d drv).2 :=
  ⟨rfl, rfl, rfl, rfl, rfl, rfl, rfl, [Event.driverAttach], rfl, by decide, by rfl⟩

/-- The blocks that start a callback-driven driver keep driver and driver
type and are quiet. -/
theorem start_driver_spec (env : Env) (d : AudioDevice) (drv : Driver) (t : String) :
    (start_driver env d drv t).2.m_driver = d.m_driver ∧
    (start_driver env d drv t).2.m_driverType = d.m_driverType ∧
    Quiet d (start_driver env d drv t).2 := by
  cases hj : (env.build.JACK_SUPPORT && env.build.libjack_is_present && t == "Jack") <;>
    cases hp : (t == "PortAudio" || t == "PulseAudio" || t == "CoreAudio") <;>
    by_cases hs : env.start drv.kind = -1
  all_goals
    simp [start_driver, record, hj, hp, hs, Quiet, List.count_cons, provisionings]

/-- `create_driver` either fails with -1 or returns 1 with a driver of the
kind that serves the driver type; it logs nothing. -/
theorem create_driver_cases (env : Env) (d : AudioDevice) (t : String) (c p : Bool)
    (cd : String) :
    ((create_driver env d t c p cd).1 = -1 ∧ Quiet d (create_driver env d t c p cd).2) ∨
    ((create_driver env d t c p cd).1 = 1 ∧
      (∃ drv : Driver, (create_driver env d t c p cd).2.m_driver = some drv ∧
        serves env t drv.kind) ∧
      (create_driver env d t c p cd).2.m_driverType = t ∧
      Quiet d (create_driver env d t c p cd).2) := by
  have hq : ∀ (o : Option Driver) (s : String),
      Quiet d { d with m_driver := o, m_driverType := s } := fun _ _ =>
    ⟨rfl, rfl, rfl, rfl, [], by simp, by simp, by rfl⟩
  have hq' : ∀ (o : Option Driver), Quiet d { d with m_driver := o } := fun _ =>
    ⟨rfl, rfl, rfl, rfl, [], by simp, by simp, by rfl⟩
  unfold create_driver
  split_ifs with h1 h2 h3 h4 h5 h6 h7 h8 h9 h10 h11
  · exact Or.inl ⟨rfl, hq' _⟩
  · refine Or.inr ⟨rfl, ⟨_, rfl, Or.inl ?_⟩, rfl, hq _ _⟩
    simp only [Bool.and_eq_true, beq_iff_eq] at h1
    exact ⟨h1.2, rfl, h1.1.1, h1.1.2⟩
  · exact Or.inl ⟨rfl, hq' _⟩
  · refine Or.inr ⟨rfl, ⟨_, rfl, Or.inr (Or.inl ?_)⟩, rfl, hq _ _⟩
    simp only [Bool.and_eq_true, beq_iff_eq] at h3
    exact ⟨h3.2, rfl⟩
  · exact Or.inl ⟨rfl, hq' _⟩
  · refine Or.inr ⟨rfl, ⟨_, rfl, Or.inr (Or.inr (Or.inl ?_))⟩, rfl, hq _ _⟩
    simp only [Bool.and_eq_true, beq_iff_eq] at h5
    exact ⟨h5.2, rfl⟩
  · exact Or.inl ⟨rfl, hq' _⟩
  · refine Or.inr ⟨rfl, ⟨_, rfl, Or.inr (Or.inr (Or.inr (Or.inl ?_)))⟩, rfl, hq _ _⟩
    simp only [Bool.and_eq_true, beq_iff_eq] at h7
    exact ⟨h7.2, rfl⟩
  · exact Or.inl ⟨rfl, hq' _⟩
  · refine Or.inr ⟨rfl, ⟨_, rfl, Or.inr (Or.inr (Or.inr (Or.inr (Or.inl ?_))))⟩, rfl, hq _ _⟩
    simp only [Bool.and_eq_true, beq_iff_eq] at h9
    exact ⟨h9.2, rfl⟩
  · refine Or.inr ⟨rfl, ⟨_, rfl, Or.inr (Or.inr (Or.inr (Or.inr (Or.inr ?_))))⟩, rfl, hq _ _⟩
    simp only [beq_iff_eq] at h11
    exact ⟨h11, rfl⟩
  · exact Or.inl ⟨rfl, Quiet.refl d⟩

/-- A driver type that no backend of the build serves makes `create_driver`
fail. -/
theorem create_driver_unavailable (env : Env) (d : AudioDevice) (t : String) (c p : Bool)
    (cd : String) (h : ∀ k : DriverKind, ¬ serves env t k) :
    (create_driver env d t c p cd).1 = -1 := by
  rcases create_driver_cases env d t c p cd with ⟨h1, _⟩ | ⟨_, ⟨drv, _, hm⟩, _⟩
  · exact h1
  · exact absurd hm (h _)

/-- For a driver of the kind that serves the driver type, the start blocks
end in the fallback exactly when the type is callback-driven and `start()`
returns -1. -/
theorem start_driver_fails (env : Env) (d : AudioDevice) (drv : Driver) (t : String)
    (hm : serves env t drv.kind) :
    (start_driver env d drv t).1 = true ↔ (callback_driven t ∧ env.start drv.kind = -1) := by
  by_cases hs : env.start drv.kind = -1
  · rcases hm with ⟨ht, _, hj, hl⟩ | ⟨ht, _⟩ | ⟨ht, _⟩ | ⟨ht, _⟩ | ⟨ht, _⟩ | ⟨ht, _⟩
    · subst ht; simp [start_driver, callback_driven, hs, hj, hl]
    all_goals subst ht; simp [start_driver, callback_driven, hs]
  · rcases hm with ⟨ht, _, hj, hl⟩ | ⟨ht, _⟩ | ⟨ht, _⟩ | ⟨ht, _⟩ | ⟨ht, _⟩ | ⟨ht, _⟩
    · subst ht; simp [start_driver, callback_driven, hs, hj, hl]
    all_goals subst ht; simp [start_driver, callback_driven, hs]

/-- After one of the two failures `set_parameters` goes on as a call of
itself for the "Null Driver", having logged its entry and no `started()`
signal. -/
theorem set_parameters_fallback (env : Env) (fuel : Nat) (d : AudioDevice) (rate : Int)
    (bs : Nat) (t : String) (c p : Bool) (cd ds : String)
    (hf : falls_back env d rate bs t c p cd ds) :
    ∃ (dm : AudioDevice) (evs : List Event),
      set_parameters env (fuel + 1) d rate bs t c p cd ds
        = set_parameters env fuel dm rate bs "Null Driver"
            env.defCapture env.defPlayback env.defCardDevice env.defDitherShape ∧
      dm.log = d.log ++ Event.set_parameters t :: evs ∧
      evs.count (Event.emit Signal.started) = 0 ∧ provisionings evs = [] := by
  unfold falls_back at hf
  rw [set_parameters]
  simp only []
  obtain ⟨hd2, _, _, _, _, evs2, hl2, hc2, hp2⟩ := prepare_spec env d rate bs t ds
  generalize prepare env d rate bs t ds = d2 at *
  have hcases := create_driver_cases env d2 t c p cd
  generalize create_driver env d2 t c p cd = cr at *
  rcases hcases with ⟨h1, hq⟩ | ⟨h1, ⟨drv0, hdrv, hm⟩, _, hq⟩
  · obtain ⟨_, _, _, _, evs3, hl3, hc3, hp3⟩ := hq
    rw [if_pos (by rw [h1]; decide)]
    refine ⟨cr.2, evs2 ++ evs3, rfl, ?_, ?_, ?_⟩
    · rw [hl3, hl2]; simp
    · rw [List.count_append, hc2, hc3]
    · rw [provisionings_append, hp2, hp3]; rfl
  · have hstart : callback_driven t ∧ env.start drv0.kind = -1 := by
      rcases hf with hf | ⟨hcb, drv, hdrv', hs⟩
      · rw [h1] at hf; exact absurd hf (by decide)
      · rw [hdrv] at hdrv'
        cases hdrv'
        exact ⟨hcb, hs⟩
    rw [if_neg (by rw [h1]; decide)]
    simp only [hdrv]
    obtain ⟨_, hk, _, hqa⟩ := attach_driver_spec env cr.2 drv0
    generalize attach_driver env cr.2 drv0 = ad at *
    obtain ⟨_, _, hqp⟩ := provision_spec ad.2 ad.1 t
    generalize provision ad.2 ad.1 t = d3 at *
    obtain ⟨_, _, hqs⟩ := start_driver_spec env d3 ad.1 t
    have hfail := (start_driver_fails env d3 ad.1 t (by rw [hk]; exact hm)).mpr
      (by rw [hk]; exact hstart)
    generalize start_driver env d3 ad.1 t = sr at *
    rw [if_pos hfail]
    obtain ⟨_, _, _, _, evs3, hl3, hc3, hp3⟩ := hq.trans (hqa.trans (hqp.trans hqs))
    refine ⟨sr.2, evs2 ++ evs3, rfl, ?_, ?_, ?_⟩
    · rw [hl3, hl2]; simp
    · rw [List.count_append, hc2, hc3]
    · rw [provisionings_append, hp2, hp3]; rfl

/-- Without either failure `set_parameters` returns without calling itself:
one unit of fuel is enough, the driver made for the driver type is in
place, and exactly one `started()` signal has been emitted. -/
theorem set_parameters_direct (env : Env) (fuel : Nat) (d : AudioDevice) (rate : Int)
    (bs : Nat) (t : String) (c p : Bool) (cd ds : String)
    (hf : ¬ falls_back env d rate bs t c p cd ds) :
    ∃ (d' : AudioDevice) (evs : List Event),
      set_parameters env (fuel + 1) d rate bs t c p cd ds = some d' ∧
      d'.log = d.log ++ Event.set_parameters t :: evs ∧
      evs.count (Event.emit Signal.started) = 1 ∧ provisionings evs = [] ∧
      (∃ drv : Driver, d'.m_driver = some drv ∧ serves env t drv.kind) ∧
      d'.m_driverType = t ∧
      d'.m_rate = (rate % 4294967296).toNat ∧ d'.m_bufferSize = bs ∧ d'.m_xrunCount = 0 := by
  unfold falls_back at hf
  rw [set_parameters]
  simp only []
  obtain ⟨hd2, hr2, hb2, hx2, _, evs2, hl2, hc2, hp2⟩ := prepare_spec env d rate bs t ds
  generalize prepare env d rate bs t ds = d2 at *
  have hcases := create_driver_cases env d2 t c p cd
  generalize create_driver env d2 t c p cd = cr at *
  rcases hcases with ⟨h1, hq⟩ | ⟨h1, ⟨drv0, hdrv, hm⟩, hty, hq⟩
  · exact absurd (Or.inl (by rw [h1]; decide)) hf
  · have hstart : ¬ (callback_driven t ∧ env.start drv0.kind = -1) := fun h =>
      hf (Or.inr ⟨h.1, drv0, hdrv, h.2⟩)
    rw [if_neg (by rw [h1]; decide)]
    simp only [hdrv]
    obtain ⟨hda, hk, htya, hqa⟩ := attach_driver_spec env cr.2 drv0
    generalize attach_driver env cr.2 drv0 = ad at *
    obtain ⟨hdp, htyp, hqp⟩ := provision_spec ad.2 ad.1 t
    generalize provision ad.2 ad.1 t = d3 at *
    obtain ⟨hds, htys, hqs⟩ := start_driver_spec env d3 ad.1 t
    have hfail : ¬ (start_driver env d3 ad.1 t).1 = true := fun h =>
      hstart (by
        have := (start_driver_fails env d3 ad.1 t (by rw [hk]; exact hm)).mp h
        rw [hk] at this
        exact this)
    generalize start_driver env d3 ad.1 t = sr at *
    rw [if_neg hfail]
    obtain ⟨hr3, hb3, hx3, _, evs3, hl3, hc3, hp3⟩ := hq.trans (hqa.trans (hqp.trans hqs))
    refine ⟨_, evs2 ++ evs3 ++ [Event.emit Signal.started], rfl, ?_, ?_, ?_, ?_, ?_, ?_, ?_, ?_⟩
    · simp [record, hl3, hl2]
    · rw [List.count_append, List.count_append, hc2, hc3]; rfl
    · rw [provisionings_append, provisionings_append, hp2, hp3]; rfl
    · exact ⟨ad.1, by simp [record, hds, hdp, hda], by rw [hk]; exact hm⟩
    · simp [record, htys, htyp, htya, hty]
    · simp [record, hr3, hr2]
    · simp [record, hb3, hb2]
    · simp [record, hx3, hx2]

/-- The "Null Driver" is never a case of fallback. -/
theorem not_falls_back_null (env : Env) (d : AudioDevice) (rate : Int) (bs : Nat)
    (c p : Bool) (cd ds : String) :
    ¬ falls_back env d rate bs "Null Driver" c p cd ds := by
  unfold falls_back
  rw [create_driver_null]
  rintro (h | ⟨h, _⟩)
  · simp at h
  · revert h
    simp [callback_driven]

/-- With two units of fuel `set_parameters` always returns: directly with
the driver made for the driver type, or, after one of the two failures,
through one call of itself with the Null Driver. -/
theorem set_parameters_spec (env : Env) (fuel : Nat) (d : AudioDevice) (rate : Int)
    (bs : Nat) (t : String) (c p : Bool) (cd ds : String) :
    ∃ (d' : AudioDevice) (evs : List Event),
      set_parameters env (fuel + 2) d rate bs t c p cd ds = some d' ∧
      d'.log = d.log ++ evs ∧
      evs.count (Event.emit Signal.started) = 1 ∧
      (∃ drv : Driver, d'.m_driver = some drv) ∧
      d'.m_rate = (rate % 4294967296).toNat ∧ d'.m_bufferSize = bs ∧ d'.m_xrunCount = 0 ∧
      ((falls_back env d rate bs t c p cd ds ∧ provisionings evs = [t, "Null Driver"] ∧
          d'.m_driverType = "Null Driver" ∧
          ∃ drv : Driver, d'.m_driver = some drv ∧ drv.kind = DriverKind.null) ∨
       (¬ falls_back env d rate bs t c p cd ds ∧ provisionings evs = [t] ∧
          d'.m_driverType = t)) := by
  by_cases hf : falls_back env d rate bs t c p cd ds
  · obtain ⟨dm, evs1, h1, hl1, hc1, hp1⟩ :=
      set_parameters_fallback env (fuel + 1) d rate bs t c p cd ds hf
    obtain ⟨d', evs2, h2, hl2, hc2, hp2, ⟨drv, hdrv, hserves⟩, hty, hr, hb, hx⟩ :=
      set_parameters_direct env fuel dm rate bs "Null Driver" env.defCapture env.defPlayback
        env.defCardDevice env.defDitherShape (not_falls_back_null env dm rate bs _ _ _ _)
    have hkind : drv.kind = DriverKind.null := by
      rcases hserves with ⟨h, _⟩ | ⟨h, _⟩ | ⟨h, _⟩ | ⟨h, _⟩ | ⟨h, _⟩ | ⟨_, h⟩
      · exact absurd h (by decide)
      · exact absurd h (by decide)
      · exact absurd h (by decide)
      · exact absurd h (by decide)
      · exact absurd h (by decide)
      · exact h
    refine ⟨d', Event.set_parameters t :: evs1 ++ Event.set_parameters "Null Driver" :: evs2,
      ?_, ?_, ?_, ⟨drv, hdrv⟩, hr, hb, hx, Or.inl ⟨hf, ?_, hty, drv, hdrv, hkind⟩⟩
    · rw [h1, h2]
    · rw [hl2, hl1]; simp
    · rw [List.count_append, List.count_cons, List.count_cons, hc1, hc2]; rfl
    · rw [provisionings_append]
      show t :: provisionings evs1 ++ "Null Driver" :: provisionings evs2 = _
      rw [hp1, hp2]; rfl
  · obtain ⟨d', evs, h1, hl, hc, hp, ⟨drv, hdrv, _⟩, hty, hr, hb, hx⟩ :=
      set_parameters_direct env (fuel + 1) d rate bs t c p cd ds hf
    refine ⟨d', Event.set_parameters t :: evs, h1, hl, ?_, ⟨drv, hdrv⟩, hr, hb, hx,
      Or.inr ⟨hf, ?_, hty⟩⟩
    · rw [List.count_cons, hc]; rfl
    · show t :: provisionings evs = _
      rw [hp]

/-- C7. If `create_driver` fails for the requested driver type, or the type
is callback-driven and `start()` of its driver returns -1, then
`set_parameters` returns with a driver in place, that driver is the Null
Driver, `get_driver_type()` is "Null Driver", and over the whole call
`started()` has been emitted exactly once. -/
theorem C7_fallback_to_null_driver (env : Env) (fuel : Nat) (d : AudioDevice) (rate : Int)
    (bufferSize : Nat) (driverType : String) (capture playback : Bool)
    (cardDevice ditherShape : String)
    (hfail : falls_back env d rate bufferSize driverType capture playback cardDevice
      ditherShape) :
    ∃ (d' : AudioDevice) (evs : List Event),
      set_parameters env (fuel + 2) d rate bufferSize driverType capture playback cardDevice
        ditherShape = some d' ∧
      (∃ drv : Driver, d'.m_driver = some drv ∧ drv.kind = DriverKind.null) ∧
      d'.get_driver_type = "Null Driver" ∧
      d'.log = d.log ++ evs ∧
      evs.count (Event.emit Signal.started) = 1 := by
  obtain ⟨d', evs, h1, hl, hc, _, _, _, _, h | h⟩ :=
    set_parameters_spec env fuel d rate bufferSize driverType capture playback cardDevice
      ditherShape
  · exact ⟨d', evs, h1, h.2.2.2, h.2.2.1, hl, hc⟩
  · exact absurd hfail h.1

/-- C7, at an unknown driver type and at a Jack driver whose `start()`
returns -1. -/
theorem C7_fallback_to_null_driver_witness :
    (falls_back quietEnv AudioDevice.new 48000 256 "No Such Driver" true true "" "" ∧
      ∃ (d' : AudioDevice) (evs : List Event),
        set_parameters quietEnv 2 AudioDevice.new 48000 256 "No Such Driver" true true "" ""
          = some d' ∧
        (∃ drv : Driver, d'.m_driver = some drv ∧ drv.kind = DriverKind.null) ∧
        d'.get_driver_type = "Null Driver" ∧
        d'.log = AudioDevice.new.log ++ evs ∧
        evs.count (Event.emit Signal.started) = 1) ∧
    (falls_back startFails AudioDevice.new 48000 256 "Jack" true true "" "" ∧
      ∃ (d' : AudioDevice) (evs : List Event),
        set_parameters startFails 2 AudioDevice.new 48000 256 "Jack" true true "" ""
          = some d' ∧
        (∃ drv : Driver, d'.m_driver = some drv ∧ drv.kind = DriverKind.null) ∧
        d'.get_driver_type = "Null Driver" ∧
        d'.log = AudioDevice.new.log ++ evs ∧
        evs.count (Event.emit Signal.started) = 1) :=
  ⟨⟨Or.inl (by decide),
    C7_fallback_to_null_driver quietEnv 0 AudioDevice.new 48000 256 "No Such Driver" true true
      "" "" (Or.inl (by decide))⟩,
   ⟨Or.inr ⟨Or.inl rfl, _, rfl, rfl⟩,
    C7_fallback_to_null_driver startFails 0 AudioDevice.new 48000 256 "Jack" true true
      "" "" (Or.inr ⟨Or.inl rfl, _, rfl, rfl⟩)⟩⟩

/-- C8 (the code at the failing input). In a build with ALSA whose driver
sets up and whose `attach()` returns -1, `set_parameters(48000, 256, "ALSA")`
returns without calling itself: `attach()` has been called once, the driver
type is "ALSA", not "Null Driver", and `started()` has been emitted. -/
theorem C8_attach_failure_ignored :
    attachFails.attach DriverKind.alsa = -1 ∧
    (set_parameters attachFails 2 AudioDevice.new 48000 256 "ALSA" true true "" "").map
      (fun d => (d.get_driver_type, provisionings d.log, d.log.count Event.driverAttach,
        d.log.count (Event.emit Signal.started)))
      = some ("ALSA", ["ALSA"], 1, 1) := by
  refine ⟨by rfl, by rfl⟩

/-- C9. `create_driver("Null Driver", ...)` returns 1 for all arguments and
leaves a driver of the Null kind and the driver type "Null Driver"; a call
of `set_parameters` for the "Null Driver" returns without calling itself
(one unit of fuel is enough and the log shows one entry of the function);
and every call of `set_parameters` returns after at most one call of itself
(two units of fuel are enough and the log shows at most two entries). -/
theorem C9_null_driver_terminal (env : Env) (fuel : Nat) (d : AudioDevice) (rate : Int)
    (bufferSize : Nat) (driverType : String) (capture playback : Bool)
    (cardDevice ditherShape : String) :
    ((create_driver env d "Null Driver" capture playback cardDevice).1 = 1 ∧
      (create_driver env d "Null Driver" capture playback cardDevice).2.m_driver
        = some (newDriver d DriverKind.null) ∧
      (create_driver env d "Null Driver" capture playback cardDevice).2.get_driver_type
        = "Null Driver") ∧
    (∃ (d' : AudioDevice) (evs : List Event),
      set_parameters env 1 d rate bufferSize "Null Driver" capture playback cardDevice
        ditherShape = some d' ∧
      d'.log = d.log ++ evs ∧ provisionings evs = ["Null Driver"] ∧
      d'.get_driver_type = "Null Driver") ∧
    (∃ (d' : AudioDevice) (evs : List Event),
      set_parameters env (fuel + 2) d rate bufferSize driverType capture playback cardDevice
        ditherShape = some d' ∧
      d'.log = d.log ++ evs ∧ (provisionings evs).length ≤ 2 ∧
      (provisionings evs).tail ⊆ ["Null Driver"]) := by
  refine ⟨?_, ?_, ?_⟩
  · rw [create_driver_null]
    exact ⟨rfl, rfl, rfl⟩
  · obtain ⟨d', evs, h1, hl, _, hp, _, hty, _⟩ :=
      set_parameters_direct env 0 d rate bufferSize "Null Driver" capture playback cardDevice
        ditherShape (not_falls_back_null env d rate bufferSize _ _ _ _)
    refine ⟨d', Event.set_parameters "Null Driver" :: evs, h1, hl, ?_, hty⟩
    show "Null Driver" :: provisionings evs = _
    rw [hp]
  · obtain ⟨d', evs, h1, hl, _, _, _, _, _, h | h⟩ :=
      set_parameters_spec env fuel d rate bufferSize driverType capture playback cardDevice
        ditherShape
    · exact ⟨d', evs, h1, hl, by rw [h.2.1]; simp, by rw [h.2.1]; simp⟩
    · exact ⟨d', evs, h1, hl, by rw [h.2.1]; simp, by rw [h.2.1]; simp⟩

/-- One call of `xrun()` that does not take the counter out of its range:
the counter goes up by one, `bufferUnderRun()` is raised, and
`xrunStormDetected()` is raised after it exactly when the new counter value
exceeds 30. -/
theorem xrun_spec (d : AudioDevice) (hr : d.m_xrunCount + 1 < 4294967296) :
    d.xrun.m_xrunCount = d.m_xrunCount + 1 ∧
    d.xrun.log = d.log ++ Event.emit Signal.bufferUnderRun ::
      (if 30 < d.m_xrunCount + 1 then [Event.emit Signal.xrunStormDetected] else []) := by
  have hm : (d.m_xrunCount + 1) % 4294967296 = d.m_xrunCount + 1 := Nat.mod_eq_of_lt hr
  unfold xrun
  by_cases h : 30 < d.m_xrunCount + 1
  · simp [record, h, hm]
  · simp [record, h, hm]

/-- The counter after `k` calls of `xrun()` that stay within its range. -/
theorem xrun_iterate_count (d : AudioDevice) (k : Nat)
    (hr : d.m_xrunCount + k < 4294967296) :
    (xrun^[k] d).m_xrunCount = d.m_xrunCount + k := by
  induction k with
  | zero => rfl
  | succ k ih =>
      have hk := ih (by omega)
      rw [Function.iterate_succ_apply', (xrun_spec (xrun^[k] d) (by rw [hk]; omega)).1, hk]
      omega

/-- The call of `xrun()` that follows `k` calls from a counter of 0, within
the range of the counter: it raises `bufferUnderRun()`, and after it
`xrunStormDetected()` exactly when it is the 31st call or a later one. -/
theorem xrun_iterate_step (d : AudioDevice) (h0 : d.m_xrunCount = 0) (k : Nat)
    (hr : k + 1 < 4294967296) :
    (xrun^[k + 1] d).log = (xrun^[k] d).log ++ Event.emit Signal.bufferUnderRun ::
      (if 30 < k + 1 then [Event.emit Signal.xrunStormDetected] else []) := by
  have hk : (xrun^[k] d).m_xrunCount = k := by
    rw [xrun_iterate_count d k (by omega), h0, Nat.zero_add]
  rw [Function.iterate_succ_apply', (xrun_spec (xrun^[k] d) (by rw [hk]; exact hr)).2, hk]

/-- The log after `k ≤ 30` calls of `xrun()` from a counter of 0. -/
theorem xrun_iterate_log (d : AudioDevice) (h0 : d.m_xrunCount = 0) (k : Nat) (hk : k ≤ 30) :
    (xrun^[k] d).log = d.log ++ List.replicate k (Event.emit Signal.bufferUnderRun) := by
  induction k with
  | zero => simp
  | succ k ih =>
      rw [xrun_iterate_step d h0 k (by omega), ih (by omega), if_neg (by omega),
        List.replicate_succ']
      simp

/-- C10. From an xrun counter of 0 and with no reset in between, each of the
first 30 calls of `xrun()` raises one `bufferUnderRun()` and nothing else,
and the 31st raises one `bufferUnderRun()` followed by
`xrunStormDetected()`: over the 31 calls there are 31 `bufferUnderRun()` and
exactly one `xrunStormDetected()`. -/
theorem C10_xrun_storm (d : AudioDevice) (h0 : d.m_xrunCount = 0) :
    (∀ k, k < 30 →
      (xrun^[k + 1] d).log = (xrun^[k] d).log ++ [Event.emit Signal.bufferUnderRun]) ∧
    (xrun^[31] d).log = (xrun^[30] d).log
      ++ [Event.emit Signal.bufferUnderRun, Event.emit Signal.xrunStormDetected] ∧
    (∃ evs : List Event, (xrun^[31] d).log = d.log ++ evs ∧
      evs.count (Event.emit Signal.xrunStormDetected) = 1 ∧
      evs.count (Event.emit Signal.bufferUnderRun) = 31) ∧
    (xrun^[31] d).m_xrunCount = 31 := by
  have h31 : (xrun^[31] d).log = (xrun^[30] d).log
      ++ [Event.emit Signal.bufferUnderRun, Event.emit Signal.xrunStormDetected] := by
    rw [xrun_iterate_step d h0 30 (by omega), if_pos (by omega)]
  refine ⟨?_, h31, ?_, ?_⟩
  · intro k hk
    rw [xrun_iterate_step d h0 k (by omega), if_neg (by omega)]
  · refine ⟨List.replicate 30 (Event.emit Signal.bufferUnderRun)
      ++ [Event.emit Signal.bufferUnderRun, Event.emit Signal.xrunStormDetected], ?_, ?_, ?_⟩
    · rw [h31, xrun_iterate_log d h0 30 (le_refl _), List.append_assoc]
    · decide
    · decide
  · rw [xrun_iterate_count d 31 (by omega), h0]

/-- C10, at a freshly constructed device. -/
theorem C10_xrun_storm_witness :
    (∀ k, k < 30 →
      (xrun^[k + 1] AudioDevice.new).log
        = (xrun^[k] AudioDevice.new).log ++ [Event.emit Signal.bufferUnderRun]) ∧
    (xrun^[31] AudioDevice.new).log = (xrun^[30] AudioDevice.new).log
      ++ [Event.emit Signal.bufferUnderRun, Event.emit Signal.xrunStormDetected] ∧
    (∃ evs : List Event, (xrun^[31] AudioDevice.new).log = AudioDevice.new.log ++ evs ∧
      evs.count (Event.emit Signal.xrunStormDetected) = 1 ∧
      evs.count (Event.emit Signal.bufferUnderRun) = 31) ∧
    (xrun^[31] AudioDevice.new).m_xrunCount = 31 :=
  C10_xrun_storm AudioDevice.new rfl

/-- Only the Null kind serves the driver type "Null Driver". -/
theorem serves_null (env : Env) (k : DriverKind) (h : serves env "Null Driver" k) :
    k = DriverKind.null := by
  rcases h with ⟨h, _⟩ | ⟨h, _⟩ | ⟨h, _⟩ | ⟨h, _⟩ | ⟨h, _⟩ | ⟨_, h⟩
  · exact absurd h (by decide)
  · exact absurd h (by decide)
  · exact absurd h (by decide)
  · exact absurd h (by decide)
  · exact absurd h (by decide)
  · exact h

/-- A call of `set_parameters` for the "Null Driver" returns, without calling
itself, with the Null Driver in place and rate, buffer size and xrun counter
set. -/
theorem set_parameters_null_spec (env : Env) (fuel : Nat) (d : AudioDevice) (rate : Int)
    (bs : Nat) (c p : Bool) (cd ds : String) :
    ∃ (d' : AudioDevice) (evs : List Event),
      set_parameters env (fuel + 1) d rate bs "Null Driver" c p cd ds = some d' ∧
      d'.log = d.log ++ evs ∧
      (∃ drv : Driver, d'.m_driver = some drv ∧ drv.kind = DriverKind.null) ∧
      d'.m_driverType = "Null Driver" ∧
      d'.m_rate = (rate % 4294967296).toNat ∧ d'.m_bufferSize = bs ∧ d'.m_xrunCount = 0 := by
  obtain ⟨d', evs, h1, hl, _, _, ⟨drv, hdrv, hs⟩, hty, hr, hb, hx⟩ :=
    set_parameters_direct env fuel d rate bs "Null Driver" c p cd ds
      (not_falls_back_null env d rate bs c p cd ds)
  exact ⟨d', _, h1, hl, ⟨drv, hdrv, serves_null env _ hs⟩, hty, hr, hb, hx⟩

/-- C11. Whatever the state of the device, `switch_to_null_driver()` returns
with a driver in place, that driver is the Null Driver, `get_driver_type()`
is "Null Driver" and the xrun counter is 0; from there the next 30 calls of
`xrun()` raise no `xrunStormDetected()` and the 31st raises one. -/
theorem C11_switch_to_null_driver (env : Env) (fuel : Nat) (d : AudioDevice) :
    ∃ d' : AudioDevice,
      switch_to_null_driver env (fuel + 1) d = some d' ∧
      (∃ drv : Driver, d'.m_driver = some drv ∧ drv.kind = DriverKind.null) ∧
      d'.get_driver_type = "Null Driver" ∧
      d'.m_xrunCount = 0 ∧
      (∀ k, k ≤ 30 →
        (xrun^[k] d').log = d'.log ++ List.replicate k (Event.emit Signal.bufferUnderRun)) ∧
      (xrun^[31] d').log = (xrun^[30] d').log
        ++ [Event.emit Signal.bufferUnderRun, Event.emit Signal.xrunStormDetected] := by
  obtain ⟨d', _, h1, _, hdrv, hty, _, _, hx⟩ :=
    set_parameters_null_spec env fuel d 44100 d.m_bufferSize env.defCapture env.defPlayback
      env.defCardDevice env.defDitherShape
  refine ⟨d', h1, hdrv, hty, hx, fun k hk => xrun_iterate_log d' hx k hk, ?_⟩
  rw [xrun_iterate_step d' hx 30 (by omega), if_pos (by omega)]

/-- C12 (as stated, refuted). A device configured for 48000 Hz and 256
frames reports 44100 Hz after `switch_to_null_driver()` and after
`audiothread_finished()`. -/
theorem C12_counterexample :
    dev256.get_sample_rate = 48000 ∧ dev256.m_runAudioThread = true ∧
    (switch_to_null_driver quietEnv 1 dev256).map get_sample_rate = some 44100 ∧
    (audiothread_finished quietEnv 1 dev256).map get_sample_rate = some 44100 := by
  refine ⟨by rfl, by rfl, by rfl, by rfl⟩

/-- C12 (amended). The buffer size persists across the automatic fallback
swaps and the sample rate does not: after `switch_to_null_driver()`, and
after `audiothread_finished()` with the run flag set, the configured buffer
size is what it was and `get_sample_rate()` is 44100, whatever it was. -/
theorem C12_fallback_keeps_buffer_size (env : Env) (fuel : Nat) (d : AudioDevice) :
    (∃ d' : AudioDevice,
      switch_to_null_driver env (fuel + 1) d = some d' ∧
      d'.m_bufferSize = d.m_bufferSize ∧ d'.get_sample_rate = 44100) ∧
    (d.m_runAudioThread = true →
      ∃ d' : AudioDevice,
        audiothread_finished env (fuel + 1) d = some d' ∧
        d'.m_bufferSize = d.m_bufferSize ∧ d'.get_sample_rate = 44100) := by
  obtain ⟨d', _, h1, _, _, _, hr, hb, _⟩ :=
    set_parameters_null_spec env fuel d 44100 d.m_bufferSize env.defCapture env.defPlayback
      env.defCardDevice env.defDitherShape
  have hr' : d'.get_sample_rate = 44100 := by
    unfold get_sample_rate
    rw [hr]
    decide
  refine ⟨⟨d', h1, hb, hr'⟩, fun hrun => ⟨d', ?_, hb, hr'⟩⟩
  unfold audiothread_finished
  rw [if_pos hrun]
  exact h1

/-- C12 (amended), at the device configured for 48000 Hz and 256 frames. -/
theorem C12_fallback_keeps_buffer_size_witness :
    (∃ d' : AudioDevice,
      switch_to_null_driver quietEnv 1 dev256 = some d' ∧
      d'.m_bufferSize = dev256.m_bufferSize ∧ d'.get_sample_rate = 44100) ∧
    (∃ d' : AudioDevice,
      audiothread_finished quietEnv 1 dev256 = some d' ∧
      d'.m_bufferSize = dev256.m_bufferSize ∧ d'.get_sample_rate = 44100) :=
  ⟨(C12_fallback_keeps_buffer_size quietEnv 0 dev256).1,
   (C12_fallback_keeps_buffer_size quietEnv 0 dev256).2 rfl⟩

/-- `shutdown()` clears the run flag. -/
theorem shutdown_run_flag (env : Env) (d : AudioDevice) :
    (shutdown env d).2.m_runAudioThread = false := by
  cases hth : d.m_audioThread <;> cases hdr : d.m_driver <;>
    cases hrun : env.isRunning (d.log.length + 1)
  all_goals simp [shutdown, record, free_memory, hth, hdr, hrun]

/-- C17. Whether or not the audio thread exits within the wait, `shutdown()`
returns with the run flag cleared, the driver stopped (when there was one)
and null, and both bus collections empty; its value is 0 exactly when the
thread object exists, the thread was running and the wait timed out, and 1
otherwise. -/
theorem C17_shutdown_teardown (env : Env) (d : AudioDevice) :
    (shutdown env d).2.m_runAudioThread = false ∧
    (shutdown env d).2.m_driver = none ∧
    (shutdown env d).2.log.count Event.driverStop
      = d.log.count Event.driverStop + (if d.m_driver.isSome then 1 else 0) ∧
    (shutdown env d).2.m_captureBuses = [] ∧
    (shutdown env d).2.m_playbackBuses = [] ∧
    ((shutdown env d).1 = 0 ↔
      (d.m_audioThread = true ∧ env.isRunning (d.log.length + 1) = true
        ∧ env.wait (d.log.length + 1) = false)) ∧
    ((shutdown env d).1 = 0 ∨ (shutdown env d).1 = 1) := by
  cases hth : d.m_audioThread <;> cases hdr : d.m_driver <;>
    cases hrun : env.isRunning (d.log.length + 1) <;>
    cases hw : env.wait (d.log.length + 1)
  all_goals
    simp [shutdown, record, free_memory, hth, hdr, hrun, hw, List.count_cons]

/-- C20. With the run flag set `audiothread_finished()` leaves the device
with the Null Driver in place and the driver type "Null Driver"; with the
run flag clear it leaves the device as it is; and after `shutdown()` the run
flag is clear. -/
theorem C20_audiothread_finished (env : Env) (fuel : Nat) (d : AudioDevice) :
    (d.m_runAudioThread = true →
      ∃ d' : AudioDevice,
        audiothread_finished env (fuel + 1) d = some d' ∧
        (∃ drv : Driver, d'.m_driver = some drv ∧ drv.kind = DriverKind.null) ∧
        d'.get_driver_type = "Null Driver") ∧
    (d.m_runAudioThread = false → audiothread_finished env fuel d = some d) ∧
    ((shutdown env d).2.m_runAudioThread = false ∧
      audiothread_finished env fuel (shutdown env d).2 = some (shutdown env d).2) := by
  have hoff : ∀ x : AudioDevice, x.m_runAudioThread = false →
      audiothread_finished env fuel x = some x := by
    intro x hx
    unfold audiothread_finished
    rw [hx]
    rfl
  refine ⟨?_, hoff d, ?_⟩
  · intro hrun
    obtain ⟨d', _, h1, _, hdrv, hty, _⟩ :=
      set_parameters_null_spec env fuel d 44100 d.m_bufferSize env.defCapture env.defPlayback
        env.defCardDevice env.defDitherShape
    refine ⟨d', ?_, hdrv, hty⟩
    unfold audiothread_finished
    rw [if_pos hrun]
    exact h1
  · exact ⟨shutdown_run_flag env d, hoff _ (shutdown_run_flag env d)⟩

/-- C20, at a running device, at a freshly constructed device (run flag
clear) and after a shutdown. -/
theorem C20_audiothread_finished_witness :
    (∃ d' : AudioDevice,
      audiothread_finished quietEnv 1 dev256 = some d' ∧
      (∃ drv : Driver, d'.m_driver = some drv ∧ drv.kind = DriverKind.null) ∧
      d'.get_driver_type = "Null Driver") ∧
    audiothread_finished quietEnv 1 AudioDevice.new = some AudioDevice.new ∧
    ((shutdown quietEnv dev256).2.m_runAudioThread = false ∧
      audiothread_finished quietEnv 1 (shutdown quietEnv dev256).2
        = some (shutdown quietEnv dev256).2) :=
  ⟨(C20_audiothread_finished quietEnv 0 dev256).1 rfl,
   (C20_audiothread_finished quietEnv 1 AudioDevice.new).2.1 rfl,
   (C20_audiothread_finished quietEnv 1 dev256).2.2⟩

/-- The keys of a `QHash` after `insert`. -/
theorem hashInsert_keys (h : List (String × AudioBus)) (k : String) (v : AudioBus)
    (k' : String) :
    k' ∈ (hashInsert h k v).map Prod.fst ↔ (k' ∈ h.map Prod.fst ∨ k' = k) := by
  unfold hashInsert
  by_cases hany : h.any (fun p => p.1 == k) = true
  · rw [if_pos hany]
    simp only [List.any_eq_true, beq_iff_eq] at hany
    obtain ⟨q, hq, hqk⟩ := hany
    simp only [List.mem_map, Prod.exists, exists_and_right, exists_eq_right]
    constructor
    · rintro ⟨b, a, b0, hab, heq⟩
      by_cases hak : (a == k) = true
      · rw [if_pos hak] at heq
        right
        exact (Prod.mk.inj heq).1.symm
      · rw [if_neg hak] at heq
        left
        have := (Prod.mk.inj heq).1
        exact ⟨b0, this ▸ hab⟩
    · rintro (⟨b, hb⟩ | hk)
      · by_cases hak : (k' == k) = true
        · exact ⟨v, k', b, hb, by rw [if_pos hak]; rw [beq_iff_eq] at hak; rw [hak]⟩
        · exact ⟨b, k', b, hb, by rw [if_neg hak]⟩
      · subst hk
        exact ⟨v, q.1, q.2, hq, by simp [hqk]⟩
  · rw [if_neg hany]
    simp [List.mem_append]

/-- When every bus of a `QHash` is filed under its own name and a bus is
inserted under its own name, every bus is filed under its own name. -/
theorem hashInsert_named (h : List (String × AudioBus)) (k : String) (v : AudioBus)
    (hh : ∀ q ∈ h, q.2.name = q.1) (hv : v.name = k) :
    ∀ q ∈ hashInsert h k v, q.2.name = q.1 := by
  unfold hashInsert
  by_cases hany : h.any (fun p => p.1 == k) = true
  · rw [if_pos hany]
    intro q hq
    simp only [List.mem_map] at hq
    obtain ⟨a, ha, rfl⟩ := hq
    by_cases hak : (a.1 == k) = true
    · rw [if_pos hak]; exact hv
    · rw [if_neg hak]; exact hh a ha
  · rw [if_neg hany]
    intro q hq
    rcases List.mem_append.mp hq with hq | hq
    · exact hh q hq
    · rw [List.mem_singleton] at hq
      rw [hq]; exact hv

/-- Inserting under a key that is not in the `QHash` adds the pair. -/
theorem hashInsert_fresh (h : List (String × AudioBus)) (k : String) (v : AudioBus)
    (hk : k ∉ h.map Prod.fst) : hashInsert h k v = h ++ [(k, v)] := by
  unfold hashInsert
  rw [if_neg]
  intro hany
  simp only [List.any_eq_true, beq_iff_eq] at hany
  obtain ⟨q, hq, hqk⟩ := hany
  exact hk (List.mem_map.mpr ⟨q, hq, hqk⟩)

/-- The buses built from a list of configurations: the names filed are the
names already there and the names of the configurations, and every bus is
filed under its own name. -/
theorem foldl_hashInsert_names (mk : bus_config → AudioBus)
    (hmk : ∀ conf, (mk conf).name = conf.name) (cfg : List bus_config) :
    ∀ h : List (String × AudioBus), (∀ q ∈ h, q.2.name = q.1) →
      (∀ q ∈ cfg.foldl (fun b conf => hashInsert b conf.name (mk conf)) h, q.2.name = q.1) ∧
      ∀ k, k ∈ (cfg.foldl (fun b conf => hashInsert b conf.name (mk conf)) h).map Prod.fst ↔
        (k ∈ h.map Prod.fst ∨ ∃ conf ∈ cfg, conf.name = k) := by
  induction cfg with
  | nil => intro h hh; exact ⟨fun q hq => hh q hq, by simp⟩
  | cons c cs ih =>
      intro h hh
      obtain ⟨i1, i2⟩ := ih (hashInsert h c.name (mk c))
        (hashInsert_named h c.name (mk c) hh (hmk c))
      refine ⟨i1, fun k => ?_⟩
      rw [List.foldl_cons, i2, hashInsert_keys]
      simp only [List.mem_cons, exists_eq_or_imp]
      constructor
      · rintro ((h1 | h1) | h1)
        · exact Or.inl h1
        · exact Or.inr (Or.inl h1.symm)
        · exact Or.inr (Or.inr h1)
      · rintro (h1 | h1 | h1)
        · exact Or.inl (Or.inl h1)
        · exact Or.inl (Or.inr h1.symm)
        · exact Or.inr h1

/-- The names of the buses filed under their own names are the keys. -/
theorem names_eq_keys (h : List (String × AudioBus)) (hh : ∀ q ∈ h, q.2.name = q.1) :
    h.map (fun p => p.2.name) = h.map Prod.fst :=
  List.map_congr_left hh

/-- Adding the channels that exist keeps the name of the bus. -/
theorem foldl_add_channel_name (look : String → Option String) (chs : List String) :
    ∀ b : AudioBus, (chs.foldl (fun bus ch => add_channel_if bus (look ch)) b).name = b.name := by
  induction chs with
  | nil => intro b; rfl
  | cons c cs ih =>
      intro b
      rw [List.foldl_cons, ih]
      cases look c <;> rfl

/-- The bus built from a capture configuration carries its name. -/
theorem capture_bus_of_name (drv : Driver) (conf : bus_config) :
    (capture_bus_of drv conf).name = conf.name :=
  foldl_add_channel_name _ _ _

/-- The bus built from a playback configuration carries its name. -/
theorem playback_bus_of_name (drv : Driver) (conf : bus_config) :
    (playback_bus_of drv conf).name = conf.name :=
  foldl_add_channel_name _ _ _

/-- After `set_bus_config` the bus names are the names of the new
configurations, whatever buses there were before. -/
theorem set_bus_config_names (d d' : AudioDevice) (c p : List bus_config)
    (h : set_bus_config d c p = some d') :
    (∀ name, name ∈ d'.get_capture_buses_names ↔ ∃ conf ∈ c, conf.name = name) ∧
    (∀ name, name ∈ d'.get_playback_buses_names ↔ ∃ conf ∈ p, conf.name = name) := by
  have key : ∀ drv : Driver,
      (∀ name, name ∈ (((({ d with m_captureBusConfig := c, m_playbackBusConfig := p }
          : AudioDevice).free_memory.setup_capture_buses drv).setup_playback_buses drv
          ).get_capture_buses_names) ↔ ∃ conf ∈ c, conf.name = name) ∧
      (∀ name, name ∈ (((({ d with m_captureBusConfig := c, m_playbackBusConfig := p }
          : AudioDevice).free_memory.setup_capture_buses drv).setup_playback_buses drv
          ).get_playback_buses_names) ↔ ∃ conf ∈ p, conf.name = name) := by
    intro drv
    obtain ⟨c1, c2⟩ := foldl_hashInsert_names (capture_bus_of drv) (capture_bus_of_name drv) c
      [] (by simp)
    obtain ⟨p1, p2⟩ := foldl_hashInsert_names (playback_bus_of drv) (playback_bus_of_name drv) p
      [] (by simp)
    constructor
    · intro name
      simp only [get_capture_buses_names, setup_playback_buses, setup_capture_buses,
        free_memory]
      rw [names_eq_keys _ c1, c2]
      simp
    · intro name
      simp only [get_playback_buses_names, setup_playback_buses, setup_capture_buses,
        free_memory]
      rw [names_eq_keys _ p1, p2]
      simp
  unfold set_bus_config at h
  simp only [] at h
  cases hdrv : d.m_driver with
  | some drv =>
      simp only [free_memory, hdrv] at h
      cases h
      exact key drv
  | none =>
      simp only [free_memory, hdrv] at h
      split_ifs at h
      cases h
      exact key _

/-- C14. Whatever buses exist before the call, after
`set_bus_config(c, p)` the capture bus names are exactly the names that
occur in `c` and the playback bus names exactly the names that occur in `p`
(so no bus of before survives unless the new configuration names it); the
result of the call does not depend on the buses of before; and with a driver
in place the call returns. -/
theorem C14_set_bus_config_rebuild (d : AudioDevice) (c p : List bus_config) :
    (∀ d' : AudioDevice, set_bus_config d c p = some d' →
      (∀ name, name ∈ d'.get_capture_buses_names ↔ ∃ conf ∈ c, conf.name = name) ∧
      (∀ name, name ∈ d'.get_playback_buses_names ↔ ∃ conf ∈ p, conf.name = name)) ∧
    (∀ cb pb : List (String × AudioBus),
      set_bus_config { d with m_captureBuses := cb, m_playbackBuses := pb } c p
        = set_bus_config d c p) ∧
    (d.m_driver.isSome = true → ∃ d' : AudioDevice, set_bus_config d c p = some d') := by
  refine ⟨fun d' h => set_bus_config_names d d' c p h, fun _ _ => rfl, fun hd => ?_⟩
  cases hdrv : d.m_driver with
  | none => rw [hdrv] at hd; exact absurd hd (by decide)
  | some drv =>
      unfold set_bus_config
      simp only [free_memory, hdrv]
      exact ⟨_, rfl⟩

/-- C14, at a device that holds buses of an earlier configuration. -/
theorem C14_set_bus_config_rebuild_witness :
    ∃ d' : AudioDevice, set_bus_config devOldBus cfgIn cfgOut = some d' ∧
      (∀ name, name ∈ d'.get_capture_buses_names ↔ ∃ conf ∈ cfgIn, conf.name = name) ∧
      (∀ name, name ∈ d'.get_playback_buses_names ↔ ∃ conf ∈ cfgOut, conf.name = name) := by
  obtain ⟨d', h⟩ := (C14_set_bus_config_rebuild devOldBus cfgIn cfgOut).2.2 rfl
  exact ⟨d', h, (C14_set_bus_config_rebuild devOldBus cfgIn cfgOut).1 d' h⟩

/-- Configurations with pairwise distinct names, none of them filed yet, are
filed one after the other. -/
theorem foldl_hashInsert_fresh (mk : bus_config → AudioBus) (cfg : List bus_config) :
    ∀ h : List (String × AudioBus), (cfg.map bus_config.name).Nodup →
      (∀ conf ∈ cfg, conf.name ∉ h.map Prod.fst) →
      cfg.foldl (fun b conf => hashInsert b conf.name (mk conf)) h
        = h ++ cfg.map (fun conf => (conf.name, mk conf)) := by
  induction cfg with
  | nil => intro h _ _; simp
  | cons c cs ih =>
      intro h hnd hfresh
      rw [List.map_cons, List.nodup_cons] at hnd
      rw [List.foldl_cons, hashInsert_fresh h c.name (mk c) (hfresh c (List.mem_cons_self _ _)),
        ih _ hnd.2]
      · simp
      · intro conf hconf hmem
        rw [List.map_append, List.mem_append] at hmem
        rcases hmem with hmem | hmem
        · exact hfresh conf (List.mem_cons_of_mem _ hconf) hmem
        · simp only [List.map_cons, List.map_nil, List.mem_singleton] at hmem
          exact hnd.1 (List.mem_map.mpr ⟨conf, hconf, hmem⟩)

/-- When every channel name is found, the bus gets the channels in the order
of the names. -/
theorem foldl_add_channel_all (look : String → Option String) (chs : List String)
    (hall : ∀ ch ∈ chs, look ch = some ch) :
    ∀ b : AudioBus, chs.foldl (fun bus ch => add_channel_if bus (look ch)) b
      = { b with channels := b.channels ++ chs } := by
  induction chs with
  | nil => intro b; simp
  | cons c cs ih =>
      intro b
      rw [List.foldl_cons, hall c (List.mem_cons_self _ _),
        ih (fun ch hch => hall ch (List.mem_cons_of_mem _ hch))]
      simp [add_channel_if]

/-- `set_bus_config` with a driver in place, in closed form. -/
theorem set_bus_config_some (d : AudioDevice) (drv : Driver) (c p : List bus_config)
    (hdrv : d.m_driver = some drv) :
    set_bus_config d c p
      = some ((((({ d with m_captureBusConfig := c, m_playbackBusConfig := p }
          : AudioDevice).free_memory.setup_capture_buses drv).setup_playback_buses drv).record
            (Event.emit Signal.driverParamsChanged)).record
              (Event.emit Signal.busConfigChanged)) := by
  unfold set_bus_config
  simp only [free_memory, hdrv]

/-- C13 (as stated, refuted). The driver owns `capture_1` and no channel
`ghost`: after `set_bus_config` with the bus "In" over `capture_1` and
`ghost`, `get_capture_bus_configuration()` returns "In" over `capture_1`
alone. -/
theorem C13_counterexample :
    (set_bus_config devChannels cfgGhost []).map (fun d => (get_capture_bus_configuration d).1)
      = some [{ name := "In", channels := ["capture_1"] }] ∧
    (set_bus_config devChannels cfgGhost []).map (fun d => (get_capture_bus_configuration d).1)
      ≠ some cfgGhost := by
  refine ⟨by rfl, by decide⟩

/-- C13 (amended). For a capture configuration `cfg` whose bus names are
pairwise distinct and whose channel names all name capture channels of the
driver in place, after `set_bus_config(cfg, p)` the list that
`get_capture_bus_configuration()` returns holds exactly the entries of `cfg`,
each with its name and its channel names in their order; the order of the
entries is the iteration order of the `QHash`, so the list is a
rearrangement of `cfg`. -/
theorem C13_bus_config_round_trip (d : AudioDevice) (drv : Driver) (cfg p : List bus_config)
    (hdrv : d.m_driver = some drv)
    (hnd : (cfg.map bus_config.name).Nodup)
    (hch : ∀ conf ∈ cfg, ∀ ch ∈ conf.channels, ch ∈ drv.captureChannels) :
    ∃ d' : AudioDevice, set_bus_config d cfg p = some d' ∧
      (get_capture_bus_configuration d').1.Perm cfg := by
  have hbus : ∀ conf ∈ cfg, capture_bus_of drv conf
      = { name := conf.name, channels := conf.channels } := by
    intro conf hconf
    unfold capture_bus_of
    rw [foldl_add_channel_all]
    · simp
    · intro ch hc
      simp [get_capture_channel_by_name, hch conf hconf ch hc]
  refine ⟨_, set_bus_config_some d drv cfg p hdrv, ?_⟩
  have hfold := foldl_hashInsert_fresh (capture_bus_of drv) cfg [] hnd (by simp)
  simp only [get_capture_bus_configuration, record, setup_playback_buses, setup_capture_buses,
    free_memory]
  rw [hfold, List.nil_append, List.map_map]
  have : cfg.map ((fun p : String × AudioBus =>
      ({ name := p.2.name, channels := p.2.channels } : bus_config))
        ∘ fun conf => (conf.name, capture_bus_of drv conf)) = cfg.map id := by
    apply List.map_congr_left
    intro conf hconf
    simp [hbus conf hconf]
  rw [this, List.map_id]

/-- C13 (amended), at a configuration over the channels of the driver. -/
theorem C13_bus_config_round_trip_witness :
    ∃ d' : AudioDevice, set_bus_config devChannels cfgIn cfgOut = some d' ∧
      (get_capture_bus_configuration d').1.Perm cfgIn :=
  C13_bus_config_round_trip devChannels
    (driverWith (numbered "capture_" 3) (numbered "playback_" 2)) cfgIn cfgOut rfl
    (by decide) (by decide)

/-- The loop of `get_cpu_time`, entered with a nonzero `read`: it empties the
buffer and adds every sample, and then adds once more the content of
`value`, which is the last sample read (the initial content when the buffer
was empty). -/
theorem cpu_time_loop_spec (rb : List ℚ) :
    ∀ (fuel read : Nat) (value total : ℚ), read ≠ 0 → rb.length + 2 ≤ fuel →
      cpu_time_loop fuel read value total rb
        = some (total + rb.sum + rb.getLast?.getD value, []) := by
  induction rb with
  | nil =>
      intro fuel read value total hr hf
      obtain ⟨f, rfl⟩ : ∃ f, fuel = f + 2 := ⟨fuel - 2, by simp at hf; omega⟩
      simp [cpu_time_loop, rb_read_one, hr]
  | cons x xs ih =>
      intro fuel read value total hr hf
      obtain ⟨f, rfl⟩ : ∃ f, fuel = f + 1 := ⟨fuel - 1, by simp at hf; omega⟩
      rw [cpu_time_loop, if_pos hr]
      simp only [rb_read_one]
      rw [ih f 1 x (total + x) (by decide) (by simp at hf ⊢; omega)]
      congr 2
      rw [List.sum_cons, List.getLast?_cons]
      cases xs.getLast? <;> simp <;> ring

/-- The generic path of `get_cpu_time` on a buffer that is not empty: the
buffer is empty afterwards and the accumulated total is the sum of the
samples plus the last sample once more. -/
theorem get_cpu_time_total (env : Env) (fuel : Nat) (d : AudioDevice) (currentTime : ℚ)
    (hj : (env.build.JACK_SUPPORT && env.build.libjack_is_present && d.m_driver.isSome
      && d.m_driverType == "Jack") = false)
    (hp : (env.build.PORTAUDIO_SUPPORT && d.m_driver.isSome
      && d.m_driverType == "PortAudio") = false)
    (hne : d.m_cpuTime ≠ []) (hf : d.m_cpuTime.length + 2 ≤ fuel) :
    ∃ (result : ℚ) (d' : AudioDevice),
      get_cpu_time env fuel d currentTime
        = some (result, d.m_cpuTime.sum + d.m_cpuTime.getLast?.getD 0, d') ∧
      d'.m_cpuTime = [] := by
  unfold get_cpu_time
  rw [hj, hp]
  simp only [Bool.false_eq_true, if_false]
  rw [cpu_time_loop_spec d.m_cpuTime fuel _ 0 0
    (by simpa [rb_read_space] using hne) hf]
  exact ⟨(d.m_cpuTime.sum + d.m_cpuTime.getLast?.getD 0)
      / (currentTime - d.m_lastCpuReadTime) * 100,
    { d with m_cpuTime := [], m_lastCpuReadTime := currentTime }, by simp, rfl⟩

/-- C15 (the code at the failing input). The ring buffer holds the samples 1
and 2 and the previous call was 10 microseconds ago: `get_cpu_time()` empties
the buffer, accumulates 5 (1 + 2 and the last sample 2 once more) instead of
3, and returns 50 instead of 30. -/
theorem C15_last_sample_counted_twice :
    devTwoSamples.m_cpuTime.sum = 3 ∧
    (get_cpu_time quietEnv 4 devTwoSamples 10).map (fun r => (r.1, r.2.1, r.2.2.m_cpuTime))
      = some (50, 5, []) := by
  refine ⟨by norm_num [devTwoSamples], ?_⟩
  have hne : ¬ ("Null Driver" = "Jack") := by decide
  norm_num [get_cpu_time, cpu_time_loop, rb_read_one, rb_read_space, devTwoSamples, dev256,
    AudioDevice.new, quietEnv, hne]

/-- The client loop of `transport_control` calls every client, head of the
list first, with the state it was given; the result is that of the last
client called. -/
theorem transport_clients_eq (env : Env) (state : transport_state_t) (cs : List Nat) :
    ∀ (r : Int) (d : AudioDevice),
      transport_clients env state cs r d
        = ((cs.getLast?.map (fun c => env.transport c state)).getD r,
            { d with log := d.log ++ cs.map (fun c => Event.clientTransport c state) }) := by
  induction cs with
  | nil => intro r d; simp [transport_clients]
  | cons c cs ih =>
      intro r d
      rw [transport_clients, ih]
      cases hcs : cs.getLast? <;> simp [record, List.getLast?_cons, hcs]

/-- C16 (as stated, refuted). A build with `JACK_SUPPORT`, the Null Driver in
place (so no slaved Jack driver) and one registered client:
`transport_control(state)` returns 1 and calls no client. -/
theorem C16_counterexample :
    quietEnv.build.JACK_SUPPORT = true ∧
    slaved_jack_driver quietEnv dev256 = none ∧
    dev256.m_clients = [7] ∧
    transport_control quietEnv dev256 rollingState = (1, dev256) := by
  refine ⟨by rfl, by rfl, by rfl, by rfl⟩

/-- C16 (amended). In a build without `JACK_SUPPORT`, and in a build with it
while the driver in place is a slaved Jack driver, `transport_control(state)`
calls `transport_control` of every client exactly once, in client-list
order, each with the state it was given, and returns what the last client
returned (0 without clients); in a build with `JACK_SUPPORT` and no slaved
Jack driver it returns 1 and calls no client. -/
theorem C16_transport_broadcast (env : Env) (d : AudioDevice) (state : transport_state_t) :
    ((env.build.JACK_SUPPORT = false ∨ (slaved_jack_driver env d).isSome = true) →
      transport_control env d state
        = ((d.m_clients.getLast?.map (fun c => env.transport c state)).getD 0,
            { d with log := d.log ++ d.m_clients.map (fun c => Event.clientTransport c state) })) ∧
    ((env.build.JACK_SUPPORT = true ∧ slaved_jack_driver env d = none) →
      transport_control env d state = (1, d)) := by
  constructor
  · intro h
    unfold transport_control
    rw [if_neg, transport_clients_eq]
    rcases h with h | h
    · simp [h]
    · cases hs : slaved_jack_driver env d with
      | none => rw [hs] at h; exact absurd h (by decide)
      | some _ => simp
  · rintro ⟨h1, h2⟩
    unfold transport_control
    rw [if_pos (by simp [h1, h2])]

/-- C16 (amended), at a build without `JACK_SUPPORT` and at the build and
device of the counterexample. -/
theorem C16_transport_broadcast_witness :
    transport_control noJackEnv dev256 rollingState
      = ((dev256.m_clients.getLast?.map (fun c => noJackEnv.transport c rollingState)).getD 0,
          { dev256 with log := dev256.log
              ++ dev256.m_clients.map (fun c => Event.clientTransport c rollingState) }) ∧
    transport_control quietEnv dev256 rollingState = (1, dev256) :=
  ⟨(C16_transport_broadcast noJackEnv dev256 rollingState).1 (Or.inl rfl),
   (C16_transport_broadcast quietEnv dev256 rollingState).2 ⟨rfl, rfl⟩⟩

/-- The digit characters decode to their digits. -/
theorem digitChar_value (m : Nat) (h : m < 10) : (Nat.digitChar m).toNat - 48 = m := by
  interval_cases m <;> rfl

/-- `Nat.toDigitsCore` puts its digits in front of the ones it is given. -/
theorem toDigitsCore_append (b : Nat) :
    ∀ (fuel n : Nat) (ds : List Char),
      Nat.toDigitsCore b fuel n ds = Nat.toDigitsCore b fuel n [] ++ ds := by
  intro fuel
  induction fuel with
  | zero => intro n ds; simp [Nat.toDigitsCore]
  | succ fuel ih =>
      intro n ds
      simp only [Nat.toDigitsCore]
      by_cases h : n / b = 0
      · simp [h]
      · simp only [h, if_false]
        rw [ih (n / b) (Nat.digitChar (n % b) :: ds), ih (n / b) [Nat.digitChar (n % b)]]
        simp

/-- The value of a digit string with one more digit. -/
theorem decimal_value_append (l : List Char) (c : Char) :
    decimal_value (l ++ [c]) = decimal_value l * 10 + (c.toNat - 48) := by
  simp [decimal_value, List.foldl_append]

/-- The decimal digits of a number decode to the number. -/
theorem decimal_value_toDigitsCore :
    ∀ (fuel n : Nat), n < fuel → decimal_value (Nat.toDigitsCore 10 fuel n []) = n := by
  intro fuel
  induction fuel with
  | zero => intro n h; omega
  | succ fuel ih =>
      intro n hn
      simp only [Nat.toDigitsCore]
      by_cases h : n / 10 = 0
      · simp only [h, if_true]
        have hlt : n < 10 := by omega
        have := decimal_value_append [] (Nat.digitChar (n % 10))
        simp only [List.nil_append] at this
        rw [this, digitChar_value _ (Nat.mod_lt _ (by decide)), Nat.mod_eq_of_lt hlt]
        simp [decimal_value]
      · simp only [h, if_false]
        rw [toDigitsCore_append, decimal_value_append, ih (n / 10) (by omega),
          digitChar_value _ (Nat.mod_lt _ (by decide))]
        omega

/-- The decimal representation of a number determines the number. -/
theorem toString_nat_inj (a b : Nat) (h : toString a = toString b) : a = b := by
  have hd : Nat.toDigits 10 a = Nat.toDigits 10 b := congrArg String.data h
  have ha := decimal_value_toDigitsCore (a + 1) a (Nat.lt_succ_self a)
  have hb := decimal_value_toDigitsCore (b + 1) b (Nat.lt_succ_self b)
  unfold Nat.toDigits at hd
  rw [← ha, hd, hb]

/-- A numbered name determines its number. -/
theorem numbered_name_inj (pre : String) (a b : Nat)
    (h : pre ++ toString a = pre ++ toString b) : a = b := by
  apply toString_nat_inj
  have hd := congrArg String.data h
  rw [String.data_append, String.data_append] at hd
  exact String.ext (List.append_cancel_left hd)

/-- The names `pre1 .. preN`. -/
theorem mem_numbered (pre : String) (N i : Nat) :
    pre ++ toString i ∈ numbered pre N ↔ (1 ≤ i ∧ i ≤ N) := by
  unfold numbered
  rw [List.mem_map]
  constructor
  · rintro ⟨j, hj, heq⟩
    have := numbered_name_inj pre _ _ heq
    rw [List.mem_range] at hj
    omega
  · rintro ⟨h1, h2⟩
    refine ⟨i - 1, List.mem_range.mpr (by omega), ?_⟩
    have : i - 1 + 1 = i := by omega
    rw [this]

/-- The keys of the first `m` stereo pairs. -/
theorem stereo_pairs_fresh (busPre chanPre : String) (N m : Nat) :
    busPre ++ toString (m + 1) ∉ (stereo_pairs busPre chanPre N m).map Prod.fst := by
  unfold stereo_pairs
  rw [List.map_map, List.mem_map]
  rintro ⟨j, hj, heq⟩
  have := numbered_name_inj busPre _ _ heq
  rw [List.mem_range] at hj
  omega

/-- One more stereo pair. -/
theorem stereo_pairs_succ (busPre chanPre : String) (N m : Nat) :
    stereo_pairs busPre chanPre N (m + 1)
      = stereo_pairs busPre chanPre N m ++
          [(busPre ++ toString (m + 1),
            { name := busPre ++ toString (m + 1),
              channels := if 2 * m + 2 ≤ N
                then [chanPre ++ toString (2 * m + 1), chanPre ++ toString (2 * m + 2)]
                else [chanPre ++ toString (2 * m + 1)] })] := by
  simp [stereo_pairs, List.range_succ]

/-- The loop of `setup_default_capture_buses` over the channels
`capture_1 .. capture_N`, entered when it has built the first `k` stereo
pairs, builds all of them. -/
theorem default_capture_loop_spec (drv : Driver) (N : Nat)
    (hc : drv.captureChannels = numbered "capture_" N) :
    ∀ (fuel k i number : Nat), i = 2 * k + 1 → number = k + 1 →
      k ≤ (N + 1) / 2 → (N + 1) / 2 ≤ fuel + k →
      default_capture_loop drv fuel i number (stereo_pairs "Capture " "capture_" N k)
        = stereo_pairs "Capture " "capture_" N ((N + 1) / 2) := by
  have hlen : drv.captureChannels.length = N := by simp [hc, numbered]
  intro fuel
  induction fuel with
  | zero =>
      intro k i number _ _ hk hf
      have : k = (N + 1) / 2 := by omega
      rw [default_capture_loop, this]
  | succ fuel ih =>
      intro k i number hi hnum hk hf
      subst hi hnum
      rw [default_capture_loop, hlen]
      by_cases hle : 2 * k + 1 ≤ N
      · rw [if_pos hle]
        simp only []
        have h1 : get_capture_channel_by_name drv ("capture_" ++ toString (2 * k + 1))
            = some ("capture_" ++ toString (2 * k + 1)) := by
          unfold get_capture_channel_by_name
          rw [if_pos (by rw [hc, mem_numbered]; omega)]
        have h2 : get_capture_channel_by_name drv ("capture_" ++ toString (2 * k + 1 + 1))
            = if 2 * k + 2 ≤ N then some ("capture_" ++ toString (2 * k + 2)) else none := by
          unfold get_capture_channel_by_name
          by_cases h : 2 * k + 2 ≤ N
          · rw [if_pos (by rw [hc, mem_numbered]; omega), if_pos h]
          · rw [if_neg (by rw [hc, mem_numbered]; omega), if_neg h]
        rw [h1, h2, hashInsert_fresh _ _ _ (stereo_pairs_fresh "Capture " "capture_" N k)]
        have hnext : stereo_pairs "Capture " "capture_" N k ++
            [("Capture " ++ toString (k + 1),
              add_channel_if
                (add_channel_if { name := "Capture " ++ toString (k + 1), channels := [] }
                  (some ("capture_" ++ toString (2 * k + 1))))
                (if 2 * k + 2 ≤ N then some ("capture_" ++ toString (2 * k + 2)) else none))]
            = stereo_pairs "Capture " "capture_" N (k + 1) := by
          rw [stereo_pairs_succ]
          by_cases h : 2 * k + 2 ≤ N
          · simp [add_channel_if, h]
          · simp [add_channel_if, h]
        rw [hnext]
        exact ih (k + 1) _ _ (by omega) rfl (by omega) (by omega)
      · rw [if_neg hle]
        have : k = (N + 1) / 2 := by omega
        rw [this]

/-- The loop of `setup_default_playback_buses` over the channels
`playback_1 .. playback_N`, entered when it has built the first `k` stereo
pairs, builds all of them. -/
theorem default_playback_loop_spec (drv : Driver) (N : Nat)
    (hc : drv.playbackChannels = numbered "playback_" N) :
    ∀ (fuel k i number : Nat), i = 2 * k + 1 → number = k + 1 →
      k ≤ (N + 1) / 2 → (N + 1) / 2 ≤ fuel + k →
      default_playback_loop drv fuel i number (stereo_pairs "Playback " "playback_" N k)
        = stereo_pairs "Playback " "playback_" N ((N + 1) / 2) := by
  have hlen : drv.playbackChannels.length = N := by simp [hc, numbered]
  intro fuel
  induction fuel with
  | zero =>
      intro k i number _ _ hk hf
      have : k = (N + 1) / 2 := by omega
      rw [default_playback_loop, this]
  | succ fuel ih =>
      intro k i number hi hnum hk hf
      subst hi hnum
      rw [default_playback_loop, hlen]
      by_cases hle : 2 * k + 1 ≤ N
      · rw [if_pos hle]
        simp only []
        have h1 : get_playback_channel_by_name drv ("playback_" ++ toString (2 * k + 1))
            = some ("playback_" ++ toString (2 * k + 1)) := by
          unfold get_playback_channel_by_name
          rw [if_pos (by rw [hc, mem_numbered]; omega)]
        have h2 : get_playback_channel_by_name drv ("playback_" ++ toString (2 * k + 1 + 1))
            = if 2 * k + 2 ≤ N then some ("playback_" ++ toString (2 * k + 2)) else none := by
          unfold get_playback_channel_by_name
          by_cases h : 2 * k + 2 ≤ N
          · rw [if_pos (by rw [hc, mem_numbered]; omega), if_pos h]
          · rw [if_neg (by rw [hc, mem_numbered]; omega), if_neg h]
        rw [h1, h2, hashInsert_fresh _ _ _ (stereo_pairs_fresh "Playback " "playback_" N k)]
        have hnext : stereo_pairs "Playback " "playback_" N k ++
            [("Playback " ++ toString (k + 1),
              add_channel_if
                (add_channel_if { name := "Playback " ++ toString (k + 1), channels := [] }
                  (some ("playback_" ++ toString (2 * k + 1))))
                (if 2 * k + 2 ≤ N then some ("playback_" ++ toString (2 * k + 2)) else none))]
            = stereo_pairs "Playback " "playback_" N (k + 1) := by
          rw [stereo_pairs_succ]
          by_cases h : 2 * k + 2 ≤ N
          · simp [add_channel_if, h]
          · simp [add_channel_if, h]
        rw [hnext]
        exact ih (k + 1) _ _ (by omega) rfl (by omega) (by omega)
      · rw [if_neg hle]
        have : k = (N + 1) / 2 := by omega
        rw [this]

/-- The channels of the first `m` stereo pairs, bus after bus, are the first
`2m` channels (all `N` when `2m` exceeds `N`). -/
theorem stereo_pairs_channels (busPre chanPre : String) (N : Nat) :
    ∀ m : Nat, m ≤ (N + 1) / 2 →
      ((stereo_pairs busPre chanPre N m).map (fun p => p.2.channels)).flatten
        = numbered chanPre (min (2 * m) N) := by
  intro m
  induction m with
  | zero => intro _; simp [stereo_pairs, numbered]
  | succ m ih =>
      intro hm
      rw [stereo_pairs_succ, List.map_append, List.flatten_append, ih (by omega)]
      have h2m : min (2 * m) N = 2 * m := by omega
      rw [h2m]
      by_cases h : 2 * m + 2 ≤ N
      · have : min (2 * (m + 1)) N = 2 * m + 1 + 1 := by omega
        rw [this]
        simp [numbered, List.range_succ, h]
      · have : min (2 * (m + 1)) N = 2 * m + 1 := by omega
        rw [this]
        simp [numbered, List.range_succ, h]

/-- C19. With capture channels named `capture_1 .. capture_N` and no bus
yet, `setup_default_capture_buses` leaves exactly `ceil(N/2)` buses: bus `k`
is named "Capture k" and holds `capture_(2k-1)` and `capture_(2k)` in this
order, the last bus only `capture_N` when `N` is odd; the channels of the
buses, bus after bus, are `capture_1 .. capture_N`, each once. The same holds
for `setup_default_playback_buses` with `playback_i` and "Playback k". -/
theorem C19_default_stereo_buses (d : AudioDevice) (drv : Driver) (N M : Nat)
    (hc : drv.captureChannels = numbered "capture_" N)
    (hp : drv.playbackChannels = numbered "playback_" M)
    (hcb : d.m_captureBuses = []) (hpb : d.m_playbackBuses = []) :
    ((setup_default_capture_buses d drv).m_captureBuses
        = stereo_pairs "Capture " "capture_" N ((N + 1) / 2) ∧
      (setup_default_capture_buses d drv).m_captureBuses.length = (N + 1) / 2 ∧
      ((setup_default_capture_buses d drv).m_captureBuses.map (fun p => p.2.channels)).flatten
        = drv.captureChannels) ∧
    ((setup_default_playback_buses d drv).m_playbackBuses
        = stereo_pairs "Playback " "playback_" M ((M + 1) / 2) ∧
      (setup_default_playback_buses d drv).m_playbackBuses.length = (M + 1) / 2 ∧
      ((setup_default_playback_buses d drv).m_playbackBuses.map (fun p => p.2.channels)).flatten
        = drv.playbackChannels) := by
  have h1 : (setup_default_capture_buses d drv).m_captureBuses
      = stereo_pairs "Capture " "capture_" N ((N + 1) / 2) := by
    unfold setup_default_capture_buses
    simp only [hcb]
    have hlen : drv.captureChannels.length = N := by simp [hc, numbered]
    rw [hlen]
    exact default_capture_loop_spec drv N hc N 0 1 1 rfl rfl (by omega) (by omega)
  have h2 : (setup_default_playback_buses d drv).m_playbackBuses
      = stereo_pairs "Playback " "playback_" M ((M + 1) / 2) := by
    unfold setup_default_playback_buses
    simp only [hpb]
    have hlen : drv.playbackChannels.length = M := by simp [hp, numbered]
    rw [hlen]
    exact default_playback_loop_spec drv M hp M 0 1 1 rfl rfl (by omega) (by omega)
  refine ⟨⟨h1, ?_, ?_⟩, ⟨h2, ?_, ?_⟩⟩
  · rw [h1]; simp [stereo_pairs]
  · rw [h1, stereo_pairs_channels _ _ _ _ (le_refl _), hc]
    congr 1
    omega
  · rw [h2]; simp [stereo_pairs]
  · rw [h2, stereo_pairs_channels _ _ _ _ (le_refl _), hp]
    congr 1
    omega

/-- C19, at a driver with three capture channels and two playback channels. -/
theorem C19_default_stereo_buses_witness :
    ((setup_default_capture_buses devChannels
          (driverWith (numbered "capture_" 3) (numbered "playback_" 2))).m_captureBuses
        = stereo_pairs "Capture " "capture_" 3 ((3 + 1) / 2) ∧
      (setup_default_capture_buses devChannels
          (driverWith (numbered "capture_" 3) (numbered "playback_" 2))).m_captureBuses.length
        = (3 + 1) / 2 ∧
      ((setup_default_capture_buses devChannels
          (driverWith (numbered "capture_" 3) (numbered "playback_" 2))).m_captureBuses.map
            (fun p => p.2.channels)).flatten
        = (driverWith (numbered "capture_" 3) (numbered "playback_" 2)).captureChannels) ∧
    ((setup_default_playback_buses devChannels
          (driverWith (numbered "capture_" 3) (numbered "playback_" 2))).m_playbackBuses
        = stereo_pairs "Playback " "playback_" 2 ((2 + 1) / 2) ∧
      (setup_default_playback_buses devChannels
          (driverWith (numbered "capture_" 3) (numbered "playback_" 2))).m_playbackBuses.length
        = (2 + 1) / 2 ∧
      ((setup_default_playback_buses devChannels
          (driverWith (numbered "capture_" 3) (numbered "playback_" 2))).m_playbackBuses.map
            (fun p => p.2.channels)).flatten
        = (driverWith (numbered "capture_" 3) (numbered "playback_" 2)).playbackChannels) :=
  C19_default_stereo_buses devChannels
    (driverWith (numbered "capture_" 3) (numbered "playback_" 2)) 3 2 rfl rfl rfl rfl

/-- C22. When the driver read returns a negative value `run_one_cycle`
returns -1 having called no client and no driver write; when the read
succeeds and the write returns a negative value it returns -1 after every
client has been called; otherwise it returns 0. -/
theorem C22_io_failure_aborts_cycle (env : Env) (d : AudioDevice) (n : Nat) :
    (env.read d.nReads < 0 →
      run_one_cycle env d n
        = (-1, { d with log := d.log ++ [Event.run_one_cycle n, Event.driverRead n],
                        nReads := d.nReads + 1 })) ∧
    ((0 ≤ env.read d.nReads ∧ env.write d.nWrites < 0) →
      (run_one_cycle env d n).1 = -1 ∧
      (run_one_cycle env d n).2.log
        = d.log ++ [Event.run_one_cycle n, Event.driverRead n]
            ++ d.m_clients.map (fun c => Event.clientProcess c n)
            ++ [Event.driverWrite n]) ∧
    ((0 ≤ env.read d.nReads ∧ 0 ≤ env.write d.nWrites) → (run_one_cycle env d n).1 = 0) := by
  refine ⟨fun h => ?_, fun h => ?_, fun h => ?_⟩
  · rw [run_one_cycle_eq, if_pos h]
  · rw [run_one_cycle_eq, if_neg (not_lt.mpr h.1), if_pos h.2]
    exact ⟨rfl, rfl⟩
  · rw [run_one_cycle_ok env d n h.1 h.2]

/-- C22, at a failing read, at a failing write and at a cycle without
failure. -/
theorem C22_io_failure_aborts_cycle_witness :
    run_one_cycle readFails dev256 256
        = (-1, { dev256 with
                  log := dev256.log ++ [Event.run_one_cycle 256, Event.driverRead 256],
                  nReads := dev256.nReads + 1 }) ∧
    ((run_one_cycle writeFails dev256 256).1 = -1 ∧
      (run_one_cycle writeFails dev256 256).2.log
        = dev256.log ++ [Event.run_one_cycle 256, Event.driverRead 256]
            ++ dev256.m_clients.map (fun c => Event.clientProcess c 256)
            ++ [Event.driverWrite 256]) ∧
    (run_one_cycle quietEnv dev256 256).1 = 0 :=
  ⟨(C22_io_failure_aborts_cycle readFails dev256 256).1 (by decide),
   (C22_io_failure_aborts_cycle writeFails dev256 256).2.1 ⟨by decide, by decide⟩,
   (C22_io_failure_aborts_cycle quietEnv dev256 256).2.2 ⟨by decide, by decide⟩⟩

/-- Client calls are no `post_process` entries. -/
theorem count_post_process_map (cs : List Nat) (n : Nat) :
    (cs.map (fun c => Event.clientProcess c n)).count Event.post_process = 0 := by
  induction cs with
  | nil => rfl
  | cons c cs ih => rw [List.map_cons, List.count_cons, ih]; rfl

/-- A call of `run_one_cycle` adds entries to the log none of which is a
`post_process` entry, and leaves the queue alone. -/
theorem run_one_cycle_log (env : Env) (d : AudioDevice) (n : Nat) :
    ∃ evs : List Event, (run_one_cycle env d n).2.log = d.log ++ evs ∧
      evs.count Event.post_process = 0 ∧
      (run_one_cycle env d n).2.tsarQueue = d.tsarQueue := by
  rw [run_one_cycle_eq]
  by_cases h : env.read d.nReads < 0
  · rw [if_pos h]
    exact ⟨[Event.run_one_cycle n, Event.driverRead n], rfl, by simp [List.count_cons], rfl⟩
  · rw [if_neg h]
    refine ⟨[Event.run_one_cycle n, Event.driverRead n]
      ++ d.m_clients.map (fun c => Event.clientProcess c n) ++ [Event.driverWrite n],
      by simp, ?_, rfl⟩
    rw [List.count_append, List.count_append, count_post_process_map]
    simp [List.count_cons]

/-- The loop of `run_cycle` adds entries to the log none of which is a
`post_process` entry, and leaves the queue alone. -/
theorem run_cycle_loop_log (env : Env) :
    ∀ (fuel : Nat) (d : AudioDevice) (left : Nat) (b : Bool) (d' : AudioDevice),
      run_cycle_loop env fuel d left = some (b, d') →
      ∃ evs : List Event, d'.log = d.log ++ evs ∧ evs.count Event.post_process = 0 ∧
        d'.tsarQueue = d.tsarQueue := by
  intro fuel
  induction fuel with
  | zero => intro d left b d' h; simp [run_cycle_loop] at h
  | succ fuel ih =>
      intro d left b d' h
      rw [run_cycle_loop] at h
      obtain ⟨evs1, l1, c1, q1⟩ := run_one_cycle_log env d d.m_bufferSize
      by_cases hge : left ≥ d.m_bufferSize
      · rw [if_pos hge] at h
        by_cases hneg : (run_one_cycle env d d.m_bufferSize).1 < 0
        · rw [if_pos hneg] at h
          simp only [Option.some.injEq, Prod.mk.injEq] at h
          rw [← h.2]
          exact ⟨evs1, l1, c1, q1⟩
        · rw [if_neg hneg] at h
          obtain ⟨evs2, l2, c2, q2⟩ := ih _ _ _ _ h
          refine ⟨evs1 ++ evs2, ?_, ?_, ?_⟩
          · rw [l2, l1, List.append_assoc]
          · rw [List.count_append, c1, c2]
          · rw [q2, q1]
      · rw [if_neg hge] at h
        simp only [Option.some.injEq, Prod.mk.injEq] at h
        rw [← h.2]
        exact ⟨[], by simp, rfl, rfl⟩

/-- Running queued calls adds to the log only signals. -/
theorem foldl_runDeferred_log (q : List Deferred) :
    ∀ d : AudioDevice, ∃ tail : List Event,
      (q.foldl runDeferred d).log = d.log ++ tail ∧
      tail.count Event.post_process = 0 ∧ driver_calls tail = [] ∧
      (q.foldl runDeferred d).tsarQueue = d.tsarQueue := by
  induction q with
  | nil => intro d; exact ⟨[], by simp, rfl, rfl, rfl⟩
  | cons e q ih =>
      intro d
      obtain ⟨tail, l, c, i, t⟩ := ih (runDeferred d e)
      rw [List.foldl_cons]
      cases e with
      | private_add_client c0 =>
          exact ⟨tail, by rw [l]; rfl, c, i, by rw [t]; rfl⟩
      | private_remove_client c0 =>
          refine ⟨Event.emit (Signal.clientRemoved c0) :: tail, ?_, ?_, ?_, by rw [t]; rfl⟩
          · rw [l]; simp [runDeferred, record, private_remove_client]
          · rw [List.count_cons, c]; rfl
          · simp [driver_calls] at i ⊢
            exact i

/-- `post_process` logs its call, then the signals of the queued calls, and
leaves the queue empty. -/
theorem post_process_log (d : AudioDevice) :
    ∃ tail : List Event,
      d.post_process.log = d.log ++ Event.post_process :: tail ∧
      tail.count Event.post_process = 0 ∧ driver_calls tail = [] ∧
      d.post_process.tsarQueue = [] := by
  unfold post_process process_events
  obtain ⟨tail, l, c, i, t⟩ := foldl_runDeferred_log (d.record Event.post_process).tsarQueue
    ({ d.record Event.post_process with tsarQueue := [] })
  exact ⟨tail, by rw [l]; simp [record], c, i, by rw [t]⟩

/-- C23 (as stated, refuted). With 256-frame buffers and a driver whose
third read fails, `run_cycle(1024, _)` returns -1 and has not called
`post_process`. -/
theorem C23_counterexample :
    (run_cycle thirdReadFails 5 dev256 1024).map
      (fun r => (r.1, r.2.log.count Event.post_process, (driver_calls r.2.log).length))
      = some (-1, 0, 5) := by
  rfl

/-- Whenever `run_cycle` returns, the value is 1 or -1. With 1,
`post_process` has been called exactly once, after every driver read and
write of the invocation, and the queue is drained; with -1, `post_process`
has not been called and the queue is as it was. -/
theorem run_cycle_result_log (env : Env) (fuel : Nat) (d : AudioDevice) (n : Nat)
    (r : Int) (d' : AudioDevice) (h : run_cycle env fuel d n = some (r, d')) :
    (r = 1 ∨ r = -1) ∧
    (r = 1 →
      ∃ before after : List Event,
        d'.log = d.log ++ before ++ Event.post_process :: after ∧
        before.count Event.post_process = 0 ∧ after.count Event.post_process = 0 ∧
        driver_calls after = [] ∧ d'.tsarQueue = []) ∧
    (r = -1 →
      ∃ evs : List Event, d'.log = d.log ++ evs ∧ evs.count Event.post_process = 0 ∧
        d'.tsarQueue = d.tsarQueue) := by
  unfold run_cycle at h
  split at h
  · simp at h
  · rename_i d1 hloop
    simp only [Option.some.injEq, Prod.mk.injEq] at h
    obtain ⟨hr, hd⟩ := h
    subst hr hd
    obtain ⟨evs, l, c, q⟩ := run_cycle_loop_log env _ _ _ _ _ hloop
    exact ⟨Or.inr rfl, fun h => absurd h (by decide), fun _ => ⟨evs, l, c, q⟩⟩
  · rename_i d1 hloop
    simp only [Option.some.injEq, Prod.mk.injEq] at h
    obtain ⟨hr, hd⟩ := h
    subst hr hd
    obtain ⟨evs, l, c, _⟩ := run_cycle_loop_log env _ _ _ _ _ hloop
    obtain ⟨tail, l2, c2, i2, t2⟩ := post_process_log d1
    refine ⟨Or.inl rfl, fun _ => ⟨evs, tail, ?_, c, c2, i2, t2⟩, fun h => absurd h (by decide)⟩
    rw [l2, l]

/-- With a positive buffer size, when the reads and writes of all
`left / m_bufferSize` sub-cycles succeed, the loop of `run_cycle` runs to its
end. -/
theorem run_cycle_loop_succeeds (env : Env) (d : AudioDevice) (left fuel : Nat)
    (hb : 0 < d.m_bufferSize)
    (hok : ∀ i, i < left / d.m_bufferSize →
      0 ≤ env.read (d.nReads + i) ∧ 0 ≤ env.write (d.nWrites + i))
    (hfuel : left / d.m_bufferSize < fuel) :
    ∃ dk : AudioDevice, run_cycle_loop env fuel d left = some (false, dk) := by
  obtain ⟨dk, h1, h2, _⟩ := run_cycle_loop_advance env (left / d.m_bufferSize)
    (fuel - left / d.m_bufferSize) d left hb hok (Nat.div_mul_le_self left d.m_bufferSize)
  refine ⟨dk, ?_⟩
  have hf : fuel - left / d.m_bufferSize + left / d.m_bufferSize = fuel := by omega
  rw [hf] at h1
  rw [h1]
  obtain ⟨f, hf2⟩ : ∃ f, fuel - left / d.m_bufferSize = f + 1 :=
    ⟨fuel - left / d.m_bufferSize - 1, by omega⟩
  rw [hf2, run_cycle_loop]
  have hbk : dk.m_bufferSize = d.m_bufferSize := by rw [h2]
  have hlt : left - left / d.m_bufferSize * d.m_bufferSize < d.m_bufferSize := by
    have h := Nat.mod_lt left hb
    have h' := Nat.div_add_mod left d.m_bufferSize
    rw [Nat.mul_comm] at h'
    omega
  rw [if_neg (by rw [hbk]; omega)]

/-- With a positive buffer size, when the sub-cycles before the one numbered
`j` succeed and the read or the write of that one fails, the loop of
`run_cycle` is left from its body. -/
theorem run_cycle_loop_fails (env : Env) (d : AudioDevice) (left fuel j : Nat)
    (hb : 0 < d.m_bufferSize) (hj : j < left / d.m_bufferSize) (hfuel : j < fuel)
    (hbefore : ∀ i, i < j → 0 ≤ env.read (d.nReads + i) ∧ 0 ≤ env.write (d.nWrites + i))
    (hfail : env.read (d.nReads + j) < 0 ∨ env.write (d.nWrites + j) < 0) :
    ∃ dk : AudioDevice, run_cycle_loop env fuel d left = some (true, dk) := by
  have hmul : (j + 1) * d.m_bufferSize ≤ left :=
    Nat.le_trans (Nat.mul_le_mul_right _ hj) (Nat.div_mul_le_self left d.m_bufferSize)
  rw [Nat.succ_mul] at hmul
  obtain ⟨dk, h1, h2, _⟩ := run_cycle_loop_advance env j (fuel - j) d left hb hbefore
    (by omega)
  have hf : fuel - j + j = fuel := by omega
  rw [hf] at h1
  obtain ⟨f, hf2⟩ : ∃ f, fuel - j = f + 1 := ⟨fuel - j - 1, by omega⟩
  rw [hf2, run_cycle_loop] at h1
  have hbk : dk.m_bufferSize = d.m_bufferSize := by rw [h2]
  have hrk : dk.nReads = d.nReads + j := by rw [h2]
  have hwk : dk.nWrites = d.nWrites + j := by rw [h2]
  have hfailk := run_one_cycle_fail env dk dk.m_bufferSize (by rw [hrk, hwk]; exact hfail)
  rw [if_pos (by rw [hbk]; omega), if_pos (by rw [hfailk]; decide)] at h1
  exact ⟨_, h1⟩

/-- C23 (amended). For a positive buffer size `b`, `run_cycle(n, _)` returns
(`n / b + 1` evaluations of the loop guard are enough), and: when the reads
and writes of all its `n / b` sub-cycles succeed, it returns 1 and has
called `post_process` exactly once, after every driver read and write of the
invocation, and the queue is drained; when a read or a write of one of its
sub-cycles fails, it returns -1 and has not called `post_process`, and the
queue is as it was. Sub-cycle `i` of the invocation makes the read numbered
`nReads + i` and the write numbered `nWrites + i`. -/
theorem C23_post_process_on_success (env : Env) (d : AudioDevice) (n : Nat)
    (hb : 0 < d.m_bufferSize) :
    ∃ (r : Int) (d' : AudioDevice),
      run_cycle env (n / d.m_bufferSize + 1) d n = some (r, d') ∧
      ((∀ i, i < n / d.m_bufferSize →
          0 ≤ env.read (d.nReads + i) ∧ 0 ≤ env.write (d.nWrites + i)) →
        r = 1 ∧
        ∃ before after : List Event,
          d'.log = d.log ++ before ++ Event.post_process :: after ∧
          before.count Event.post_process = 0 ∧ after.count Event.post_process = 0 ∧
          driver_calls after = [] ∧ d'.tsarQueue = []) ∧
      ((∃ i, i < n / d.m_bufferSize ∧
          (env.read (d.nReads + i) < 0 ∨ env.write (d.nWrites + i) < 0)) →
        r = -1 ∧
        ∃ evs : List Event, d'.log = d.log ++ evs ∧ evs.count Event.post_process = 0 ∧
          d'.tsarQueue = d.tsarQueue) := by
  by_cases hall : ∀ i, i < n / d.m_bufferSize →
      0 ≤ env.read (d.nReads + i) ∧ 0 ≤ env.write (d.nWrites + i)
  · obtain ⟨dk, hloop⟩ := run_cycle_loop_succeeds env d n (n / d.m_bufferSize + 1) hb hall
      (Nat.lt_succ_self _)
    have hrun : run_cycle env (n / d.m_bufferSize + 1) d n = some (1, dk.post_process) := by
      simp [run_cycle, hloop]
    obtain ⟨_, h1, _⟩ := run_cycle_result_log env _ d n 1 dk.post_process hrun
    refine ⟨1, dk.post_process, hrun, fun _ => ⟨rfl, h1 rfl⟩, ?_⟩
    rintro ⟨i, hi, hbad⟩
    have := hall i hi
    rcases hbad with hbad | hbad
    · exact absurd this.1 (not_le.mpr hbad)
    · exact absurd this.2 (not_le.mpr hbad)
  · have hex : ∃ i, i < n / d.m_bufferSize ∧
        (env.read (d.nReads + i) < 0 ∨ env.write (d.nWrites + i) < 0) := by
      by_contra hno
      apply hall
      intro i hi
      constructor
      · by_contra hlt
        exact hno ⟨i, hi, Or.inl (not_le.mp hlt)⟩
      · by_contra hlt
        exact hno ⟨i, hi, Or.inr (not_le.mp hlt)⟩
    have hbefore : ∀ i, i < Nat.find hex →
        0 ≤ env.read (d.nReads + i) ∧ 0 ≤ env.write (d.nWrites + i) := by
      intro i hi
      have hmin := Nat.find_min hex hi
      have hlt : i < n / d.m_bufferSize := Nat.lt_trans hi (Nat.find_spec hex).1
      constructor
      · by_contra hneg
        exact hmin ⟨hlt, Or.inl (not_le.mp hneg)⟩
      · by_contra hneg
        exact hmin ⟨hlt, Or.inr (not_le.mp hneg)⟩
    obtain ⟨dk, hloop⟩ := run_cycle_loop_fails env d n (n / d.m_bufferSize + 1) (Nat.find hex)
      hb (Nat.find_spec hex).1 (Nat.lt_succ_of_lt (Nat.find_spec hex).1) hbefore
      (Nat.find_spec hex).2
    have hrun : run_cycle env (n / d.m_bufferSize + 1) d n = some (-1, dk) := by
      simp [run_cycle, hloop]
    obtain ⟨_, _, h2⟩ := run_cycle_result_log env _ d n (-1) dk hrun
    exact ⟨-1, dk, hrun, fun h => absurd h hall, fun _ => ⟨rfl, h2 rfl⟩⟩

/-- C23 (amended), at a successful invocation with two queued calls, and at
an invocation whose third read fails. -/
theorem C23_post_process_on_success_witness :
    (∃ (r : Int) (d' : AudioDevice),
      run_cycle quietEnv (512 / devQueued.m_bufferSize + 1) devQueued 512 = some (r, d') ∧
      r = 1 ∧
      ∃ before after : List Event,
        d'.log = devQueued.log ++ before ++ Event.post_process :: after ∧
        before.count Event.post_process = 0 ∧ after.count Event.post_process = 0 ∧
        driver_calls after = [] ∧ d'.tsarQueue = []) ∧
    (∃ (r : Int) (d' : AudioDevice),
      run_cycle thirdReadFails (1024 / dev256.m_bufferSize + 1) dev256 1024 = some (r, d') ∧
      r = -1 ∧
      ∃ evs : List Event, d'.log = dev256.log ++ evs ∧ evs.count Event.post_process = 0 ∧
        d'.tsarQueue = dev256.tsarQueue) := by
  constructor
  · obtain ⟨r, d', h, hs, _⟩ :=
      C23_post_process_on_success quietEnv devQueued 512 (by decide)
    exact ⟨r, d', h, hs (fun _ _ => ⟨le_refl _, le_refl _⟩)⟩
  · obtain ⟨r, d', h, _, hf⟩ :=
      C23_post_process_on_success thirdReadFails dev256 1024 (by decide)
    exact ⟨r, d', h, hf ⟨2, by decide, Or.inl (by decide)⟩⟩

/-- Adding clients one after the other puts them in front of the list, the
last one added first, and changes nothing else. -/
theorem foldl_private_add_client (cs : List Nat) :
    ∀ d : AudioDevice,
      cs.foldl private_add_client d = { d with m_clients := cs.reverse ++ d.m_clients } := by
  induction cs with
  | nil => intro d; simp
  | cons c cs ih =>
      intro d
      rw [List.foldl_cons, ih]
      simp [private_add_client, apill_prepend]

/-- C25. Starting from an empty client list, after `private_add_client` for
`c1, ..., cn` in this order the list is `cn, ..., c1`; a cycle whose read
succeeds calls the process callbacks in that order, and a transport
broadcast visits the clients in that order; `private_remove_client` of a
client that is not in the list leaves the list as it is. -/
theorem C25_newest_first (env : Env) (d : AudioDevice) (cs : List Nat) (n : Nat)
    (state : transport_state_t) (hempty : d.m_clients = []) :
    (cs.foldl private_add_client d).m_clients = cs.reverse ∧
    (0 ≤ env.read d.nReads →
      processed (run_one_cycle env (cs.foldl private_add_client d) n).2.log
        = processed d.log ++ cs.reverse) ∧
    ((env.build.JACK_SUPPORT = false ∨ (slaved_jack_driver env d).isSome = true) →
      (transport_control env (cs.foldl private_add_client d) state).2.log
        = d.log ++ cs.reverse.map (fun c => Event.clientTransport c state)) ∧
    (∀ (x : AudioDevice) (c : Nat), c ∉ x.m_clients →
      (x.private_remove_client c).m_clients = x.m_clients) := by
  have hl : (cs.foldl private_add_client d).m_clients = cs.reverse := by
    rw [foldl_private_add_client, hempty]
    simp
  refine ⟨hl, fun hr => ?_, fun hj => ?_, fun x c hc => ?_⟩
  · have hlog : (run_one_cycle env (cs.foldl private_add_client d) n).2.log
        = d.log ++ [Event.run_one_cycle n, Event.driverRead n]
            ++ cs.reverse.map (fun c => Event.clientProcess c n)
            ++ [Event.driverWrite n] := by
      rw [run_one_cycle_eq, if_neg (by rw [foldl_private_add_client]; exact not_lt.mpr hr)]
      simp only [hl]
      rw [foldl_private_add_client]
    rw [hlog, processed_append, processed_append, processed_append,
      processed_map_clientProcess]
    simp [processed]
  · have hs : slaved_jack_driver env (cs.foldl private_add_client d)
        = slaved_jack_driver env d := by
      rw [foldl_private_add_client]
      rfl
    unfold transport_control
    rw [hs, if_neg, transport_clients_eq, hl]
    · rw [foldl_private_add_client]
    · rcases hj with h | h
      · simp [h]
      · cases hsl : slaved_jack_driver env d with
        | none => rw [hsl] at h; exact absurd h (by decide)
        | some _ => simp
  · simp [private_remove_client, apill_remove, List.erase_of_not_mem hc]

/-- C25, at the clients 1, 2, 3 added to a device without clients. -/
theorem C25_newest_first_witness :
    ([1, 2, 3].foldl private_add_client devNoClients).m_clients = [3, 2, 1] ∧
    processed (run_one_cycle quietEnv ([1, 2, 3].foldl private_add_client devNoClients) 256).2.log
      = processed devNoClients.log ++ [3, 2, 1] ∧
    (transport_control noJackEnv ([1, 2, 3].foldl private_add_client devNoClients)
        rollingState).2.log
      = devNoClients.log ++ [3, 2, 1].map (fun c => Event.clientTransport c rollingState) ∧
    (dev256.private_remove_client 9).m_clients = dev256.m_clients :=
  ⟨(C25_newest_first quietEnv devNoClients [1, 2, 3] 256 rollingState rfl).1,
   (C25_newest_first quietEnv devNoClients [1, 2, 3] 256 rollingState rfl).2.1 (by decide),
   (C25_newest_first noJackEnv devNoClients [1, 2, 3] 256 rollingState rfl).2.2.1 (Or.inl rfl),
   (C25_newest_first quietEnv devNoClients [1, 2, 3] 256 rollingState rfl).2.2.2 dev256 9
     (by decide)⟩

/-- The log after `k` calls of `xrun()` from a counter of 0, within the
range of the counter: `k` times `bufferUnderRun()` and `k - 30` times
`xrunStormDetected()`. -/
theorem xrun_iterate_counts (d : AudioDevice) (h0 : d.m_xrunCount = 0) (k : Nat)
    (hr : k < 4294967296) :
    ∃ evs : List Event, (xrun^[k] d).log = d.log ++ evs ∧
      evs.count (Event.emit Signal.xrunStormDetected) = k - 30 ∧
      evs.count (Event.emit Signal.bufferUnderRun) = k := by
  induction k with
  | zero => exact ⟨[], by simp, rfl, rfl⟩
  | succ k ih =>
      obtain ⟨evs, l, c1, c2⟩ := ih (by omega)
      rw [xrun_iterate_step d h0 k hr, l]
      by_cases h : 30 < k + 1
      · rw [if_pos h]
        refine ⟨evs ++ [Event.emit Signal.bufferUnderRun, Event.emit Signal.xrunStormDetected],
          by simp, ?_, ?_⟩
        · rw [List.count_append, c1]
          simp [List.count_cons]
          omega
        · rw [List.count_append, c2]
          simp [List.count_cons]
      · rw [if_neg h]
        refine ⟨evs ++ [Event.emit Signal.bufferUnderRun], by simp, ?_, ?_⟩
        · rw [List.count_append, c1]
          simp [List.count_cons]
          omega
        · rw [List.count_append, c2]
          simp [List.count_cons]

/-- C26. From a counter of 0 and with no reset in between, `k` calls of
`xrun()`, for every `k` up to 2^31 - 1 (the calls that a 32-bit counter,
signed or unsigned, counts without overflow), raise `bufferUnderRun()` `k`
times and `xrunStormDetected()` exactly `max(0, k - 30)` times and leave the
counter at `k`; each of these calls after the 30th raises a storm of its
own. -/
theorem C26_storm_not_latched (d : AudioDevice) (h0 : d.m_xrunCount = 0) (k : Nat)
    (hk : k ≤ 2147483647) :
    (∃ evs : List Event, (xrun^[k] d).log = d.log ++ evs ∧
      evs.count (Event.emit Signal.xrunStormDetected) = k - 30 ∧
      evs.count (Event.emit Signal.bufferUnderRun) = k) ∧
    (xrun^[k] d).m_xrunCount = k ∧
    (∀ j, 30 ≤ j → j < k → (xrun^[j + 1] d).log = (xrun^[j] d).log
      ++ [Event.emit Signal.bufferUnderRun, Event.emit Signal.xrunStormDetected]) := by
  refine ⟨xrun_iterate_counts d h0 k (by omega), ?_, fun j hj hjk => ?_⟩
  · rw [xrun_iterate_count d k (by omega), h0, Nat.zero_add]
  · rw [xrun_iterate_step d h0 j (by omega), if_pos (by omega)]

/-- C26, at 35 calls on a freshly constructed device; the 35th call raises a
storm as the 31st does. -/
theorem C26_storm_not_latched_witness :
    (∃ evs : List Event, (xrun^[35] AudioDevice.new).log = AudioDevice.new.log ++ evs ∧
      evs.count (Event.emit Signal.xrunStormDetected) = 35 - 30 ∧
      evs.count (Event.emit Signal.bufferUnderRun) = 35) ∧
    (xrun^[35] AudioDevice.new).m_xrunCount = 35 ∧
    (xrun^[30 + 1] AudioDevice.new).log = (xrun^[30] AudioDevice.new).log
      ++ [Event.emit Signal.bufferUnderRun, Event.emit Signal.xrunStormDetected] ∧
    (xrun^[34 + 1] AudioDevice.new).log = (xrun^[34] AudioDevice.new).log
      ++ [Event.emit Signal.bufferUnderRun, Event.emit Signal.xrunStormDetected] :=
  ⟨(C26_storm_not_latched AudioDevice.new rfl 35 (by decide)).1,
   (C26_storm_not_latched AudioDevice.new rfl 35 (by decide)).2.1,
   (C26_storm_not_latched AudioDevice.new rfl 35 (by decide)).2.2 30 (by decide) (by decide),
   (C26_storm_not_latched AudioDevice.new rfl 35 (by decide)).2.2 34 (by decide) (by decide)⟩

/-- The loop of `run_cycle` ends, whatever the driver answers, when the
buffer size is positive. -/
theorem run_cycle_loop_terminates (env : Env) :
    ∀ (fuel : Nat) (d : AudioDevice) (left : Nat), 0 < d.m_bufferSize →
      left / d.m_bufferSize < fuel →
      ∃ res : Bool × AudioDevice, run_cycle_loop env fuel d left = some res := by
  intro fuel
  induction fuel with
  | zero => intro d left _ h; exact absurd h (Nat.not_lt_zero _)
  | succ fuel ih =>
      intro d left hb hf
      rw [run_cycle_loop]
      by_cases hge : left ≥ d.m_bufferSize
      · rw [if_pos hge]
        by_cases hneg : (run_one_cycle env d d.m_bufferSize).1 < 0
        · rw [if_pos hneg]; exact ⟨_, rfl⟩
        · rw [if_neg hneg]
          have hbs := (run_one_cycle_cycles env d d.m_bufferSize).2
          apply ih
          · rw [hbs]; exact hb
          · rw [hbs]
            have := Nat.div_eq_sub_div hb hge
            omega
      · rw [if_neg hge]; exact ⟨_, rfl⟩

/-- C30. For a positive buffer size the sub-cycle loop of `run_cycle` ends
for every frame count and whatever the driver answers (`n / b + 1`
iterations are enough); when reads and writes succeed exactly `n / b`
(rounded down) sub-cycles of `b` frames run, the remaining `n mod b < b`
frames go to no sub-cycle, and 1 is returned; for `n < b` no sub-cycle runs,
`post_process` is called and 1 is returned. -/
theorem C30_loop_terminates (env : Env) (d : AudioDevice) (n : Nat)
    (hb : 0 < d.m_bufferSize) :
    (∃ res : Int × AudioDevice, run_cycle env (n / d.m_bufferSize + 1) d n = some res) ∧
    ((∀ i, 0 ≤ env.read i ∧ 0 ≤ env.write i) →
      ∃ d' : AudioDevice,
        run_cycle env (n / d.m_bufferSize + 1) d n = some (1, d') ∧
        cycles d'.log = cycles d.log ++ List.replicate (n / d.m_bufferSize) d.m_bufferSize ∧
        (n / d.m_bufferSize) * d.m_bufferSize + n % d.m_bufferSize = n ∧
        n % d.m_bufferSize < d.m_bufferSize) ∧
    (n < d.m_bufferSize → run_cycle env 1 d n = some (1, d.post_process)) := by
  refine ⟨?_, fun hok => ?_, fun hn => ?_⟩
  · obtain ⟨res, h⟩ := run_cycle_loop_terminates env (n / d.m_bufferSize + 1) d n hb
      (Nat.lt_succ_self _)
    unfold run_cycle
    rw [h]
    rcases res with ⟨b, d1⟩
    cases b
    · exact ⟨_, rfl⟩
    · exact ⟨_, rfl⟩
  · obtain ⟨d', h1, h2, _, _⟩ := run_cycle_ok env d n (n / d.m_bufferSize + 1) hb hok
      (Nat.lt_succ_self _)
    refine ⟨d', h1, h2, ?_, Nat.mod_lt _ hb⟩
    rw [Nat.mul_comm]
    exact Nat.div_add_mod n d.m_bufferSize
  · unfold run_cycle
    rw [run_cycle_loop, if_neg (by omega)]

/-- C30, at 256-frame buffers with 300 frames and with 100 frames. -/
theorem C30_loop_terminates_witness :
    (∃ res : Int × AudioDevice,
      run_cycle thirdReadFails (1024 / dev256.m_bufferSize + 1) dev256 1024 = some res) ∧
    (∃ d' : AudioDevice,
      run_cycle quietEnv (300 / dev256.m_bufferSize + 1) dev256 300 = some (1, d') ∧
      cycles d'.log
        = cycles dev256.log ++ List.replicate (300 / dev256.m_bufferSize) dev256.m_bufferSize ∧
      (300 / dev256.m_bufferSize) * dev256.m_bufferSize + 300 % dev256.m_bufferSize = 300 ∧
      300 % dev256.m_bufferSize < dev256.m_bufferSize) ∧
    run_cycle quietEnv 1 dev256 100 = some (1, dev256.post_process) :=
  ⟨(C30_loop_terminates thirdReadFails dev256 1024 (by decide)).1,
   (C30_loop_terminates quietEnv dev256 300 (by decide)).2.1
     (fun _ => ⟨le_refl _, le_refl _⟩),
   (C30_loop_terminates quietEnv dev256 100 (by decide)).2.2 (by decide)⟩

/-- What a `QHash` holds after `insert` was there before or is the pair
inserted. -/
theorem hashInsert_values (h : List (String × AudioBus)) (k : String) (v : AudioBus)
    (q : String × AudioBus) (hq : q ∈ hashInsert h k v) : q ∈ h ∨ q = (k, v) := by
  unfold hashInsert at hq
  by_cases hany : h.any (fun p => p.1 == k) = true
  · rw [if_pos hany, List.mem_map] at hq
    obtain ⟨a, ha, rfl⟩ := hq
    by_cases hak : (a.1 == k) = true
    · rw [if_pos hak]; exact Or.inr rfl
    · rw [if_neg hak]; exact Or.inl ha
  · rw [if_neg hany, List.mem_append, List.mem_singleton] at hq
    exact hq

/-- Every bus filed while a list of configurations is set up was there
before or is the bus built from one of the configurations, filed under its
name. -/
theorem foldl_hashInsert_values (mk : bus_config → AudioBus) (cfg : List bus_config) :
    ∀ (h : List (String × AudioBus)) (q : String × AudioBus),
      q ∈ cfg.foldl (fun b conf => hashInsert b conf.name (mk conf)) h →
      q ∈ h ∨ ∃ conf ∈ cfg, q = (conf.name, mk conf) := by
  induction cfg with
  | nil => intro h q hq; exact Or.inl hq
  | cons c cs ih =>
      intro h q hq
      rw [List.foldl_cons] at hq
      rcases ih _ q hq with h1 | ⟨conf, hconf, heq⟩
      · rcases hashInsert_values h c.name (mk c) q h1 with h2 | h2
        · exact Or.inl h2
        · exact Or.inr ⟨c, List.mem_cons_self _ _, h2⟩
      · exact Or.inr ⟨conf, List.mem_cons_of_mem _ hconf, heq⟩

/-- A bus gets, in the order of the names, the channels among them that are
found. -/
theorem foldl_add_channel_filter (L : List String) (chs : List String) :
    ∀ b : AudioBus,
      chs.foldl (fun bus ch => add_channel_if bus (if ch ∈ L then some ch else none)) b
        = { b with channels := b.channels ++ chs.filter (fun ch => decide (ch ∈ L)) } := by
  induction chs with
  | nil => intro b; simp
  | cons c cs ih =>
      intro b
      rw [List.foldl_cons, ih]
      by_cases hc : c ∈ L
      · simp [add_channel_if, hc]
      · simp [add_channel_if, hc]

/-- The bus built from a capture configuration holds the configured channels
that the driver owns, in configured order. -/
theorem capture_bus_of_eq (drv : Driver) (conf : bus_config) :
    capture_bus_of drv conf
      = { name := conf.name,
          channels := conf.channels.filter (fun ch => decide (ch ∈ drv.captureChannels)) } := by
  unfold capture_bus_of
  have := foldl_add_channel_filter drv.captureChannels conf.channels
    { name := conf.name, channels := [] }
  simp only [List.nil_append] at this
  exact this

/-- The bus built from a playback configuration holds the configured
channels that the driver owns, in configured order. -/
theorem playback_bus_of_eq (drv : Driver) (conf : bus_config) :
    playback_bus_of drv conf
      = { name := conf.name,
          channels := conf.channels.filter (fun ch => decide (ch ∈ drv.playbackChannels)) } := by
  unfold playback_bus_of
  have := foldl_add_channel_filter drv.playbackChannels conf.channels
    { name := conf.name, channels := [] }
  simp only [List.nil_append] at this
  exact this

/-- C27. `get_capture_bus_configuration()` stores what it returns, namely
the configuration read off the live buses, and changes nothing else; a
second call returns the same value; and after `set_bus_config` a channel
name that the driver does not own occurs in no entry of the configuration
the getter stores. The same holds for `get_playback_bus_configuration()`. -/
theorem C27_getter_rewrites_config (d : AudioDevice) :
    (d.get_capture_bus_configuration.2
        = { d with m_captureBusConfig := d.get_capture_bus_configuration.1 } ∧
      d.get_capture_bus_configuration.1
        = d.m_captureBuses.map (fun p => { name := p.2.name, channels := p.2.channels }) ∧
      d.get_capture_bus_configuration.2.get_capture_bus_configuration.1
        = d.get_capture_bus_configuration.1) ∧
    (d.get_playback_bus_configuration.2
        = { d with m_playbackBusConfig := d.get_playback_bus_configuration.1 } ∧
      d.get_playback_bus_configuration.1
        = d.m_playbackBuses.map (fun p => { name := p.2.name, channels := p.2.channels }) ∧
      d.get_playback_bus_configuration.2.get_playback_bus_configuration.1
        = d.get_playback_bus_configuration.1) ∧
    (∀ (drv : Driver) (c p : List bus_config) (d' : AudioDevice) (ch : String),
      d.m_driver = some drv → set_bus_config d c p = some d' →
      (ch ∉ drv.captureChannels →
        ∀ conf ∈ d'.get_capture_bus_configuration.2.m_captureBusConfig, ch ∉ conf.channels) ∧
      (ch ∉ drv.playbackChannels →
        ∀ conf ∈ d'.get_playback_bus_configuration.2.m_playbackBusConfig,
          ch ∉ conf.channels)) := by
  refine ⟨⟨rfl, rfl, rfl⟩, ⟨rfl, rfl, rfl⟩, ?_⟩
  intro drv c p d' ch hdrv hset
  rw [set_bus_config_some d drv c p hdrv] at hset
  cases hset
  constructor
  · intro hch conf hconf
    simp only [get_capture_bus_configuration, record, setup_playback_buses,
      setup_capture_buses, free_memory, List.mem_map] at hconf
    obtain ⟨q, hq, rfl⟩ := hconf
    rcases foldl_hashInsert_values (capture_bus_of drv) c [] q hq with h | ⟨cf, _, rfl⟩
    · simp at h
    · simp only [capture_bus_of_eq, List.mem_filter, decide_eq_true_eq]
      exact fun h => hch h.2
  · intro hch conf hconf
    simp only [get_playback_bus_configuration, record, setup_playback_buses,
      setup_capture_buses, free_memory, List.mem_map] at hconf
    obtain ⟨q, hq, rfl⟩ := hconf
    rcases foldl_hashInsert_values (playback_bus_of drv) p [] q hq with h | ⟨cf, _, rfl⟩
    · simp at h
    · simp only [playback_bus_of_eq, List.mem_filter, decide_eq_true_eq]
      exact fun h => hch h.2

/-- C27, at the configuration that names the channel `ghost`: the stored
configuration names it before the getter is called and not after. -/
theorem C27_getter_rewrites_config_witness :
    (set_bus_config devChannels cfgGhost cfgOut).map (fun d => d.m_captureBusConfig)
      = some cfgGhost ∧
    ∃ d' : AudioDevice, set_bus_config devChannels cfgGhost cfgOut = some d' ∧
      (∀ conf ∈ d'.get_capture_bus_configuration.2.m_captureBusConfig,
        "ghost" ∉ conf.channels) ∧
      (∀ conf ∈ d'.get_playback_bus_configuration.2.m_playbackBusConfig,
        "ghost" ∉ conf.channels) :=
  ⟨by rfl,
   (set_bus_config devChannels cfgGhost cfgOut).get (by rfl), by rfl,
   ((C27_getter_rewrites_config devChannels).2.2
      (driverWith (numbered "capture_" 3) (numbered "playback_" 2)) cfgGhost cfgOut
      ((set_bus_config devChannels cfgGhost cfgOut).get (by rfl)) "ghost" rfl (by rfl)).1
      (by decide),
   ((C27_getter_rewrites_config devChannels).2.2
      (driverWith (numbered "capture_" 3) (numbered "playback_" 2)) cfgGhost cfgOut
      ((set_bus_config devChannels cfgGhost cfgOut).get (by rfl)) "ghost" rfl (by rfl)).2
      (by decide)⟩

/-- With a driver in place and pairwise distinct bus names, `set_bus_config`
files one bus per capture configuration, in the order of the
configurations. -/
theorem set_bus_config_capture_buses (d : AudioDevice) (drv : Driver)
    (cfg p : List bus_config) (hdrv : d.m_driver = some drv)
    (hnd : (cfg.map bus_config.name).Nodup) :
    ∃ d' : AudioDevice, set_bus_config d cfg p = some d' ∧
      d'.m_captureBuses = cfg.map (fun conf => (conf.name, capture_bus_of drv conf)) := by
  refine ⟨_, set_bus_config_some d drv cfg p hdrv, ?_⟩
  have hfold := foldl_hashInsert_fresh (capture_bus_of drv) cfg [] hnd (by simp)
  simp only [record, setup_playback_buses, setup_capture_buses, free_memory]
  rw [hfold, List.nil_append]

/-- C24. For a capture configuration `cfg` with pairwise distinct bus names
whose channel names all name capture channels of the driver in place, after
`set_bus_config(cfg, p)` the list that `get_capture_bus_configuration()`
returns is `cfg` up to the order of its entries: it has one entry for each
bus of `cfg` and no other, no two entries share a name, and each entry
carries the configured channel names in their order. -/
theorem C24_conditional_round_trip (d : AudioDevice) (drv : Driver) (cfg p : List bus_config)
    (hdrv : d.m_driver = some drv)
    (hnd : (cfg.map bus_config.name).Nodup)
    (hch : ∀ conf ∈ cfg, ∀ ch ∈ conf.channels, ch ∈ drv.captureChannels) :
    ∃ d' : AudioDevice, set_bus_config d cfg p = some d' ∧
      d'.get_capture_bus_configuration.1.Perm cfg ∧
      (d'.get_capture_bus_configuration.1.map bus_config.name).Nodup ∧
      (∀ conf : bus_config, conf ∈ d'.get_capture_bus_configuration.1 ↔ conf ∈ cfg) := by
  obtain ⟨d', hset, hbuses⟩ := set_bus_config_capture_buses d drv cfg p hdrv hnd
  have heq : d'.get_capture_bus_configuration.1 = cfg := by
    simp only [get_capture_bus_configuration, hbuses, List.map_map]
    have : cfg.map ((fun q : String × AudioBus =>
        ({ name := q.2.name, channels := q.2.channels } : bus_config))
          ∘ fun conf => (conf.name, capture_bus_of drv conf)) = cfg.map id := by
      apply List.map_congr_left
      intro conf hconf
      have hall : conf.channels.filter (fun ch => decide (ch ∈ drv.captureChannels))
          = conf.channels :=
        List.filter_eq_self.mpr (fun ch hc => by simpa using hch conf hconf ch hc)
      simp [capture_bus_of_eq, hall]
    rw [this, List.map_id]
  refine ⟨d', hset, ?_, ?_, ?_⟩
  · rw [heq]
  · rw [heq]; exact hnd
  · intro conf; rw [heq]

/-- C24, at a configuration over the channels of the driver. -/
theorem C24_conditional_round_trip_witness :
    ∃ d' : AudioDevice, set_bus_config devOldBus cfgIn cfgOut = some d' ∧
      d'.get_capture_bus_configuration.1.Perm cfgIn ∧
      (d'.get_capture_bus_configuration.1.map bus_config.name).Nodup ∧
      (∀ conf : bus_config, conf ∈ d'.get_capture_bus_configuration.1 ↔ conf ∈ cfgIn) :=
  C24_conditional_round_trip devOldBus
    (driverWith (numbered "capture_" 3) (numbered "playback_" 2)) cfgIn cfgOut rfl
    (by decide) (by decide)

/-- `QHash::insert` keeps the keys pairwise distinct. -/
theorem hashInsert_nodup (h : List (String × AudioBus)) (k : String) (v : AudioBus)
    (hnd : (h.map Prod.fst).Nodup) : ((hashInsert h k v).map Prod.fst).Nodup := by
  unfold hashInsert
  by_cases hany : h.any (fun p => p.1 == k) = true
  · rw [if_pos hany]
    have hsame : (h.map (fun p => if p.1 == k then (k, v) else p)).map Prod.fst
        = h.map Prod.fst := by
      rw [List.map_map]
      apply List.map_congr_left
      intro q _
      by_cases hq : (q.1 == k) = true
      · simp only [Function.comp, if_pos hq]
        exact (beq_iff_eq.mp hq).symm
      · simp only [Function.comp, if_neg hq]
    rw [hsame]
    exact hnd
  · rw [if_neg hany, List.map_append, List.map_singleton]
    simp only [List.any_eq_true, beq_iff_eq, not_exists, not_and] at hany
    refine List.Nodup.append hnd (List.nodup_singleton _) ?_
    intro a ha hk
    rw [List.mem_singleton] at hk
    obtain ⟨q, hq, hqa⟩ := List.mem_map.mp ha
    exact hany q hq (hqa.trans hk)

/-- Setting up a list of configurations keeps the keys pairwise distinct. -/
theorem foldl_hashInsert_nodup (mk : bus_config → AudioBus) (cfg : List bus_config) :
    ∀ h : List (String × AudioBus), (h.map Prod.fst).Nodup →
      ((cfg.foldl (fun b conf => hashInsert b conf.name (mk conf)) h).map Prod.fst).Nodup := by
  induction cfg with
  | nil => intro h hh; exact hh
  | cons c cs ih =>
      intro h hh
      rw [List.foldl_cons]
      exact ih _ (hashInsert_nodup h c.name (mk c) hh)

/-- `shutdown` leaves no bus and keeps the stored bus configurations. -/
theorem shutdown_buses (env : Env) (d : AudioDevice) :
    (shutdown env d).2.m_captureBuses = [] ∧ (shutdown env d).2.m_playbackBuses = [] ∧
    (shutdown env d).2.m_captureBusConfig = d.m_captureBusConfig ∧
    (shutdown env d).2.m_playbackBusConfig = d.m_playbackBusConfig := by
  cases hth : d.m_audioThread <;> cases hdr : d.m_driver <;>
    cases hrun : env.isRunning (d.log.length + 1)
  all_goals
    simp [shutdown, record, free_memory, hth, hdr, hrun]

/-- The head of `set_parameters` leaves no bus and keeps the stored bus
configurations. -/
theorem prepare_buses (env : Env) (d : AudioDevice) (rate : Int) (bs : Nat) (t ds : String) :
    (prepare env d rate bs t ds).m_captureBuses = [] ∧
    (prepare env d rate bs t ds).m_playbackBuses = [] ∧
    (prepare env d rate bs t ds).m_captureBusConfig = d.m_captureBusConfig ∧
    (prepare env d rate bs t ds).m_playbackBusConfig = d.m_playbackBusConfig := by
  unfold prepare
  simp only []
  generalize hd1 : ({ d.record (Event.set_parameters t) with
      m_rate := (rate % 4294967296).toNat, m_bufferSize := bs, m_xrunCount := 0,
      m_ditherShape := ds } : AudioDevice) = d1
  obtain ⟨h1, h2, h3, h4⟩ := shutdown_buses env d1
  refine ⟨h1, h2, ?_, ?_⟩
  · rw [h3, ← hd1]; rfl
  · rw [h4, ← hd1]; rfl

/-- `create_driver` touches neither the buses nor the stored bus
configurations. -/
theorem create_driver_buses (env : Env) (d : AudioDevice) (t : String) (c p : Bool)
    (cd : String) :
    (create_driver env d t c p cd).2.m_captureBuses = d.m_captureBuses ∧
    (create_driver env d t c p cd).2.m_playbackBuses = d.m_playbackBuses ∧
    (create_driver env d t c p cd).2.m_captureBusConfig = d.m_captureBusConfig ∧
    (create_driver env d t c p cd).2.m_playbackBusConfig = d.m_playbackBusConfig := by
  unfold create_driver
  split_ifs <;> exact ⟨rfl, rfl, rfl, rfl⟩

/-- The statement `m_driver->attach();` touches neither the buses nor the
stored bus configurations. -/
theorem attach_driver_buses (env : Env) (d : AudioDevice) (drv : Driver) :
    (attach_driver env d drv).2.m_captureBuses = d.m_captureBuses ∧
    (attach_driver env d drv).2.m_playbackBuses = d.m_playbackBuses ∧
    (attach_driver env d drv).2.m_captureBusConfig = d.m_captureBusConfig ∧
    (attach_driver env d drv).2.m_playbackBusConfig = d.m_playbackBusConfig :=
  ⟨rfl, rfl, rfl, rfl⟩

/-- The buses after the middle part of `set_parameters`: for each direction,
those set up from the stored configuration when it has an entry, the default
ones otherwise, added to the buses there were; the stored configurations are
kept. -/
theorem provision_buses (d : AudioDevice) (drv : Driver) (t : String) :
    (provision d drv t).m_captureBuses
      = (if d.m_captureBusConfig.length == 0
          then default_capture_loop drv drv.captureChannels.length 1 1 d.m_captureBuses
          else d.m_captureBusConfig.foldl
            (fun b conf => hashInsert b conf.name (capture_bus_of drv conf)) d.m_captureBuses) ∧
    (provision d drv t).m_playbackBuses
      = (if d.m_playbackBusConfig.length == 0
          then default_playback_loop drv drv.playbackChannels.length 1 1 d.m_playbackBuses
          else d.m_playbackBusConfig.foldl
            (fun b conf => hashInsert b conf.name (playback_bus_of drv conf))
            d.m_playbackBuses) ∧
    (provision d drv t).m_captureBusConfig = d.m_captureBusConfig ∧
    (provision d drv t).m_playbackBusConfig = d.m_playbackBusConfig := by
  cases hc : (d.m_captureBusConfig.length == 0) <;>
    cases hp : (d.m_playbackBusConfig.length == 0) <;>
    cases ht : (t == "ALSA" || t == "Null Driver")
  all_goals
    simp [provision, hc, hp, ht, setup_default_capture_buses, setup_capture_buses,
      setup_default_playback_buses, setup_playback_buses, record]

/-- The blocks that start a callback-driven driver touch neither the buses
nor the stored bus configurations. -/
theorem start_driver_buses (env : Env) (d : AudioDevice) (drv : Driver) (t : String) :
    (start_driver env d drv t).2.m_captureBuses = d.m_captureBuses ∧
    (start_driver env d drv t).2.m_playbackBuses = d.m_playbackBuses ∧
    (start_driver env d drv t).2.m_captureBusConfig = d.m_captureBusConfig ∧
    (start_driver env d drv t).2.m_playbackBusConfig = d.m_playbackBusConfig := by
  cases hj : (env.build.JACK_SUPPORT && env.build.libjack_is_present && t == "Jack") <;>
    cases hp : (t == "PortAudio" || t == "PulseAudio" || t == "CoreAudio") <;>
    by_cases hs : env.start drv.kind = -1
  all_goals
    simp [start_driver, record, hj, hp, hs]

/-- Whenever `set_parameters` returns, the stored bus configurations are the
ones it was entered with, and the buses of each direction are those set up,
for the driver now in place and starting from no bus, from the stored
configuration when it has an entry and the default ones otherwise. -/
theorem set_parameters_buses (env : Env) :
    ∀ (fuel : Nat) (d : AudioDevice) (rate : Int) (bs : Nat) (t : String) (c p : Bool)
      (cd ds : String) (d' : AudioDevice),
      set_parameters env fuel d rate bs t c p cd ds = some d' →
      ∃ drv : Driver, d'.m_driver = some drv ∧
        d'.m_captureBusConfig = d.m_captureBusConfig ∧
        d'.m_playbackBusConfig = d.m_playbackBusConfig ∧
        d'.m_captureBuses
          = (if d.m_captureBusConfig.length == 0
              then default_capture_loop drv drv.captureChannels.length 1 1 []
              else d.m_captureBusConfig.foldl
                (fun b conf => hashInsert b conf.name (capture_bus_of drv conf)) []) ∧
        d'.m_playbackBuses
          = (if d.m_playbackBusConfig.length == 0
              then default_playback_loop drv drv.playbackChannels.length 1 1 []
              else d.m_playbackBusConfig.foldl
                (fun b conf => hashInsert b conf.name (playback_bus_of drv conf)) []) := by
  intro fuel
  induction fuel with
  | zero =>
      intro d rate bs t c p cd ds d' h
      simp [set_parameters] at h
  | succ n ih =>
      intro d rate bs t c p cd ds d' h
      rw [set_parameters] at h
      simp only [] at h
      obtain ⟨hb1, hb2, hb3, hb4⟩ := prepare_buses env d rate bs t ds
      generalize prepare env d rate bs t ds = d2 at *
      obtain ⟨cb1, cb2, cb3, cb4⟩ := create_driver_buses env d2 t c p cd
      generalize create_driver env d2 t c p cd = cr at *
      by_cases hneg : cr.1 < 0
      · rw [if_pos hneg] at h
        obtain ⟨drv, hd, h1, h2, h3, h4⟩ := ih _ _ _ _ _ _ _ _ _ h
        rw [cb3, hb3] at h1 h3
        rw [cb4, hb4] at h2 h4
        exact ⟨drv, hd, h1, h2, h3, h4⟩
      · rw [if_neg hneg] at h
        cases hdrv : cr.2.m_driver with
        | none => simp [hdrv] at h
        | some drv0 =>
            simp only [hdrv] at h
            obtain ⟨hda, _, _, _⟩ := attach_driver_spec env cr.2 drv0
            obtain ⟨ab1, ab2, ab3, ab4⟩ := attach_driver_buses env cr.2 drv0
            generalize attach_driver env cr.2 drv0 = ad at *
            obtain ⟨hdp, _, _⟩ := provision_spec ad.2 ad.1 t
            obtain ⟨pb1, pb2, pb3, pb4⟩ := provision_buses ad.2 ad.1 t
            generalize provision ad.2 ad.1 t = d3 at *
            obtain ⟨hds, _, _⟩ := start_driver_spec env d3 ad.1 t
            obtain ⟨sb1, sb2, sb3, sb4⟩ := start_driver_buses env d3 ad.1 t
            generalize start_driver env d3 ad.1 t = sr at *
            have e3 : sr.2.m_captureBusConfig = d.m_captureBusConfig := by
              rw [sb3, pb3, ab3, cb3, hb3]
            have e4 : sr.2.m_playbackBusConfig = d.m_playbackBusConfig := by
              rw [sb4, pb4, ab4, cb4, hb4]
            by_cases hs : sr.1 = true
            · rw [if_pos hs] at h
              obtain ⟨drv, hd, h1, h2, h3, h4⟩ := ih _ _ _ _ _ _ _ _ _ h
              rw [e3] at h1 h3
              rw [e4] at h2 h4
              exact ⟨drv, hd, h1, h2, h3, h4⟩
            · rw [if_neg hs] at h
              cases h
              refine ⟨ad.1, ?_, ?_, ?_, ?_, ?_⟩
              · show sr.2.m_driver = _
                rw [hds, hdp, hda]
              · exact e3
              · exact e4
              · show sr.2.m_captureBuses = _
                rw [sb1, pb1, ab1, cb1, hb1, ab3, cb3, hb3]
              · show sr.2.m_playbackBuses = _
                rw [sb2, pb2, ab2, cb2, hb2, ab4, cb4, hb4]

/-- C21. `set_parameters` returns with a driver in place and with the stored
bus configurations it was entered with. For each direction, when the stored
configuration has an entry, the buses are exactly those set up from it for
the new driver, starting from no bus: the bus names are the configured
names, no two buses share a name, and every bus is the one built from a
configuration entry of its name, holding the configured channels that the
driver owns, in configured order. When the stored configuration is empty,
the buses are those of the default set-up for the new driver. -/
theorem C21_stored_config_reapplied (env : Env) (fuel : Nat) (d : AudioDevice) (rate : Int)
    (bufferSize : Nat) (driverType : String) (capture playback : Bool)
    (cardDevice ditherShape : String) :
    ∃ (d' : AudioDevice) (drv : Driver),
      set_parameters env (fuel + 2) d rate bufferSize driverType capture playback cardDevice
        ditherShape = some d' ∧
      d'.m_driver = some drv ∧
      d'.m_captureBusConfig = d.m_captureBusConfig ∧
      d'.m_playbackBusConfig = d.m_playbackBusConfig ∧
      (d.m_captureBusConfig ≠ [] →
        d'.m_captureBuses = d.m_captureBusConfig.foldl
          (fun b conf => hashInsert b conf.name (capture_bus_of drv conf)) [] ∧
        (∀ name, name ∈ d'.get_capture_buses_names ↔
          ∃ conf ∈ d.m_captureBusConfig, conf.name = name) ∧
        d'.get_capture_buses_names.Nodup ∧
        ∀ q ∈ d'.m_captureBuses, ∃ conf ∈ d.m_captureBusConfig,
          q = (conf.name,
            { name := conf.name,
              channels := conf.channels.filter
                (fun ch => decide (ch ∈ drv.captureChannels)) })) ∧
      (d.m_captureBusConfig = [] →
        d'.m_captureBuses = default_capture_loop drv drv.captureChannels.length 1 1 []) ∧
      (d.m_playbackBusConfig ≠ [] →
        d'.m_playbackBuses = d.m_playbackBusConfig.foldl
          (fun b conf => hashInsert b conf.name (playback_bus_of drv conf)) [] ∧
        (∀ name, name ∈ d'.get_playback_buses_names ↔
          ∃ conf ∈ d.m_playbackBusConfig, conf.name = name) ∧
        d'.get_playback_buses_names.Nodup ∧
        ∀ q ∈ d'.m_playbackBuses, ∃ conf ∈ d.m_playbackBusConfig,
          q = (conf.name,
            { name := conf.name,
              channels := conf.channels.filter
                (fun ch => decide (ch ∈ drv.playbackChannels)) })) ∧
      (d.m_playbackBusConfig = [] →
        d'.m_playbackBuses
          = default_playback_loop drv drv.playbackChannels.length 1 1 []) := by
  obtain ⟨d', _, hset, _⟩ := set_parameters_spec env fuel d rate bufferSize driverType capture
    playback cardDevice ditherShape
  obtain ⟨drv, hdrv, hc, hp, hcb, hpb⟩ := set_parameters_buses env _ _ _ _ _ _ _ _ _ _ hset
  refine ⟨d', drv, hset, hdrv, hc, hp, ?_, ?_, ?_, ?_⟩
  · intro hne
    have hlen : ¬ ((d.m_captureBusConfig.length == 0) = true) := by
      simpa using hne
    rw [if_neg hlen] at hcb
    obtain ⟨n1, n2⟩ := foldl_hashInsert_names (capture_bus_of drv) (capture_bus_of_name drv)
      d.m_captureBusConfig [] (by simp)
    have hnd := foldl_hashInsert_nodup (capture_bus_of drv) d.m_captureBusConfig []
      (by simp)
    rw [← hcb] at n1 n2 hnd
    refine ⟨hcb, ?_, ?_, ?_⟩
    · intro name
      unfold get_capture_buses_names
      rw [names_eq_keys _ n1, n2]
      simp
    · unfold get_capture_buses_names
      rw [names_eq_keys _ n1]
      exact hnd
    · intro q hq
      rw [hcb] at hq
      rcases foldl_hashInsert_values (capture_bus_of drv) d.m_captureBusConfig [] q hq with
        h | ⟨conf, hconf, heq⟩
      · simp at h
      · exact ⟨conf, hconf, by rw [heq, capture_bus_of_eq]⟩
  · intro he
    rw [he] at hcb
    exact hcb
  · intro hne
    have hlen : ¬ ((d.m_playbackBusConfig.length == 0) = true) := by
      simpa using hne
    rw [if_neg hlen] at hpb
    obtain ⟨n1, n2⟩ := foldl_hashInsert_names (playback_bus_of drv) (playback_bus_of_name drv)
      d.m_playbackBusConfig [] (by simp)
    have hnd := foldl_hashInsert_nodup (playback_bus_of drv) d.m_playbackBusConfig []
      (by simp)
    rw [← hpb] at n1 n2 hnd
    refine ⟨hpb, ?_, ?_, ?_⟩
    · intro name
      unfold get_playback_buses_names
      rw [names_eq_keys _ n1, n2]
      simp
    · unfold get_playback_buses_names
      rw [names_eq_keys _ n1]
      exact hnd
    · intro q hq
      rw [hpb] at hq
      rcases foldl_hashInsert_values (playback_bus_of drv) d.m_playbackBusConfig [] q hq with
        h | ⟨conf, hconf, heq⟩
      · simp at h
      · exact ⟨conf, hconf, by rw [heq, playback_bus_of_eq]⟩
  · intro he
    rw [he] at hpb
    exact hpb

/-- C21, at a device that stores a capture configuration and no playback
configuration and has buses left from before: after `set_parameters` for
"ALSA" the capture bus is the configured one over the one channel the driver
owns, and the playback bus is the default stereo pair. -/
theorem C21_stored_config_reapplied_witness :
    (set_parameters chanEnv 2 devStored 44100 256 "ALSA" true true "" "").map
        (fun d => (d.m_captureBuses, d.m_playbackBuses))
      = some ([("In", { name := "In", channels := ["capture_1"] })],
              [("Playback 1",
                { name := "Playback 1", channels := ["playback_1", "playback_2"] })]) ∧
    ∃ (d' : AudioDevice) (drv : Driver),
      set_parameters chanEnv 2 devStored 44100 256 "ALSA" true true "" "" = some d' ∧
      d'.m_driver = some drv ∧
      d'.m_captureBuses = devStored.m_captureBusConfig.foldl
        (fun b conf => hashInsert b conf.name (capture_bus_of drv conf)) [] ∧
      d'.get_capture_buses_names.Nodup ∧
      d'.m_playbackBuses = default_playback_loop drv drv.playbackChannels.length 1 1 [] := by
  refine ⟨by rfl, ?_⟩
  obtain ⟨d', drv, h, hdrv, _, _, hcap, _, _, hplay⟩ :=
    C21_stored_config_reapplied chanEnv 0 devStored 44100 256 "ALSA" true true "" ""
  exact ⟨d', drv, h, hdrv, (hcap (by decide)).1, (hcap (by decide)).2.2.1, hplay rfl⟩

end AudioDevice

namespace PADriver

/-- The inner loop of `_read` for frame `i`, entered with `index = base`:
after `k` channels, `index` is `base + k`, channel `c < k` holds the input
sample `base + c` at position `i`, and nothing else has changed. -/
theorem read_frame (inp : List ℚ) (n i base : Nat) (chs : List AudioChannel)
    (hin : base + chs.length ≤ inp.length)
    (hbuf : ∀ (c : Nat) (ch : AudioChannel), chs[c]? = some ch → i < ch.buf.length)
    (hmax : base + chs.length ≤ INT_MAX) :
    ∀ k, k ≤ chs.length →
      ∃ chs' : List AudioChannel,
        (List.range k).foldlM (read_sample inp n i) (base, chs) = some (base + k, chs') ∧
        chs'.length = chs.length ∧
        ∀ (c : Nat) (ch : AudioChannel), chs[c]? = some ch →
          ∃ ch' : AudioChannel, chs'[c]? = some ch' ∧ ch'.buf.length = ch.buf.length ∧
            ∀ j, ch'.buf[j]? = if j = i ∧ c < k then inp[base + c]? else ch.buf[j]? := by
  intro k
  induction k with
  | zero =>
      intro _
      refine ⟨chs, rfl, rfl, ?_⟩
      intro c ch hc
      exact ⟨ch, hc, rfl, fun j => by simp⟩
  | succ k ih =>
      intro hk
      obtain ⟨chsk, hfold, hlen, hinv⟩ := ih (by omega)
      have hk0 : k < chs.length := by omega
      obtain ⟨chk, hchk, hchklen, hchkbuf⟩ := hinv k chs[k] (List.getElem?_eq_getElem hk0)
      have hi : i < chk.buf.length := by
        rw [hchklen]; exact hbuf k chs[k] (List.getElem?_eq_getElem hk0)
      have hv : inp[base + k]? = some inp[base + k] := List.getElem?_eq_getElem (by omega)
      have hstep : read_sample inp n i (base + k, chsk) k
          = some (base + k + 1, chsk.set k { chk with buf := chk.buf.set i inp[base + k] }) := by
        have hcond : i < chk.buf.length ∧ base + k + 1 ≤ INT_MAX := ⟨hi, by omega⟩
        simp only [read_sample, hchk, hv, AudioChannel.get_buffer, if_pos hcond]
      refine ⟨chsk.set k { chk with buf := chk.buf.set i inp[base + k] }, ?_, ?_, ?_⟩
      · rw [List.range_succ, List.foldlM_append, hfold]
        simp only [Option.bind_eq_bind, Option.some_bind, List.foldlM_cons, List.foldlM_nil,
          hstep]
        rfl
      · rw [List.length_set, hlen]
      · intro c ch hc
        by_cases hck : c = k
        · subst hck
          have hch : ch = chs[c] := by
            rw [List.getElem?_eq_getElem hk0] at hc
            exact (Option.some.inj hc).symm
          refine ⟨_, List.getElem?_set_self (by rw [hlen]; exact hk0), ?_, ?_⟩
          · show (chk.buf.set i inp[base + c]).length = _
            rw [List.length_set, hchklen, hch]
          · intro j
            show (chk.buf.set i inp[base + c])[j]? = _
            rw [List.getElem?_set, hchkbuf j, hch]
            by_cases hji : j = i
            · subst hji
              simp [hi, hv]
            · have hij : ¬ i = j := fun h => hji h.symm
              simp [hji, hij]
        · obtain ⟨ch', h1, h2, h3⟩ := hinv c ch hc
          refine ⟨ch', ?_, h2, ?_⟩
          · rw [List.getElem?_set_ne (fun h => hck h.symm)]
            exact h1
          · intro j
            rw [h3 j]
            have hiff : (j = i ∧ c < k + 1) ↔ (j = i ∧ c < k) := by
              constructor
              · rintro ⟨a, b⟩; exact ⟨a, by omega⟩
              · rintro ⟨a, b⟩; exact ⟨a, by omega⟩
            simp only [hiff]

/-- The two loops of `_read`: after `m` frames `index` is `m * C`, and
channel `c` holds the input sample `j * C + c` at every position `j < m` and
what it held before at the other positions. -/
theorem read_frames (inp : List ℚ) (n : Nat) (chs : List AudioChannel)
    (hin : n * chs.length ≤ inp.length)
    (hbuf : ∀ (c : Nat) (ch : AudioChannel), chs[c]? = some ch → n ≤ ch.buf.length)
    (hmax : n * chs.length ≤ INT_MAX) :
    ∀ m, m ≤ n →
      ∃ chs' : List AudioChannel,
        (List.range m).foldlM
          (fun st i => (List.range chs.length).foldlM (read_sample inp n i) st) (0, chs)
          = some (m * chs.length, chs') ∧
        chs'.length = chs.length ∧
        ∀ (c : Nat) (ch : AudioChannel), chs[c]? = some ch →
          ∃ ch' : AudioChannel, chs'[c]? = some ch' ∧ ch'.buf.length = ch.buf.length ∧
            ∀ j, ch'.buf[j]? = if j < m then inp[j * chs.length + c]? else ch.buf[j]? := by
  intro m
  induction m with
  | zero =>
      intro _
      refine ⟨chs, by simp, rfl, ?_⟩
      intro c ch hc
      exact ⟨ch, hc, rfl, fun j => by simp⟩
  | succ m ih =>
      intro hm
      obtain ⟨chsm, hfold, hlen, hinv⟩ := ih (by omega)
      have hle : (m + 1) * chs.length ≤ n * chs.length := Nat.mul_le_mul_right _ hm
      have hsucc : (m + 1) * chs.length = m * chs.length + chs.length := Nat.succ_mul _ _
      have hbufm : ∀ (c : Nat) (ch : AudioChannel), chsm[c]? = some ch → m < ch.buf.length := by
        intro c ch hc
        have hc0 : c < chs.length := by
          rw [← hlen]
          exact (List.getElem?_eq_some.mp hc).1
        obtain ⟨ch', h1, h2, _⟩ := hinv c chs[c] (List.getElem?_eq_getElem hc0)
        rw [hc] at h1
        cases h1
        rw [h2]
        have := hbuf c chs[c] (List.getElem?_eq_getElem hc0)
        omega
      obtain ⟨chs2, hfold2, hlen2, hinv2⟩ := read_frame inp n m (m * chs.length) chsm
        (by rw [hlen]; omega) hbufm (by rw [hlen]; omega) chs.length (by rw [hlen])
      refine ⟨chs2, ?_, by rw [hlen2, hlen], ?_⟩
      · rw [List.range_succ, List.foldlM_append, hfold]
        simp only [Option.bind_eq_bind, Option.some_bind, List.foldlM_cons, List.foldlM_nil,
          hfold2, hsucc]
        rfl
      · intro c ch hc
        have hc0 : c < chs.length := (List.getElem?_eq_some.mp hc).1
        obtain ⟨ch1, h1, h2, h3⟩ := hinv c ch hc
        obtain ⟨ch2, g1, g2, g3⟩ := hinv2 c ch1 h1
        refine ⟨ch2, g1, by rw [g2, h2], ?_⟩
        intro j
        rw [g3 j, h3 j]
        by_cases hjm : j = m
        · subst hjm
          simp [hc0]
        · by_cases hlt : j < m
          · have : j < m + 1 := by omega
            simp [hjm, hlt, this]
          · have : ¬ j < m + 1 := by omega
            simp [hjm, hlt, this]

/-- With at least one capture channel, buffers with room for `n` samples,
`n * C` input samples and `n * C` within the range of `int`, `_read(n)`
returns 1 having changed the capture buffers alone: channel `c` holds the
input sample `i * C + c` at every position `i < n`. -/
theorem read_spec (drv : PADriver) (n : Nat)
    (hne : drv.m_captureChannels ≠ [])
    (hin : n * drv.m_captureChannels.length ≤ drv.m_paInputBuffer.length)
    (hbuf : ∀ ch ∈ drv.m_captureChannels, n ≤ ch.buf.length)
    (hmax : n * drv.m_captureChannels.length ≤ INT_MAX) :
    ∃ drv' : PADriver, drv._read n = some (1, drv') ∧
      drv'.m_captureChannels.length = drv.m_captureChannels.length ∧
      drv'.m_paInputBuffer = drv.m_paInputBuffer ∧
      drv'.m_paOutputBuffer = drv.m_paOutputBuffer ∧
      drv'.m_playbackChannels = drv.m_playbackChannels ∧
      (∀ (c : Nat) (ch : AudioChannel), drv.m_captureChannels[c]? = some ch →
        ∃ ch' : AudioChannel, drv'.m_captureChannels[c]? = some ch' ∧
          ch'.buf.length = ch.buf.length) ∧
      ∀ i c, i < n → c < drv.m_captureChannels.length →
        ∃ (ch' : AudioChannel) (v : ℚ), drv'.m_captureChannels[c]? = some ch' ∧
          drv.m_paInputBuffer[i * drv.m_captureChannels.length + c]? = some v ∧
          ch'.buf[i]? = some v := by
  have hz : ¬ drv.m_captureChannels.length = 0 := by
    intro h
    exact hne (List.length_eq_zero.mp h)
  obtain ⟨chs', hfold, hlen, hinv⟩ := read_frames drv.m_paInputBuffer n drv.m_captureChannels
    hin (fun c ch hc => hbuf ch (List.getElem?_mem hc)) hmax n (le_refl n)
  refine ⟨{ drv with m_captureChannels := chs' }, ?_, hlen, rfl, rfl, rfl, ?_, ?_⟩
  · unfold _read
    rw [if_neg hz, hfold]
  · intro c ch hc
    obtain ⟨ch', h1, h2, _⟩ := hinv c ch hc
    exact ⟨ch', h1, h2⟩
  · intro i c hi hc
    obtain ⟨ch', h1, _, h3⟩ := hinv c _ (List.getElem?_eq_getElem hc)
    have hidx : i * drv.m_captureChannels.length + c < drv.m_paInputBuffer.length := by
      have h1 : (i + 1) * drv.m_captureChannels.length ≤ n * drv.m_captureChannels.length :=
        Nat.mul_le_mul_right _ hi
      rw [Nat.succ_mul] at h1
      omega
    refine ⟨ch', _, h1, List.getElem?_eq_getElem hidx, ?_⟩
    rw [h3 i, if_pos hi]
    exact List.getElem?_eq_getElem hidx

/-- C28. `_read(n)` with no capture channel returns 0 and leaves the driver
as it was; whenever it returns, the value is 0 or 1, never negative. With
`C ≥ 1` capture channels whose buffers have room for `n` samples, an input
buffer that holds `n * C` samples, and `n * C` within the range of the `int`
index, it returns 1, and afterwards the buffer of capture channel `c` holds
at position `i` the input sample at index `i * C + c`, for every `i < n` and
`c < C`; the number of channels, the lengths of their buffers, the input
buffer, the output buffer and the playback channels are as before. -/
theorem C28_read_deinterleaves (drv : PADriver) (n : Nat) :
    (drv.m_captureChannels = [] → drv._read n = some (0, drv)) ∧
    (∀ (r : Int) (drv' : PADriver), drv._read n = some (r, drv') → r = 0 ∨ r = 1) ∧
    (drv.m_captureChannels ≠ [] →
      n * drv.m_captureChannels.length ≤ drv.m_paInputBuffer.length →
      (∀ ch ∈ drv.m_captureChannels, n ≤ ch.buf.length) →
      n * drv.m_captureChannels.length ≤ INT_MAX →
      ∃ drv' : PADriver, drv._read n = some (1, drv') ∧
        drv'.m_captureChannels.length = drv.m_captureChannels.length ∧
        drv'.m_paInputBuffer = drv.m_paInputBuffer ∧
        drv'.m_paOutputBuffer = drv.m_paOutputBuffer ∧
        drv'.m_playbackChannels = drv.m_playbackChannels ∧
        (∀ (c : Nat) (ch : AudioChannel), drv.m_captureChannels[c]? = some ch →
          ∃ ch' : AudioChannel, drv'.m_captureChannels[c]? = some ch' ∧
            ch'.buf.length = ch.buf.length) ∧
        ∀ i c, i < n → c < drv.m_captureChannels.length →
          ∃ (ch' : AudioChannel) (v : ℚ), drv'.m_captureChannels[c]? = some ch' ∧
            drv.m_paInputBuffer[i * drv.m_captureChannels.length + c]? = some v ∧
            ch'.buf[i]? = some v) := by
  refine ⟨?_, ?_, ?_⟩
  · intro h
    simp [_read, h]
  · intro r drv' h
    unfold _read at h
    by_cases hz : drv.m_captureChannels.length = 0
    · rw [if_pos hz] at h
      cases h
      exact Or.inl rfl
    · rw [if_neg hz] at h
      generalize (List.range n).foldlM
        (fun st i => (List.range drv.m_captureChannels.length).foldlM
          (read_sample drv.m_paInputBuffer n i) st) (0, drv.m_captureChannels) = res at h
      cases res with
      | none => cases h
      | some st =>
          cases h
          exact Or.inr rfl
  · exact read_spec drv n

/-- C28, at a driver with two capture channels and the input frames (1, 2)
and (3, 4): channel 0 receives 1 and 3, channel 1 receives 2 and 4. -/
theorem C28_read_deinterleaves_witness :
    (drvStereo._read 2).map (fun r => (r.1, r.2.m_captureChannels.map AudioChannel.buf))
      = some (1, [[1, 3, 0], [2, 4, 0]]) ∧
    ∃ drv' : PADriver, drvStereo._read 2 = some (1, drv') ∧
      ∀ i c, i < 2 → c < 2 →
        ∃ (ch' : AudioChannel) (v : ℚ), drv'.m_captureChannels[c]? = some ch' ∧
          drvStereo.m_paInputBuffer[i * 2 + c]? = some v ∧ ch'.buf[i]? = some v := by
  refine ⟨by rfl, ?_⟩
  obtain ⟨drv', h, _, _, _, _, _, hsamples⟩ :=
    (C28_read_deinterleaves drvStereo 2).2.2 (List.cons_ne_nil _ _) (by decide) (by decide)
      (by decide)
  exact ⟨drv', h, hsamples⟩

/-- `silence_buffer(n)` on a buffer with room for `n` samples: the buffer
keeps its length, holds 0 at the positions below `n` and what it held before
at the others. -/
theorem silence_buffer_spec (ch : AudioChannel) (n : Nat) (h : n ≤ ch.buf.length) :
    ∃ ch' : AudioChannel, ch.silence_buffer n = some ch' ∧
      ch'.buf.length = ch.buf.length ∧
      ∀ j, ch'.buf[j]? = if j < n then some 0 else ch.buf[j]? := by
  refine ⟨{ ch with buf := List.replicate n 0 ++ ch.buf.drop n }, ?_, ?_, ?_⟩
  · unfold AudioChannel.silence_buffer
    rw [if_pos h]
  · show (List.replicate n 0 ++ ch.buf.drop n).length = _
    rw [List.length_append, List.length_replicate, List.length_drop]
    omega
  · intro j
    show (List.replicate n 0 ++ ch.buf.drop n)[j]? = _
    rw [List.getElem?_append, List.length_replicate]
    by_cases hj : j < n
    · rw [if_pos hj, if_pos hj, List.getElem?_replicate, if_pos hj]
    · rw [if_neg hj, if_neg hj, List.getElem?_drop]
      congr 1
      omega

/-- The inner loop of `_write` for frame `i`, entered with `index = base`:
after `k` channels, `index` is `base + k`, the output holds at `base + c`
the sample of channel `c < k` at position `i`, and nothing else has
changed. -/
theorem write_frame (chans : List AudioChannel) (n i base : Nat) (out : List ℚ)
    (hout : base + chans.length ≤ out.length)
    (hbuf : ∀ (c : Nat) (ch : AudioChannel), chans[c]? = some ch → i < ch.buf.length)
    (hmax : base + chans.length ≤ INT_MAX) :
    ∀ k, k ≤ chans.length →
      ∃ out' : List ℚ,
        (List.range k).foldlM (write_sample chans n i) (base, out) = some (base + k, out') ∧
        out'.length = out.length ∧
        (∀ (c : Nat) (ch : AudioChannel), chans[c]? = some ch → c < k →
          out'[base + c]? = ch.buf[i]?) ∧
        ∀ j, (j < base ∨ base + k ≤ j) → out'[j]? = out[j]? := by
  intro k
  induction k with
  | zero =>
      intro _
      exact ⟨out, rfl, rfl, fun c ch _ hc => absurd hc (Nat.not_lt_zero c), fun j _ => rfl⟩
  | succ k ih =>
      intro hk
      obtain ⟨outk, hfold, hlen, hcont, hframe⟩ := ih (by omega)
      have hk0 : k < chans.length := by omega
      have hchk : chans[k]? = some chans[k] := List.getElem?_eq_getElem hk0
      have hi : i < chans[k].buf.length := hbuf k chans[k] hchk
      have hv : chans[k].buf[i]? = some chans[k].buf[i] := List.getElem?_eq_getElem hi
      have hstep : write_sample chans n i (base + k, outk) k
          = some (base + k + 1, outk.set (base + k) chans[k].buf[i]) := by
        have hcond : base + k < outk.length ∧ base + k + 1 ≤ INT_MAX :=
          ⟨by rw [hlen]; omega, by omega⟩
        simp only [write_sample, hchk, hv, AudioChannel.get_buffer, if_pos hcond]
      refine ⟨outk.set (base + k) chans[k].buf[i], ?_, ?_, ?_, ?_⟩
      · rw [List.range_succ, List.foldlM_append, hfold]
        simp only [Option.bind_eq_bind, Option.some_bind, List.foldlM_cons, List.foldlM_nil,
          hstep]
        rfl
      · rw [List.length_set, hlen]
      · intro c ch hc hck
        by_cases hck' : c = k
        · subst hck'
          rw [hchk] at hc
          cases hc
          rw [List.getElem?_set_self (by rw [hlen]; omega), hv]
        · rw [List.getElem?_set_ne (by omega)]
          exact hcont c ch hc (by omega)
      · intro j hj
        rw [List.getElem?_set_ne (by omega)]
        exact hframe j (by omega)

/-- The first two loops of `_write`: after `m` frames `index` is `m * C`,
the output holds at `i * C + c` the sample of channel `c` at position
`i < m`, and the output from `m * C` on is as before. -/
theorem write_frames (chans : List AudioChannel) (n : Nat) (out : List ℚ)
    (hout : n * chans.length ≤ out.length)
    (hbuf : ∀ (c : Nat) (ch : AudioChannel), chans[c]? = some ch → n ≤ ch.buf.length)
    (hmax : n * chans.length ≤ INT_MAX) :
    ∀ m, m ≤ n →
      ∃ out' : List ℚ,
        (List.range m).foldlM
          (fun st i => (List.range chans.length).foldlM (write_sample chans n i) st) (0, out)
          = some (m * chans.length, out') ∧
        out'.length = out.length ∧
        (∀ (i c : Nat) (ch : AudioChannel), i < m → chans[c]? = some ch →
          out'[i * chans.length + c]? = ch.buf[i]?) ∧
        ∀ j, m * chans.length ≤ j → out'[j]? = out[j]? := by
  intro m
  induction m with
  | zero =>
      intro _
      refine ⟨out, by simp, rfl, fun i c ch hi _ => absurd hi (Nat.not_lt_zero i),
        fun j _ => rfl⟩
  | succ m ih =>
      intro hm
      obtain ⟨outm, hfold, hlen, hcont, hframe⟩ := ih (by omega)
      have hle : (m + 1) * chans.length ≤ n * chans.length := Nat.mul_le_mul_right _ hm
      have hsucc : (m + 1) * chans.length = m * chans.length + chans.length :=
        Nat.succ_mul _ _
      obtain ⟨out2, hfold2, hlen2, hcont2, hframe2⟩ :=
        write_frame chans n m (m * chans.length) outm (by rw [hlen]; omega)
          (fun c ch hc => by have := hbuf c ch hc; omega) (by omega) chans.length (le_refl _)
      refine ⟨out2, ?_, by rw [hlen2, hlen], ?_, ?_⟩
      · rw [List.range_succ, List.foldlM_append, hfold]
        simp only [Option.bind_eq_bind, Option.some_bind, List.foldlM_cons, List.foldlM_nil,
          hfold2, hsucc]
        rfl
      · intro i c ch hi hc
        have hc0 : c < chans.length := (List.getElem?_eq_some.mp hc).1
        by_cases him : i = m
        · subst him
          exact hcont2 c ch hc hc0
        · have hlt : i < m := by omega
          have hmul : (i + 1) * chans.length ≤ m * chans.length :=
            Nat.mul_le_mul_right _ hlt
          rw [Nat.succ_mul] at hmul
          rw [hframe2 _ (Or.inl (by omega))]
          exact hcont i c ch hlt hc
      · intro j hj
        rw [hframe2 j (Or.inr (by omega))]
        exact hframe j (by omega)

/-- The last loop of `_write`: after `k` channels, the buffers of the
channels below `k` hold 0 at the positions below `n`, and nothing else has
changed. -/
theorem silence_all (n : Nat) (chans : List AudioChannel)
    (hbuf : ∀ (c : Nat) (ch : AudioChannel), chans[c]? = some ch → n ≤ ch.buf.length) :
    ∀ k, k ≤ chans.length →
      ∃ chs' : List AudioChannel,
        (List.range k).foldlM (silence_channel n) chans = some chs' ∧
        chs'.length = chans.length ∧
        ∀ (c : Nat) (ch : AudioChannel), chans[c]? = some ch →
          ∃ ch' : AudioChannel, chs'[c]? = some ch' ∧ ch'.buf.length = ch.buf.length ∧
            ∀ j, ch'.buf[j]? = if j < n ∧ c < k then some 0 else ch.buf[j]? := by
  intro k
  induction k with
  | zero =>
      intro _
      refine ⟨chans, rfl, rfl, ?_⟩
      intro c ch hc
      exact ⟨ch, hc, rfl, fun j => by simp⟩
  | succ k ih =>
      intro hk
      obtain ⟨chsk, hfold, hlen, hinv⟩ := ih (by omega)
      have hk0 : k < chans.length := by omega
      have hch0 : chans[k]? = some chans[k] := List.getElem?_eq_getElem hk0
      obtain ⟨chk, hchk, hchklen, hchkbuf⟩ := hinv k chans[k] hch0
      obtain ⟨chz, hz1, hz2, hz3⟩ := silence_buffer_spec chk n
        (by rw [hchklen]; exact hbuf k chans[k] hch0)
      have hstep : silence_channel n chsk k = some (chsk.set k chz) := by
        simp only [silence_channel, hchk, hz1, Option.map_some']
      refine ⟨chsk.set k chz, ?_, ?_, ?_⟩
      · rw [List.range_succ, List.foldlM_append, hfold]
        simp only [Option.bind_eq_bind, Option.some_bind, List.foldlM_cons, List.foldlM_nil,
          hstep]
        rfl
      · rw [List.length_set, hlen]
      · intro c ch hc
        by_cases hck : c = k
        · subst hck
          rw [hch0] at hc
          cases hc
          refine ⟨chz, List.getElem?_set_self (by rw [hlen]; exact hk0), by rw [hz2, hchklen],
            ?_⟩
          intro j
          rw [hz3 j, hchkbuf j]
          by_cases hj : j < n
          · simp [hj]
          · simp [hj]
        · obtain ⟨ch', h1, h2, h3⟩ := hinv c ch hc
          refine ⟨ch', ?_, h2, ?_⟩
          · rw [List.getElem?_set_ne (fun h => hck h.symm)]
            exact h1
          · intro j
            rw [h3 j]
            have hiff : (j < n ∧ c < k + 1) ↔ (j < n ∧ c < k) := by
              constructor
              · rintro ⟨a, b⟩; exact ⟨a, by omega⟩
              · rintro ⟨a, b⟩; exact ⟨a, by omega⟩
            simp only [hiff]

/-- With at least one playback channel, buffers with room for `n` samples,
an output buffer with room for `n * C` samples and `n * C` within the range
of `int`, `_write(n)` returns 1: the output holds at `i * C + c` the sample
that channel `c` had at position `i < n`, every playback buffer holds 0 at
the positions below `n` and what it held before at the others, and the
capture channels and the input buffer are as before. -/
theorem write_spec (drv : PADriver) (n : Nat)
    (hne : drv.m_playbackChannels ≠ [])
    (hbuf : ∀ ch ∈ drv.m_playbackChannels, n ≤ ch.buf.length)
    (hout : n * drv.m_playbackChannels.length ≤ drv.m_paOutputBuffer.length)
    (hmax : n * drv.m_playbackChannels.length ≤ INT_MAX) :
    ∃ drv' : PADriver, drv._write n = some (1, drv') ∧
      (∀ (i c : Nat) (ch : AudioChannel), i < n → drv.m_playbackChannels[c]? = some ch →
        ∃ v : ℚ, ch.buf[i]? = some v ∧
          drv'.m_paOutputBuffer[i * drv.m_playbackChannels.length + c]? = some v) ∧
      drv'.m_paOutputBuffer.length = drv.m_paOutputBuffer.length ∧
      (∀ j, n * drv.m_playbackChannels.length ≤ j →
        drv'.m_paOutputBuffer[j]? = drv.m_paOutputBuffer[j]?) ∧
      drv'.m_playbackChannels.length = drv.m_playbackChannels.length ∧
      (∀ (c : Nat) (ch : AudioChannel), drv.m_playbackChannels[c]? = some ch →
        ∃ ch' : AudioChannel, drv'.m_playbackChannels[c]? = some ch' ∧
          ch'.buf.length = ch.buf.length ∧
          ∀ j, ch'.buf[j]? = if j < n then some 0 else ch.buf[j]?) ∧
      drv'.m_captureChannels = drv.m_captureChannels ∧
      drv'.m_paInputBuffer = drv.m_paInputBuffer := by
  have hz : ¬ drv.m_playbackChannels.length = 0 := by
    intro h
    exact hne (List.length_eq_zero.mp h)
  have hbuf' : ∀ (c : Nat) (ch : AudioChannel), drv.m_playbackChannels[c]? = some ch →
      n ≤ ch.buf.length := fun c ch hc => hbuf ch (List.getElem?_mem hc)
  obtain ⟨out', hfold, hlen, hcont, hframe⟩ :=
    write_frames drv.m_playbackChannels n drv.m_paOutputBuffer hout hbuf' hmax n (le_refl n)
  obtain ⟨chs', hsil, hslen, hsinv⟩ :=
    silence_all n drv.m_playbackChannels hbuf' drv.m_playbackChannels.length (le_refl _)
  refine ⟨{ drv with m_paOutputBuffer := out', m_playbackChannels := chs' }, ?_, ?_, hlen,
    hframe, hslen, ?_, rfl, rfl⟩
  · unfold _write
    rw [if_neg hz, hfold]
    simp only [hsil]
  · intro i c ch hi hc
    have hlt : i < ch.buf.length := by
      have := hbuf' c ch hc
      omega
    exact ⟨ch.buf[i], List.getElem?_eq_getElem hlt, by
      show out'[i * drv.m_playbackChannels.length + c]? = _
      rw [hcont i c ch hi hc]
      exact List.getElem?_eq_getElem hlt⟩
  · intro c ch hc
    obtain ⟨ch', h1, h2, h3⟩ := hsinv c ch hc
    refine ⟨ch', h1, h2, ?_⟩
    intro j
    rw [h3 j]
    have hc0 : c < drv.m_playbackChannels.length := (List.getElem?_eq_some.mp hc).1
    by_cases hj : j < n
    · simp [hj, hc0]
    · simp [hj]

/-- C29. With `C ≥ 1` playback channels whose buffers have room for `n`
samples, an output buffer with room for `n * C` samples and `n * C` within
the range of the `int` index, `_write(n)` returns 1; afterwards the output
buffer holds at index `i * C + c` the sample that playback channel `c` had at
position `i` before the call, for every `i < n` and `c < C`, and every
playback buffer holds 0 at its first `n` positions. Consequently: when
`_read(n)` has returned 1 and then the first `n` samples of every playback
buffer have been made equal to those of the capture buffer of the same index
(the channel counts being equal), `_write(n)` returns 1 and the first
`n * C` output samples are the input samples. -/
theorem C29_write_interleaves_then_silences (n : Nat) :
    (∀ drv : PADriver, drv.m_playbackChannels ≠ [] →
      (∀ ch ∈ drv.m_playbackChannels, n ≤ ch.buf.length) →
      n * drv.m_playbackChannels.length ≤ drv.m_paOutputBuffer.length →
      n * drv.m_playbackChannels.length ≤ INT_MAX →
      ∃ drv' : PADriver, drv._write n = some (1, drv') ∧
        (∀ (i c : Nat) (ch : AudioChannel), i < n → drv.m_playbackChannels[c]? = some ch →
          ∃ v : ℚ, ch.buf[i]? = some v ∧
            drv'.m_paOutputBuffer[i * drv.m_playbackChannels.length + c]? = some v) ∧
        drv'.m_playbackChannels.length = drv.m_playbackChannels.length ∧
        (∀ (c : Nat) (ch : AudioChannel), drv.m_playbackChannels[c]? = some ch →
          ∃ ch' : AudioChannel, drv'.m_playbackChannels[c]? = some ch' ∧
            ch'.buf.length = ch.buf.length ∧
            ∀ i, i < n → ch'.buf[i]? = some 0)) ∧
    (∀ drv0 drv1 drv2 : PADriver, drv0.m_captureChannels ≠ [] →
      n * drv0.m_captureChannels.length ≤ drv0.m_paInputBuffer.length →
      (∀ ch ∈ drv0.m_captureChannels, n ≤ ch.buf.length) →
      n * drv0.m_captureChannels.length ≤ INT_MAX →
      drv0._read n = some (1, drv1) →
      drv2.m_playbackChannels.map (fun ch => ch.buf.take n)
        = drv1.m_captureChannels.map (fun ch => ch.buf.take n) →
      n * drv2.m_playbackChannels.length ≤ drv2.m_paOutputBuffer.length →
      ∃ drv3 : PADriver, drv2._write n = some (1, drv3) ∧
        ∀ j, j < n * drv0.m_captureChannels.length →
          ∃ v : ℚ, drv0.m_paInputBuffer[j]? = some v ∧
            drv3.m_paOutputBuffer[j]? = some v) := by
  constructor
  · intro drv hne hbuf hout hmax
    obtain ⟨drv', h, hcont, _, _, hlen, hsil, _, _⟩ := write_spec drv n hne hbuf hout hmax
    refine ⟨drv', h, hcont, hlen, ?_⟩
    intro c ch hc
    obtain ⟨ch', h1, h2, h3⟩ := hsil c ch hc
    exact ⟨ch', h1, h2, fun i hi => by rw [h3 i, if_pos hi]⟩
  · intro drv0 drv1 drv2 hne hin hbuf hmax hread hcopy hout
    obtain ⟨drv1', hread', hlen1, _, _, _, hlens, hsamples⟩ :=
      read_spec drv0 n hne hin hbuf hmax
    rw [hread] at hread'
    cases hread'
    have hlen2 : drv2.m_playbackChannels.length = drv0.m_captureChannels.length := by
      have := congrArg List.length hcopy
      rw [List.length_map, List.length_map] at this
      rw [this, hlen1]
    have hpair : ∀ (c : Nat) (play : AudioChannel), drv2.m_playbackChannels[c]? = some play →
        ∃ cap : AudioChannel, drv1.m_captureChannels[c]? = some cap ∧
          n ≤ cap.buf.length ∧ play.buf.take n = cap.buf.take n := by
      intro c play hc
      have hc0 : c < drv0.m_captureChannels.length := by
        rw [← hlen2]
        exact (List.getElem?_eq_some.mp hc).1
      obtain ⟨cap, hcap, hcaplen⟩ := hlens c _ (List.getElem?_eq_getElem hc0)
      refine ⟨cap, hcap, ?_, ?_⟩
      · rw [hcaplen]
        exact hbuf _ (List.getElem_mem _)
      · have := congrArg (fun l => l[c]?) hcopy
        simp only [List.getElem?_map, hc, hcap, Option.map_some'] at this
        exact Option.some.inj this
    have hbuf2 : ∀ ch ∈ drv2.m_playbackChannels, n ≤ ch.buf.length := by
      intro play hplay
      obtain ⟨c, hc⟩ := List.mem_iff_getElem?.mp hplay
      obtain ⟨cap, _, hcaplen, htake⟩ := hpair c play hc
      have := congrArg List.length htake
      rw [List.length_take, List.length_take] at this
      omega
    have hne2 : drv2.m_playbackChannels ≠ [] := by
      intro h
      rw [h] at hlen2
      exact hne (List.length_eq_zero.mp hlen2.symm)
    obtain ⟨drv3, hwrite, hcont, _⟩ := write_spec drv2 n hne2 hbuf2 hout
      (by rw [hlen2]; exact hmax)
    refine ⟨drv3, hwrite, ?_⟩
    intro j hj
    have hCpos : 0 < drv0.m_captureChannels.length := by
      rcases Nat.eq_zero_or_pos drv0.m_captureChannels.length with h | h
      · rw [h] at hj; simp at hj
      · exact h
    have hi : j / drv0.m_captureChannels.length < n :=
      Nat.div_lt_of_lt_mul (by rw [Nat.mul_comm]; exact hj)
    have hc : j % drv0.m_captureChannels.length < drv0.m_captureChannels.length :=
      Nat.mod_lt _ hCpos
    have hjeq : j / drv0.m_captureChannels.length * drv0.m_captureChannels.length
        + j % drv0.m_captureChannels.length = j := by
      rw [Nat.mul_comm]
      exact Nat.div_add_mod j _
    obtain ⟨cap, v, hcap, hv, hcapv⟩ := hsamples _ _ hi hc
    rw [hjeq] at hv
    have hc2 : j % drv0.m_captureChannels.length < drv2.m_playbackChannels.length := by
      rw [hlen2]; exact hc
    obtain ⟨cap', hcap', _, htake⟩ := hpair _ _ (List.getElem?_eq_getElem hc2)
    rw [hcap] at hcap'
    cases hcap'
    obtain ⟨w, hw, hout3⟩ := hcont _ _ _ hi (List.getElem?_eq_getElem hc2)
    rw [hlen2, hjeq] at hout3
    have hwv : w = v := by
      have h1 : (List.take n (drv2.m_playbackChannels[j % drv0.m_captureChannels.length]).buf)[
          j / drv0.m_captureChannels.length]? = some w := by
        rw [List.getElem?_take_of_lt hi]
        exact hw
      rw [htake, List.getElem?_take_of_lt hi, hcapv] at h1
      exact (Option.some.inj h1).symm
    exact ⟨v, hv, by rw [hout3, hwv]⟩

/-- C29, at a driver with two playback channels holding (5, 6) and (8, 9):
the output is 5, 8, 6, 9 and both buffers are silenced; and at the same
driver after `_read(2)` of the input 1, 2, 3, 4 and a copy of the capture
buffers to the playback buffers: the output is the input. -/
theorem C29_write_interleaves_then_silences_witness :
    (drvStereo._write 2).map
        (fun r => (r.1, r.2.m_paOutputBuffer, r.2.m_playbackChannels.map AudioChannel.buf))
      = some (1, [5, 8, 6, 9], [[0, 0, 7], [0, 0, 10]]) ∧
    (drvCopied._write 2).map (fun r => (r.1, r.2.m_paOutputBuffer)) = some (1, [1, 2, 3, 4]) ∧
    (∃ drv' : PADriver, drvStereo._write 2 = some (1, drv') ∧
      (∀ (i c : Nat) (ch : AudioChannel), i < 2 → drvStereo.m_playbackChannels[c]? = some ch →
        ∃ v : ℚ, ch.buf[i]? = some v ∧
          drv'.m_paOutputBuffer[i * drvStereo.m_playbackChannels.length + c]? = some v) ∧
      drv'.m_playbackChannels.length = drvStereo.m_playbackChannels.length ∧
      (∀ (c : Nat) (ch : AudioChannel), drvStereo.m_playbackChannels[c]? = some ch →
        ∃ ch' : AudioChannel, drv'.m_playbackChannels[c]? = some ch' ∧
          ch'.buf.length = ch.buf.length ∧
          ∀ i, i < 2 → ch'.buf[i]? = some 0)) ∧
    ∃ drv3 : PADriver, drvCopied._write 2 = some (1, drv3) ∧
      ∀ j, j < 2 * drvStereo.m_captureChannels.length →
        ∃ v : ℚ, drvStereo.m_paInputBuffer[j]? = some v ∧
          drv3.m_paOutputBuffer[j]? = some v :=
  ⟨by rfl, by rfl,
   (C29_write_interleaves_then_silences 2).1 drvStereo (List.cons_ne_nil _ _) (by decide)
     (by decide) (by decide),
   (C29_write_interleaves_then_silences 2).2 drvStereo drvRead drvCopied
     (List.cons_ne_nil _ _) (by decide) (by decide) (by decide) (by rfl) (by rfl)
     (by decide)⟩

end PADriver

end SoundOcean
